import Mathlib

/-!
# Verification of the morphologica HexGrid engine

Shallow embedding of `src/HexGrid.cpp` (class `morph::HexGrid`): the
ring-by-ring lattice construction (`init`), boundary attachment
(`setBoundary` overloads, `boundaryContiguous`), pruning
(`discardOutsideBoundary`, `discardOutsideDomain`, `renumberVectorIndices`)
and domain flattening (`setDomain`, `populate_d_vectors`,
`populate_d_neighbours`, `populate_sp_d_neighbours`).

Modelling conventions:
* The C++ `std::list<Hex>` with iterator-valued neighbour pointers becomes a
  `List Hex` in the same order, where every cell carries a stable identity
  `hid` (the embedding of its iterator/address) and each neighbour pointer
  plus its `has_<dir>` flag becomes an `Option Nat` holding the target `hid`.
* `float` arithmetic is embedded as exact rational arithmetic.  The row
  spacing `v` (`d * sqrt 3 / 2` in the source, an irrational number) is kept
  as a positive rational parameter of the grid; the embedded code only ever
  uses the `y` coordinate through ratios `y / v` and through order
  comparisons, which have the same outcome for any positive `v`.  Euclidean
  distances are embedded by their squares (`distSqFrom`); the source only
  compares distances of non-negative lengths, and squaring preserves those
  comparisons exactly.
* The class `Hex` (header `Hex.h`) is not among the sources; its fields and
  the behaviour of its small methods (`set_ne` …, `disconnectNeighbours`,
  `getFlags`, `distanceFrom`) are modelled from the spec where marked below.
* Recursions whose termination in C++ is data-dependent (depth-first walks,
  raster loops) take an explicit fuel argument; every theorem about them
  either supplies provably sufficient fuel or evaluates a concrete run.
-/

namespace MorphHex

/-- The six lattice directions, in the order the source enumerates them:
NE, NNE, NNW, NW, NSW, NSE (NE is the +ri axial step, i.e. due east). -/
inductive Dir
  | ne | nne | nnw | nw | nsw | nse
deriving DecidableEq, Repr, Fintype

/-- All six directions, in source order. -/
def dirList : List Dir := [.ne, .nne, .nnw, .nw, .nsw, .nse]

/-- The opposite of a direction: three steps around the six-direction cycle
(NE↔NW, NNE↔NSW, NNW↔NSE). -/
def Dir.opp : Dir → Dir
  | .ne => .nw
  | .nne => .nsw
  | .nnw => .nse
  | .nw => .ne
  | .nsw => .nne
  | .nse => .nnw

/-- Axial-coordinate offset `(ri, gi)` of one step in each direction,
matching the Cartesian placement `x = d*(ri + gi/2)`, `y = v*gi`. -/
def Dir.delta : Dir → Int × Int
  | .ne => (1, 0)
  | .nne => (0, 1)
  | .nnw => (-1, 1)
  | .nw => (-1, 0)
  | .nsw => (0, -1)
  | .nse => (1, -1)

@[simp] theorem Dir.opp_opp (d : Dir) : d.opp.opp = d := by cases d <;> rfl

/-- Modelled from the spec: `Hex.h` is not among the sources.  A cell has
axial coordinates `(ri, gi)`, the dense identity `vi`, boolean flags
`boundaryHex` / `insideBoundary` / `insideDomain`, a flat-array index `di`
(meaningful only after a `d_push_back`/`sp_push_back`), a sub-parallelogram
id `allocatedSubp` (-1 = not tiled, the source asserts this default), a
distance-to-boundary initialised negative (the source treats a negative
value as "unset"), and six optional neighbour links.  `hid` embeds the
cell's C++ identity (its address / list iterator); neighbour pointers are
stored as the target's `hid`.  Cartesian `x`,`y` are derived by
`hexX`/`hexY` rather than stored (the source computes them once from
`(ri, gi)` and the spacing and never mutates them). -/
structure Hex where
  hid : Nat
  vi : Nat
  ri : Int
  gi : Int
  boundaryHex : Bool := false
  insideBoundary : Bool := false
  insideDomain : Bool := false
  di : Int := 0
  allocatedSubp : Int := -1
  distToBoundary : ℚ := -1
  ne : Option Nat := none
  nne : Option Nat := none
  nnw : Option Nat := none
  nw : Option Nat := none
  nsw : Option Nat := none
  nse : Option Nat := none
deriving DecidableEq, Repr

/-- `Hex(vi, d, ri, gi)` constructor: fresh cell, no neighbours. -/
def mkHex (vi : Nat) (ri gi : Int) : Hex :=
  { hid := vi, vi := vi, ri := ri, gi := gi }

/-- Neighbour link in a given direction (pointer + `has_<dir>` flag). -/
def Hex.link (h : Hex) : Dir → Option Nat
  | .ne => h.ne
  | .nne => h.nne
  | .nnw => h.nnw
  | .nw => h.nw
  | .nsw => h.nsw
  | .nse => h.nse

/-- Set (or clear) the neighbour link in one direction. -/
def Hex.setDir (h : Hex) (d : Dir) (v : Option Nat) : Hex :=
  match d with
  | .ne => { h with ne := v }
  | .nne => { h with nne := v }
  | .nnw => { h with nnw := v }
  | .nw => { h with nw := v }
  | .nsw => { h with nsw := v }
  | .nse => { h with nse := v }

@[simp] theorem Hex.link_setDir_same (h : Hex) (d : Dir) (v : Option Nat) :
    (h.setDir d v).link d = v := by cases d <;> rfl

theorem Hex.link_setDir_other (h : Hex) (d d' : Dir) (v : Option Nat)
    (hne : d' ≠ d) : (h.setDir d v).link d' = h.link d' := by
  cases d <;> cases d' <;> simp_all [Hex.setDir, Hex.link]

@[simp] theorem Hex.hid_setDir (h : Hex) (d : Dir) (v : Option Nat) :
    (h.setDir d v).hid = h.hid := by cases d <;> rfl

@[simp] theorem Hex.ri_setDir (h : Hex) (d : Dir) (v : Option Nat) :
    (h.setDir d v).ri = h.ri := by cases d <;> rfl

@[simp] theorem Hex.gi_setDir (h : Hex) (d : Dir) (v : Option Nat) :
    (h.setDir d v).gi = h.gi := by cases d <;> rfl

/-- Cartesian x of a cell: `x = d * (ri + gi/2)`. -/
def hexX (d : ℚ) (h : Hex) : ℚ := d * ((h.ri : ℚ) + (h.gi : ℚ) / 2)

/-- Cartesian y of a cell: `y = v * gi` (`v = d·√3/2` in the source). -/
def hexY (v : ℚ) (h : Hex) : ℚ := v * (h.gi : ℚ)

/-- Modelled from the spec: `Hex::distanceFrom` (in the missing `Hex.h`)
is the Euclidean distance; we embed its square, which the embedded code
only ever uses inside order comparisons. -/
def distSqFromPt (d v : ℚ) (h : Hex) (p : ℚ × ℚ) : ℚ :=
  (hexX d h - p.1) ^ 2 + (hexY v h - p.2) ^ 2

/-- Squared distance between two cells. -/
def distSqFromHex (d v : ℚ) (h k : Hex) : ℚ :=
  (hexX d h - hexX d k) ^ 2 + (hexY v h - hexY v k) ^ 2

/-- Find the cell with a given identity (dereference an iterator). -/
def findHex (s : List Hex) (i : Nat) : Option Hex := s.find? (fun h => h.hid = i)

/-- `a->set_<dir>(b)`: one directed neighbour-pointer assignment
(applied to the cell with identity `a` inside the owning list). -/
def setL (s : List Hex) (a : Nat) (dir : Dir) (b : Nat) : List Hex :=
  s.map fun h => if h.hid = a then h.setDir dir (some b) else h

/-! ## Lattice construction: `HexGrid::init`

The source builds the lattice ring by ring; at every link discovery it
explicitly sets the two opposite directed pointers (`hi->set_nw (lasthi);
lasthi->set_ne (hi)` and so on — every call site pairs a direction with its
exact opposite).  `setBoth` embeds such a pair of calls. -/

/-- A paired link assignment: `a->set_dir(b); b->set_opp(dir)(a)`. -/
def setBoth (s : List Hex) (a : Nat) (dir : Dir) (b : Nat) : List Hex :=
  setL (setL s a dir b) b dir.opp a

/-- The mutable local state of `HexGrid::init`: the growing cell list, the
`vi` counter, the walk position `(ri, gi)`, the previous/next ring iterator
vectors (as identity lists), the `walkstart/walkinc/walkmin/walkmax`
bookkeeping, `numInRing`, `ringSideLen`, and the six vertex iterators. -/
structure InitState where
  hexen : List Hex
  vi : Nat
  ri : Int
  gi : Int
  prevRing : List Nat
  nextPrevRing : List Nat
  walkstart : Int
  walkinc : Int
  walkmin : Int
  walkmax : Int
  numInRing : Nat
  ringSideLen : Nat
  vertexNW : Option Nat := none
  vertexNE : Option Nat := none
  vertexE : Option Nat := none
  vertexSE : Option Nat := none
  vertexSW : Option Nat := none
  vertexW : Option Nat := none
deriving Repr

/-- `(*prevRing)[j]` with a signed index, as the source computes `j : int`. -/
def prIdx (l : List Nat) (j : Int) : Option Nat :=
  if j < 0 then none else l[j.toNat]?

/-! Stage helpers for the six walks.  Each walk iteration has the same
shape: emplace a cell at the current position and advance, maybe set a
vertex, set the in-ring link pair, and set up to two link pairs into the
previous ring under the `walkmin/walkmax` window conditions.  The link
stages act on the cell list; breaking the iteration into named stages
keeps every stage's effect provable in isolation. -/

/-- `hexen.emplace_back (vi++, d, ri, gi)` followed by the walk's position
advance (`ri += dri, gi += dgi`). -/
def emplaceStep (st : InitState) (dri dgi : Int) : InitState :=
  { st with hexen := st.hexen ++ [mkHex st.vi st.ri st.gi],
            vi := st.vi + 1, ri := st.ri + dri, gi := st.gi + dgi }

/-- Guarded vertex-iterator assignment (`if (i==0) { vertex<W> = hi; }`);
`w` selects which of the six vertex fields, in the walk order
NW, NE, E, SE, SW, W. -/
def vtxIf (c : Prop) [Decidable c] (w : Nat) (hid : Nat) (st : InitState) : InitState :=
  if c then
    match w with
    | 0 => { st with vertexNW := some hid }
    | 1 => { st with vertexNE := some hid }
    | 2 => { st with vertexE := some hid }
    | 3 => { st with vertexSE := some hid }
    | 4 => { st with vertexSW := some hid }
    | _ => { st with vertexW := some hid }
  else st

/-- A guarded paired link to a possibly-absent target (the target operand
models `(*prevRing)[j]`, which exists exactly when the index is in range;
an out-of-range access would be undefined behaviour in C++ and leaves the
list unchanged here). -/
def linkIfL (c : Prop) [Decidable c] (o : Option Nat) (a : Nat) (dir : Dir)
    (s : List Hex) : List Hex :=
  if c then
    match o with
    | some p => setBoth s a dir p
    | none => s
  else s

/-- The in-ring link of a walk iteration: direction `dt` when `i > 0`,
direction `df` on the walk's first iteration. -/
def linkEitherL (c : Prop) [Decidable c] (dt df : Dir) (a b : Nat)
    (s : List Hex) : List Hex :=
  if c then setBoth s a dt b else setBoth s a df b

/-- The "g" walk's third site (HexGrid.cpp:1976-1990): at `j == walkmax`
link E to `(*prevRing)[0]`, at `j < walkmax` link E to `(*prevRing)[j]`. -/
def gSite3L (j wmax : Int) (pr : List Nat) (a : Nat) (s : List Hex) : List Hex :=
  if j = wmax then
    match pr[0]? with
    | some p => setBoth s a .ne p
    | none => s
  else if j < wmax then
    match prIdx pr j with
    | some p => setBoth s a .ne p
    | none => s
  else s

/-- `nextPrevRing->push_back (hi)`. -/
def pushNPR (st : InitState) (hid : Nat) : InitState :=
  { st with nextPrevRing := st.nextPrevRing ++ [hid] }

/-- One iteration of the "r" walk (`for` body, HexGrid.cpp:1652-1699). -/
def rWalkStep (st0 : InitState) (i : Nat) : InitState :=
  let hid := st0.vi
  let pr := st0.prevRing
  let wmin := st0.walkmin
  let wmax := st0.walkmax
  let j : Int := st0.walkstart + (i : Int) - 1
  let lasthi := hid - 1
  let st := emplaceStep st0 1 0
  let st := vtxIf (i = 0) 0 hid st
  let st := { st with hexen := linkIfL (0 < i) (some lasthi) hid .nw st.hexen }
  let st := { st with hexen := linkIfL (wmin < j ∧ j < wmax) (prIdx pr j) hid .nsw st.hexen }
  let st := { st with hexen := linkIfL (j + 1 ≤ wmax) (prIdx pr (j + 1)) hid .nse st.hexen }
  pushNPR st hid

/-- One iteration of the "-b" walk (HexGrid.cpp:1707-1754). -/
def mbWalkStep (st0 : InitState) (i : Nat) : InitState :=
  let hid := st0.vi
  let pr := st0.prevRing
  let wmin := st0.walkmin
  let wmax := st0.walkmax
  let j : Int := st0.walkstart + (i : Int) - 1
  let lasthi := hid - 1
  let st := emplaceStep st0 1 (-1)
  let st := vtxIf (i = 0) 1 hid st
  let st := { st with hexen := linkEitherL (0 < i) .nnw .nw hid lasthi st.hexen }
  let st := { st with hexen := linkIfL (wmin < j ∧ j < wmax) (prIdx pr j) hid .nw st.hexen }
  let st := { st with hexen := linkIfL (j + 1 ≤ wmax) (prIdx pr (j + 1)) hid .nsw st.hexen }
  pushNPR st hid

/-- One iteration of the "-g" walk (HexGrid.cpp:1762-1810). -/
def mgWalkStep (st0 : InitState) (i : Nat) : InitState :=
  let hid := st0.vi
  let pr := st0.prevRing
  let wmin := st0.walkmin
  let wmax := st0.walkmax
  let j : Int := st0.walkstart + (i : Int) - 1
  let lasthi := hid - 1
  let st := emplaceStep st0 0 (-1)
  let st := vtxIf (i = 0) 2 hid st
  let st := { st with hexen := linkEitherL (0 < i) .nne .nnw hid lasthi st.hexen }
  let st := { st with hexen := linkIfL (wmin < j ∧ j < wmax) (prIdx pr j) hid .nnw st.hexen }
  let st := { st with hexen := linkIfL (j + 1 ≤ wmax) (prIdx pr (j + 1)) hid .nw st.hexen }
  pushNPR st hid

/-- One iteration of the "-r" walk (HexGrid.cpp:1818-1865). -/
def mrWalkStep (st0 : InitState) (i : Nat) : InitState :=
  let hid := st0.vi
  let pr := st0.prevRing
  let wmin := st0.walkmin
  let wmax := st0.walkmax
  let j : Int := st0.walkstart + (i : Int) - 1
  let lasthi := hid - 1
  let st := emplaceStep st0 (-1) 0
  let st := vtxIf (i = 0) 3 hid st
  let st := { st with hexen := linkEitherL (0 < i) .ne .nne hid lasthi st.hexen }
  let st := { st with hexen := linkIfL (wmin < j ∧ j < wmax) (prIdx pr j) hid .nne st.hexen }
  let st := { st with hexen := linkIfL (j + 1 ≤ wmax) (prIdx pr (j + 1)) hid .nnw st.hexen }
  pushNPR st hid

/-- One iteration of the "b" walk (HexGrid.cpp:1873-1919). -/
def bWalkStep (st0 : InitState) (i : Nat) : InitState :=
  let hid := st0.vi
  let pr := st0.prevRing
  let wmin := st0.walkmin
  let wmax := st0.walkmax
  let j : Int := st0.walkstart + (i : Int) - 1
  let lasthi := hid - 1
  let st := emplaceStep st0 (-1) 1
  let st := vtxIf (i = 0) 4 hid st
  let st := { st with hexen := linkEitherL (0 < i) .nse .ne hid lasthi st.hexen }
  let st := { st with hexen := linkIfL (wmin < j ∧ j < wmax) (prIdx pr j) hid .ne st.hexen }
  let st := { st with hexen := linkIfL (j + 1 ≤ wmax) (prIdx pr (j + 1)) hid .nne st.hexen }
  pushNPR st hid

/-- One iteration of the "g" walk (HexGrid.cpp:1927-1994), with its two
special cases: the walk's last cell links NE to the ring's first cell
(`(*nextPrevRing)[0]`), and the E link goes to `(*prevRing)[0]` when
`j == walkmax`. -/
def gWalkStep (st0 : InitState) (i : Nat) : InitState :=
  let hid := st0.vi
  let pr := st0.prevRing
  let npr := st0.nextPrevRing
  let sl := st0.ringSideLen
  let wmin := st0.walkmin
  let wmax := st0.walkmax
  let j : Int := st0.walkstart + (i : Int) - 1
  let lasthi := hid - 1
  let st := emplaceStep st0 0 1
  let st := vtxIf (i = 0) 5 hid st
  let st := { st with hexen := linkIfL (i = sl - 1) npr[0]? hid .nne st.hexen }
  let st := { st with hexen := linkEitherL (0 < i) .nsw .nse hid lasthi st.hexen }
  let st := { st with hexen := linkIfL (wmin < j ∧ j < wmax) (prIdx pr j) hid .nse st.hexen }
  let st := { st with hexen := gSite3L (j + 1) wmax pr hid st.hexen }
  pushNPR st hid

/-- Run one walk's `for (i = 0; i < ringSideLen; ++i)` loop. -/
def walkLoop (f : InitState → Nat → InitState) : InitState → Nat → Nat → InitState
  | st, _, 0 => st
  | st, i, n + 1 => walkLoop f (f st i) (i + 1) n

/-- `walkstart += walkinc; walkmin += walkinc; walkmax += walkinc`. -/
def bump (st : InitState) : InitState :=
  { st with walkstart := st.walkstart + st.walkinc,
            walkmin := st.walkmin + st.walkinc,
            walkmax := st.walkmax + st.walkinc }

/-- The start of a ring iteration: `--ri; ++gi; nextPrevRing->clear()`. -/
def ringStart (st : InitState) : InitState :=
  { st with ri := st.ri - 1, gi := st.gi + 1, nextPrevRing := [] }

/-- The end of a ring iteration (HexGrid.cpp:1997-2017): reset the walk
window for the next ring (`walkinc = numInRing/6` before `numInRing += 6`),
grow `numInRing` and `ringSideLen`, and swap the ring vectors. -/
def ringFinish (st : InitState) : InitState :=
  { st with walkstart := 0,
            walkinc := (st.numInRing / 6 : Nat),
            walkmin := -1,
            walkmax := (-1 : Int) + 1 + (st.numInRing / 6 : Nat),
            numInRing := st.numInRing + 6,
            ringSideLen := st.ringSideLen + 1,
            prevRing := st.nextPrevRing,
            nextPrevRing := st.prevRing }

/-- One iteration of the ring loop (HexGrid.cpp:1635-2018): step up-left to
the ring's start, clear `nextPrevRing`, run the six walks (bumping the walk
window after each), then recompute the bookkeeping for the next ring. -/
def buildRing (st : InitState) : InitState :=
  let sl := st.ringSideLen
  let st1 := bump (walkLoop rWalkStep (ringStart st) 0 sl)
  let st2 := bump (walkLoop mbWalkStep st1 0 sl)
  let st3 := bump (walkLoop mgWalkStep st2 0 sl)
  let st4 := bump (walkLoop mrWalkStep st3 0 sl)
  let st5 := bump (walkLoop bWalkStep st4 0 sl)
  let st6 := bump (walkLoop gWalkStep st5 0 sl)
  ringFinish st6

/-- `for (ring = 1; ring <= maxRing; ++ring)`, counting rings left to build. -/
def buildRings : InitState → Nat → InitState
  | st, 0 => st
  | st, n + 1 => buildRings (buildRing st) n

/-- The state just before the ring loop: the single central hex (identity
0 at the origin), `prevRing = [centre]`, and the initial walk window. -/
def initState0 : InitState :=
  { hexen := [mkHex 0 0 0], vi := 1, ri := 0, gi := 0,
    prevRing := [0], nextPrevRing := [],
    walkstart := 0, walkinc := 0, walkmin := -1, walkmax := 1,
    numInRing := 6, ringSideLen := 1 }

/-- The full lattice-construction loop of `HexGrid::init` for a given
number of rings. -/
def initStateFor (maxRing : Nat) : InitState := buildRings initState0 maxRing

/-- `maxRing = abs(ceil((x_span/2) / d))`, as computed by `HexGrid::init`. -/
def maxRingOf (d x_span : ℚ) : Nat := (Int.ceil (x_span / 2 / d)).natAbs

/-- Decidable reciprocity check over a cell list: every link whose target
is present in the list is mirrored by the target's opposite-direction
link. -/
def reciprocalB (s : List Hex) : Bool :=
  s.all fun a => dirList.all fun dir =>
    match a.link dir with
    | none => true
    | some t =>
      match findHex s t with
      | none => true
      | some b => b.link dir.opp == some a.hid

/-! ## The grid object -/

/-- `morph::HexDomainShape`. -/
inductive HexDomainShape
  | Rectangle | Parallelogram | Hexagon | Boundary | SubParallelograms
deriving DecidableEq, Repr

/-- The exceptions `HexGrid.cpp` can throw, plus a marker
(`danglingIterator`) for iterator dereferences that are undefined
behaviour in C++ (never reached in the verified runs). -/
inductive GridError
  | notContiguous
  | listBoundaryUnhandledShape
  | subpAlreadyAllocated
  | unknownDomainShape
  | badBottomLeftHex
  | danglingIterator
deriving DecidableEq, Repr

/-- Modelled from the spec: the boundary-curve collaborator
(`BezCurvePath`, not among the sources) supplies a null flag, a name for
diagnostics and, when sampled with `getPoints`, an ordered dense sequence
of 2D points; the embedding stores the sampled points directly. -/
structure BezCurvePathM where
  isNull : Bool := true
  points : List (ℚ × ℚ) := []
deriving DecidableEq, Repr

/-- The grid object: spacing `d`, row spacing `v`, requested span, z-plane,
domain shape, the owned cell list `hexen`, boundary data, domain-geometry
scalars, growth-buffer margins (fields of the missing `HexGrid.h`,
modelled from the spec's "growth-buffer margins"), the flat `d_` arrays
and the sub-parallelogram `sp_` arrays.  (`hi->bi` and `d_bi` are omitted:
`bi` lives in the missing `Hex.h` and is never read by `HexGrid.cpp`;
`vhexen`, a pointer cache rebuilt by `renumberVectorIndices`, is likewise
not modelled.) -/
structure HexGrid where
  d : ℚ := 1
  v : ℚ := 1
  x_span : ℚ := 1
  z : ℚ := 0
  domainShape : HexDomainShape := .Parallelogram
  hexen : List Hex := []
  boundary : BezCurvePathM := {}
  boundaryCentroid : ℚ × ℚ := (0, 0)
  gridReduced : Bool := false
  vertexNW : Option Nat := none
  vertexNE : Option Nat := none
  vertexE : Option Nat := none
  vertexSE : Option Nat := none
  vertexSW : Option Nat := none
  vertexW : Option Nat := none
  d_rowlen : Int := 0
  d_numrows : Int := 0
  d_size : Int := 0
  d_growthbuffer_horz : Int := 0
  d_growthbuffer_vert : Int := 0
  d_x : List ℚ := []
  d_y : List ℚ := []
  d_ri : List Int := []
  d_gi : List Int := []
  d_flags : List Nat := []
  d_distToBoundary : List ℚ := []
  d_ne : List Int := []
  d_nne : List Int := []
  d_nnw : List Int := []
  d_nw : List Int := []
  d_nsw : List Int := []
  d_nse : List Int := []
  d_v_ne : List Int := []
  d_v_nne : List Int := []
  d_v_nnw : List Int := []
  d_v_nw : List Int := []
  d_v_nsw : List Int := []
  d_v_nse : List Int := []
  sp_x : List (List ℚ) := []
  sp_y : List (List ℚ) := []
  sp_ri : List (List Int) := []
  sp_gi : List (List Int) := []
  sp_flags : List (List Nat) := []
  sp_distToBoundary : List (List ℚ) := []
  sp_ne : List (List Int) := []
  sp_nne : List (List Int) := []
  sp_nnw : List (List Int) := []
  sp_nw : List (List Int) := []
  sp_nsw : List (List Int) := []
  sp_nse : List (List Int) := []
  sp_v_ne : List (List Int) := []
  sp_v_nne : List (List Int) := []
  sp_v_nnw : List (List Int) := []
  sp_v_nw : List (List Int) := []
  sp_v_nsw : List (List Int) := []
  sp_v_nse : List (List Int) := []
  sp_rowlens : List Int := []
  sp_numrows : List Int := []
  sp_veclen : List Int := []
  sp_numvecs : Nat := 0
deriving DecidableEq, Repr

namespace HexGrid

/-- `HexGrid::init(void)` assembled into a grid: compute `maxRing` from the
requested span and spacing, run the ring loop, keep the cells and the six
vertex iterators. -/
def init (d v x_span z : ℚ) (shape : HexDomainShape) : HexGrid :=
  let st := initStateFor (maxRingOf d x_span)
  { d := d, v := v, x_span := x_span, z := z, domainShape := shape,
    hexen := st.hexen,
    vertexNW := st.vertexNW, vertexNE := st.vertexNE, vertexE := st.vertexE,
    vertexSE := st.vertexSE, vertexSW := st.vertexSW, vertexW := st.vertexW }

/-- `HexGrid::num`. -/
def num (g : HexGrid) : Nat := g.hexen.length

/-- `HexGrid::computeCentroid`: accumulate the cells' Cartesian
coordinates in list order, then divide both sums by the list size
(the divisions are unguarded in the source). -/
def computeCentroid (d v : ℚ) (pHexes : List Hex) : ℚ × ℚ :=
  let s := pHexes.foldl (fun (acc : ℚ × ℚ) h => (acc.1 + hexX d h, acc.2 + hexY v h)) (0, 0)
  (s.1 / (pHexes.length : ℚ), s.2 / (pHexes.length : ℚ))

/-- `HexGrid::findHexNearest`: scan all cells keeping the first strict
minimiser of the distance to `pos` (`FLT_MAX` start = `none`). -/
def findHexNearest (d v : ℚ) (s : List Hex) (pos : ℚ × ℚ) : Option Nat :=
  (s.foldl
    (fun (acc : Option (Nat × ℚ)) h =>
      let dl := distSqFromPt d v h pos
      match acc with
      | none => some (h.hid, dl)
      | some (n, dist) => if dl < dist then some (h.hid, dl) else some (n, dist))
    none).map Prod.fst

/-- Set the `insideBoundary` flag of one cell. -/
def setInside (s : List Hex) (a : Nat) : List Hex :=
  s.map fun h => if h.hid = a then { h with insideBoundary := true } else h

/-- `HexGrid::markHexesInside`: recursive flood fill from a cell; a
boundary cell is marked and not crossed, an already-marked cell stops the
recursion, otherwise mark and recurse into all six neighbours in source
order.  `fuel` bounds the recursion depth; every theorem below supplies
`hexen.length + 1`, which is provably enough because each recursive level
marks a previously unmarked cell. -/
def markHexesInside (s : List Hex) : Nat → Nat → List Hex
  | 0, _ => s
  | fuel + 1, hid =>
    match findHex s hid with
    | none => s
    | some h =>
      if h.boundaryHex then setInside s hid
      else if h.insideBoundary then s
      else
        let s := setInside s hid
        let s := match h.link .ne with | some t => markHexesInside s fuel t | none => s
        let s := match h.link .nne with | some t => markHexesInside s fuel t | none => s
        let s := match h.link .nnw with | some t => markHexesInside s fuel t | none => s
        let s := match h.link .nw with | some t => markHexesInside s fuel t | none => s
        let s := match h.link .nsw with | some t => markHexesInside s fuel t | none => s
        let s := match h.link .nse with | some t => markHexesInside s fuel t | none => s
        s

/-- Clear the link of one cell in one direction (`unset_<dir>`). -/
def clearL (s : List Hex) (a : Nat) (dir : Dir) : List Hex :=
  s.map fun h => if h.hid = a then h.setDir dir none else h

/-- Modelled from the spec: `Hex::disconnectNeighbours` (missing `Hex.h`)
clears, for each direction the cell links in, the neighbour's
back-reference (the opposite-direction link) to the cell being erased. -/
def disconnectNeighbours (h : Hex) (s : List Hex) : List Hex :=
  dirList.foldl
    (fun s dir =>
      match h.link dir with
      | some t => clearL s t dir.opp
      | none => s)
    s

theorem clearL_length (s : List Hex) (a : Nat) (dir : Dir) :
    (clearL s a dir).length = s.length := by simp [clearL]

theorem disconnectNeighbours_length (h : Hex) (s : List Hex) :
    (disconnectNeighbours h s).length = s.length := by
  have step : ∀ (l : List Dir) (s : List Hex),
      (l.foldl (fun s dir => match h.link dir with
        | some t => clearL s t dir.opp
        | none => s) s).length = s.length := by
    intro l
    induction l with
    | nil => intro s; rfl
    | cons d l ih =>
      intro s
      rw [List.foldl_cons, ih]
      cases h.link d <;> simp [clearL_length]
  exact step dirList s

/-- The erase loop of `discardOutsideBoundary` / `discardOutsideDomain`:
walk the cell list, keeping cells satisfying `keep` and otherwise
disconnecting the cell from its neighbours (an update of the whole list)
before erasing it. -/
def discardGo (keep : Hex → Bool) : List Hex → List Hex → List Hex
  | done, [] => done
  | done, h :: rest =>
    if keep h then discardGo keep (done ++ [h]) rest
    else
      let s := disconnectNeighbours h (done ++ h :: rest)
      discardGo keep (s.take done.length) (s.drop (done.length + 1))
termination_by _ todo => todo.length
decreasing_by
  · simp_wf
  · simp_wf
    have hl : (disconnectNeighbours h (done ++ h :: rest)).length =
        done.length + 1 + rest.length := by
      rw [disconnectNeighbours_length]; simp; omega
    simp [hl]

/-- The loop of `renumberVectorIndices`: `hi->vi = vi++` down the list. -/
def renumberGo (i : Nat) : List Hex → List Hex
  | [] => []
  | h :: t => { h with vi := i } :: renumberGo (i + 1) t

/-- `HexGrid::renumberVectorIndices`: reassign `vi = 0, 1, 2, …` in list
order.  (The `vhexen` pointer cache the source also rebuilds is not
modelled.) -/
def renumberVectorIndices (g : HexGrid) : HexGrid :=
  { g with hexen := renumberGo 0 g.hexen }

/-- `HexGrid::discardOutsideBoundary`: flood-fill `insideBoundary` from the
cell nearest the boundary centroid, erase (with neighbour disconnection)
every cell not marked inside, renumber, and flag the grid as reduced. -/
def discardOutsideBoundary (g : HexGrid) : HexGrid :=
  let g :=
    match findHexNearest g.d g.v g.hexen g.boundaryCentroid with
    | some cid => { g with hexen := markHexesInside g.hexen (g.hexen.length + 1) cid }
    | none => g
  let g := { g with hexen := discardGo (fun h => h.insideBoundary) [] g.hexen }
  let g := g.renumberVectorIndices
  { g with gridReduced := true }

/-- `HexGrid::discardOutsideDomain`: erase every cell with
`insideDomain == false` (with neighbour disconnection), renumber, flag
reduced. -/
def discardOutsideDomain (g : HexGrid) : HexGrid :=
  let g := { g with hexen := discardGo (fun h => h.insideDomain) [] g.hexen }
  let g := g.renumberVectorIndices
  { g with gridReduced := true }

mutual

/-- The recursive `HexGrid::boundaryContiguous(bhi, hi, seen)`: insert the
current cell's `vi` into `seen`, try the six directions in source order
(each recursing into a boundary-flagged, unseen neighbour as long as no
traversal has returned true), and if all six fail report whether the walk
is back at the start iterator.  Returns the C++ reference parameter `seen`
alongside the result; `fuel` bounds the recursion depth (each recursive
call visits a cell whose `vi` is not yet in `seen`, so `s.length + 1` is
always enough). -/
def boundaryContiguousGo (s : List Hex) (bhi : Nat) :
    Nat → Nat → List Nat → Bool × List Nat
  | 0, _, seen => (false, seen)
  | fuel + 1, hi, seen =>
    match findHex s hi with
    | none => (false, seen)
    | some h =>
      let seen := seen ++ [h.vi]
      let acc := boundaryContiguousTry s bhi fuel h .nse
        (boundaryContiguousTry s bhi fuel h .nsw
          (boundaryContiguousTry s bhi fuel h .nw
            (boundaryContiguousTry s bhi fuel h .nnw
              (boundaryContiguousTry s bhi fuel h .nne
                (boundaryContiguousTry s bhi fuel h .ne (false, seen))))))
      if acc.1 then acc else (decide (hi = bhi), acc.2)
termination_by fuel _ _ => (fuel, 0)

/-- One of the six guarded blocks of `boundaryContiguous`: recurse into the
`dir`-neighbour when no traversal has succeeded yet and the neighbour is a
boundary cell not yet seen. -/
def boundaryContiguousTry (s : List Hex) (bhi : Nat) (fuel : Nat) (h : Hex)
    (dir : Dir) (acc : Bool × List Nat) : Bool × List Nat :=
  if acc.1 then acc
  else
    match h.link dir with
    | none => acc
    | some t =>
      match findHex s t with
      | none => acc
      | some b =>
        if b.boundaryHex && !(acc.2.contains b.vi) then
          boundaryContiguousGo s bhi fuel t acc.2
        else acc
termination_by (fuel, 1)

end

/-- `boundaryContiguous(bpoint, hi, seen)` as called by the `setBoundary`
overloads: start iterator equals current iterator, empty `seen`. -/
def boundaryContiguousFrom (s : List Hex) (start : Nat) : Bool :=
  (boundaryContiguousGo s start (s.length + 1) start []).1

/-- `HexGrid::setBoundary(const list<Hex>&)`: record the centroid of the
supplied cells, flag every grid cell whose `(ri, gi)` matches one of them
as boundary (remembering the last match as `bpoint`), check contiguity
from `bpoint`, then — only for the `Boundary` domain shape — discard the
outside; any other shape throws. -/
def setBoundary_list (g : HexGrid) (pHexes : List Hex) : Except GridError HexGrid :=
  let g := { g with boundaryCentroid := computeCentroid g.d g.v pHexes }
  match g.hexen with
  | [] => .error .danglingIterator
  | h0 :: _ =>
    let matched : Hex → Bool := fun h => pHexes.any fun p => p.ri == h.ri && p.gi == h.gi
    let hexen := g.hexen.map fun h => if matched h then { h with boundaryHex := true } else h
    let bpoint :=
      match (hexen.filter matched).getLast? with
      | some h => h.hid
      | none => h0.hid
    let g := { g with hexen := hexen }
    if boundaryContiguousFrom g.hexen bpoint = false then
      .error .notContiguous
    else if g.domainShape = HexDomainShape.Boundary then
      .ok g.discardOutsideBoundary
    else
      .error .listBoundaryUnhandledShape

/-- One step of the hill climb in `setBoundary(const BezCoord&, iterator)`:
the first of the six neighbours (in source order NE, NNE, NNW, NW, NSW,
NSE) strictly closer to the point than the current distance, with its
distance. -/
def firstCloser (d v : ℚ) (s : List Hex) (p : ℚ × ℚ) (h : Hex) (dcur : ℚ) :
    Option (Hex × ℚ) :=
  dirList.foldl
    (fun acc dir =>
      match acc with
      | some r => some r
      | none =>
        match h.link dir with
        | none => none
        | some t =>
          match findHex s t with
          | none => none
          | some b =>
            let dl := distSqFromPt d v b p
            if dl < dcur then some (b, dl) else none)
    none

/-- The hill-climbing loop: move to the first strictly closer neighbour
until none is closer.  `fuel` bounds the number of moves; the theorems
below show `hexen.length` moves always suffice. -/
def hillClimb (d v : ℚ) (s : List Hex) (p : ℚ × ℚ) : Nat → Hex → ℚ → Hex
  | 0, h, _ => h
  | fuel + 1, h, dcur =>
    match firstCloser d v s p h dcur with
    | none => h
    | some (h', d') => hillClimb d v s p fuel h' d'

/-- `HexGrid::setBoundary(const BezCoord& point, iterator startFrom)`:
hill-climb from `startFrom` to a nearest cell, flag it as boundary, and
return it (as the updated grid plus the result iterator). -/
def setBoundary_point (g : HexGrid) (p : ℚ × ℚ) (startFrom : Nat) : HexGrid × Nat :=
  match findHex g.hexen startFrom with
  | none => (g, startFrom)
  | some h0 =>
    let hres := hillClimb g.d g.v g.hexen p (g.hexen.length + 1) h0 (distSqFromPt g.d g.v h0 p)
    ({ g with hexen := g.hexen.map fun h =>
        if h.hid = hres.hid then { h with boundaryHex := true } else h },
     hres.hid)

/-! ## Domain flattening: the `d_` arrays -/

/-- Modelled from the spec ("a packed flag word per cell"):
`Hex::getFlags` in the missing `Hex.h`; the packing order is not
observable through `HexGrid.cpp`, so the three flags are packed in
declaration order. -/
def flagsOf (h : Hex) : Nat :=
  (if h.boundaryHex then 1 else 0) + (if h.insideBoundary then 2 else 0) +
    (if h.insideDomain then 4 else 0)

/-- `std::vector::resize (n, fill)`: truncate or pad with `fill`. -/
def resizeL (l : List Int) (n : Nat) (fill : Int) : List Int :=
  l.take n ++ List.replicate (n - l.length) fill

/-- `arr[i] = x` with a (signed) index; an out-of-range write would be
undefined behaviour in C++ and leaves the list unchanged here. -/
def setIdx (l : List Int) (i : Int) (x : Int) : List Int :=
  if i < 0 then l else l.set i.toNat x

/-- A nested `arr[s][i] = x` for the `sp_` vector-of-vectors arrays. -/
def setSp (ls : List (List Int)) (s : Int) (i : Int) (x : Int) : List (List Int) :=
  if s < 0 then ls
  else
    match ls[s.toNat]? with
    | some inner => ls.set s.toNat (setIdx inner i x)
    | none => ls

/-- `HexGrid::d_clear`: clears exactly `d_x, d_y, d_ri, d_gi, d_flags`
(and `d_bi`, not modelled) — notably not `d_distToBoundary` nor the
neighbour-index arrays. -/
def d_clear (g : HexGrid) : HexGrid :=
  { g with d_x := [], d_y := [], d_ri := [], d_gi := [], d_flags := [] }

/-- `HexGrid::d_push_back`: append the cell's data to the flat arrays,
record `di = d_x.size()-1` in the cell, and throw when the cell is
unexpectedly allocated to a sub-parallelogram. -/
def d_push_back (g : HexGrid) (h : Hex) : Except GridError HexGrid :=
  let g := { g with
    d_x := g.d_x ++ [hexX g.d h],
    d_y := g.d_y ++ [hexY g.v h],
    d_ri := g.d_ri ++ [h.ri],
    d_gi := g.d_gi ++ [h.gi],
    d_flags := g.d_flags ++ [flagsOf h],
    d_distToBoundary := g.d_distToBoundary ++ [h.distToBoundary] }
  let g := { g with hexen := g.hexen.map fun k =>
    if k.hid = h.hid then { k with di := ((g.d_x.length - 1 : Nat) : Int) } else k }
  if h.allocatedSubp ≠ -1 then .error .subpAlreadyAllocated else .ok g

/-- `HexGrid::sp_push_back`: append the cell's data to its
sub-parallelogram's arrays and record `di` there. -/
def sp_push_back (g : HexGrid) (h : Hex) : HexGrid :=
  let s := h.allocatedSubp
  let g := { g with
    sp_x := (g.sp_x.mapIdx fun i a => if (i : Int) = s then a ++ [hexX g.d h] else a),
    sp_y := (g.sp_y.mapIdx fun i a => if (i : Int) = s then a ++ [hexY g.v h] else a),
    sp_ri := (g.sp_ri.mapIdx fun i a => if (i : Int) = s then a ++ [h.ri] else a),
    sp_gi := (g.sp_gi.mapIdx fun i a => if (i : Int) = s then a ++ [h.gi] else a),
    sp_flags := (g.sp_flags.mapIdx fun i a => if (i : Int) = s then a ++ [flagsOf h] else a),
    sp_distToBoundary :=
      (g.sp_distToBoundary.mapIdx fun i a => if (i : Int) = s then a ++ [h.distToBoundary] else a) }
  let newDi : Int :=
    match g.sp_x[s.toNat]? with
    | some a => ((a.length - 1 : Nat) : Int)
    | none => 0
  { g with hexen := g.hexen.map fun k =>
      if k.hid = h.hid then { k with di := newDi } else k }

/-- The per-direction conditional write of `populate_d_neighbours`: the
neighbour's `di` when the link is present, else the sentinel `-1`. -/
def dnWrite (hl : List Hex) (di : Int) (lnk : Option Nat) (arr : List Int) : List Int :=
  match lnk with
  | some t =>
    match findHex hl t with
    | some b => setIdx arr di b.di
    | none => arr
  | none => setIdx arr di (-1)

/-- `HexGrid::populate_d_neighbours`: resize the six neighbour-index
arrays and the six sub-domain-id arrays to `d_x.size()` (fill 0), then for
every cell write `-1` into all six `d_v_` arrays at its `di` and its
neighbours' `di` (or `-1`) into the six `d_` arrays at its `di`. -/
def populate_d_neighbours (g : HexGrid) : HexGrid :=
  let n := g.d_x.length
  let g := { g with
    d_nne := resizeL g.d_nne n 0, d_ne := resizeL g.d_ne n 0,
    d_nnw := resizeL g.d_nnw n 0, d_nw := resizeL g.d_nw n 0,
    d_nsw := resizeL g.d_nsw n 0, d_nse := resizeL g.d_nse n 0,
    d_v_nne := resizeL g.d_v_nne n 0, d_v_ne := resizeL g.d_v_ne n 0,
    d_v_nnw := resizeL g.d_v_nnw n 0, d_v_nw := resizeL g.d_v_nw n 0,
    d_v_nsw := resizeL g.d_v_nsw n 0, d_v_nse := resizeL g.d_v_nse n 0 }
  let hl := g.hexen
  hl.foldl
    (fun g h =>
      { g with
        d_v_ne := setIdx g.d_v_ne h.di (-1),
        d_v_nne := setIdx g.d_v_nne h.di (-1),
        d_v_nnw := setIdx g.d_v_nnw h.di (-1),
        d_v_nw := setIdx g.d_v_nw h.di (-1),
        d_v_nsw := setIdx g.d_v_nsw h.di (-1),
        d_v_nse := setIdx g.d_v_nse h.di (-1),
        d_ne := dnWrite hl h.di h.ne g.d_ne,
        d_nne := dnWrite hl h.di h.nne g.d_nne,
        d_nnw := dnWrite hl h.di h.nnw g.d_nnw,
        d_nw := dnWrite hl h.di h.nw g.d_nw,
        d_nsw := dnWrite hl h.di h.nsw g.d_nsw,
        d_nse := dnWrite hl h.di h.nse g.d_nse })
    g

/-- The per-direction write pair of `populate_sp_d_neighbours` for the
dense (`d_`) arrays: cells not allocated to a sub-parallelogram write the
neighbour's `di` and the neighbour's `allocatedSubp` (or `-1`/`-1`); cells
allocated to a sub-parallelogram leave the `d_` arrays untouched. -/
def spdWrite (hl : List Hex) (h : Hex) (lnk : Option Nat)
    (arr varr : List Int) : List Int × List Int :=
  match lnk with
  | some t =>
    match findHex hl t with
    | some b =>
      if h.allocatedSubp = -1 then
        (setIdx arr h.di b.di, setIdx varr h.di b.allocatedSubp)
      else (arr, varr)
    | none => (arr, varr)
  | none =>
    if h.allocatedSubp = -1 then (setIdx arr h.di (-1), setIdx varr h.di (-1))
    else (arr, varr)

/-- The per-direction write pair of `populate_sp_d_neighbours` for the
tiled (`sp_`) arrays: the mirror image of `spdWrite`. -/
def spsWrite (hl : List Hex) (h : Hex) (lnk : Option Nat)
    (arrs varrs : List (List Int)) : List (List Int) × List (List Int) :=
  match lnk with
  | some t =>
    match findHex hl t with
    | some b =>
      if h.allocatedSubp = -1 then (arrs, varrs)
      else (setSp arrs h.allocatedSubp h.di b.di,
            setSp varrs h.allocatedSubp h.di b.allocatedSubp)
    | none => (arrs, varrs)
  | none =>
    if h.allocatedSubp = -1 then (arrs, varrs)
    else (setSp arrs h.allocatedSubp h.di (-1), setSp varrs h.allocatedSubp h.di (-1))

/-- `HexGrid::populate_sp_d_neighbours`: resize the `d_` neighbour arrays
(fill 0) and `d_v_` arrays (fill -1) to `d_x.size()`, resize every
sub-parallelogram's arrays to its cell count (value-initialised, fill 0),
then for every cell write, per direction, into the array family selected
by its `allocatedSubp`: the neighbour's `di` and sub-parallelogram id, or
`-1`. -/
def populate_sp_d_neighbours (g : HexGrid) : HexGrid :=
  let n := g.d_x.length
  let spLens := g.sp_x.map List.length
  let rsz : List (List Int) → List (List Int) := fun arrs =>
    arrs.mapIdx fun i a =>
      match spLens[i]? with
      | some m => (resizeL a m 0)
      | none => a
  let g := { g with
    d_nne := resizeL g.d_nne n 0, d_ne := resizeL g.d_ne n 0,
    d_nnw := resizeL g.d_nnw n 0, d_nw := resizeL g.d_nw n 0,
    d_nsw := resizeL g.d_nsw n 0, d_nse := resizeL g.d_nse n 0,
    d_v_nne := resizeL g.d_v_nne n (-1), d_v_ne := resizeL g.d_v_ne n (-1),
    d_v_nnw := resizeL g.d_v_nnw n (-1), d_v_nw := resizeL g.d_v_nw n (-1),
    d_v_nsw := resizeL g.d_v_nsw n (-1), d_v_nse := resizeL g.d_v_nse n (-1),
    sp_nne := rsz g.sp_nne, sp_ne := rsz g.sp_ne,
    sp_nnw := rsz g.sp_nnw, sp_nw := rsz g.sp_nw,
    sp_nsw := rsz g.sp_nsw, sp_nse := rsz g.sp_nse,
    sp_v_nne := rsz g.sp_v_nne, sp_v_ne := rsz g.sp_v_ne,
    sp_v_nnw := rsz g.sp_v_nnw, sp_v_nw := rsz g.sp_v_nw,
    sp_v_nsw := rsz g.sp_v_nsw, sp_v_nse := rsz g.sp_v_nse }
  let hl := g.hexen
  hl.foldl
    (fun g h =>
      let pne := spdWrite hl h h.ne g.d_ne g.d_v_ne
      let pnne := spdWrite hl h h.nne g.d_nne g.d_v_nne
      let pnnw := spdWrite hl h h.nnw g.d_nnw g.d_v_nnw
      let pnw := spdWrite hl h h.nw g.d_nw g.d_v_nw
      let pnsw := spdWrite hl h h.nsw g.d_nsw g.d_v_nsw
      let pnse := spdWrite hl h h.nse g.d_nse g.d_v_nse
      let sne := spsWrite hl h h.ne g.sp_ne g.sp_v_ne
      let snne := spsWrite hl h h.nne g.sp_nne g.sp_v_nne
      let snnw := spsWrite hl h h.nnw g.sp_nnw g.sp_v_nnw
      let snw := spsWrite hl h h.nw g.sp_nw g.sp_v_nw
      let snsw := spsWrite hl h h.nsw g.sp_nsw g.sp_v_nsw
      let snse := spsWrite hl h h.nse g.sp_nse g.sp_v_nse
      { g with
        d_ne := pne.1, d_v_ne := pne.2,
        d_nne := pnne.1, d_v_nne := pnne.2,
        d_nnw := pnnw.1, d_v_nnw := pnnw.2,
        d_nw := pnw.1, d_v_nw := pnw.2,
        d_nsw := pnsw.1, d_v_nsw := pnsw.2,
        d_nse := pnse.1, d_v_nse := pnse.2,
        sp_ne := sne.1, sp_v_ne := sne.2,
        sp_nne := snne.1, sp_v_nne := snne.2,
        sp_nnw := snnw.1, sp_v_nnw := snnw.2,
        sp_nw := snw.1, sp_v_nw := snw.2,
        sp_nsw := snsw.1, sp_v_nsw := snsw.2,
        sp_nse := snse.1, sp_v_nse := snse.2 })
    g

/-! ## Domain geometry: extents, marking, distances, setDomain -/

/-- The C `(int)` cast on a float: truncation toward zero. -/
def truncQ (q : ℚ) : Int := if q < 0 then Int.ceil q else Int.floor q

/-- `HexGrid::findBoundaryExtents`: scan the cells once, tracking the
extreme x/y over boundary-flagged cells (`limits`, seeded from the first
boundary cell met) and the `gi` rows of strictly-new x extremes
(`rtn[4]`, `rtn[5]`); divide the x limits by the horizontal spacing and
the y limits by the vertical spacing (the source reads both off
`hexen.front()`, which carries the grid's own `d` and `v`), truncate
toward zero, and widen by the growth buffers.  Returns
`[ri_min, ri_max, gi_min, gi_max, gi_at_ri_min, gi_at_ri_max]`. -/
def findBoundaryExtents (g : HexGrid) : List Int :=
  let st := g.hexen.foldl
    (fun (acc : (ℚ × ℚ × ℚ × ℚ) × Bool × Int × Int) h =>
      if h.boundaryHex then
        let x := hexX g.d h
        let y := hexY g.v h
        let limits := if acc.2.1 then (x, x, y, y) else acc.1
        let l0 := limits.1
        let l1 := limits.2.1
        let l2 := limits.2.2.1
        let l3 := limits.2.2.2
        let p0 := if x < l0 then (x, h.gi) else (l0, acc.2.2.1)
        let p1 := if x > l1 then (x, h.gi) else (l1, acc.2.2.2)
        let l2 := if y < l2 then y else l2
        let l3 := if y > l3 then y else l3
        ((p0.1, p1.1, l2, l3), false, p0.2, p1.2)
      else acc)
    ((0, 0, 0, 0), true, 0, 0)
  [truncQ (st.1.1 / g.d) - g.d_growthbuffer_horz,
   truncQ (st.1.2.1 / g.d) + g.d_growthbuffer_horz,
   truncQ (st.1.2.2.1 / g.v) - g.d_growthbuffer_vert,
   truncQ (st.1.2.2.2 / g.v) + g.d_growthbuffer_vert,
   st.2.2.1, st.2.2.2]

/-- The condition under which `markHexesInsideRectangularDomain` widens
`d_rowlen` by one: the leftmost hex's row parity differs from the bottom
row's and the bottom row's `gi` is even (`%` is the C truncated
remainder). -/
def rectWidens (extnts : List Int) : Bool :=
  !((Int.tmod (extnts.getD 2 0) 2).natAbs == (Int.tmod (extnts.getD 4 0) 2).natAbs) &&
    (Int.tmod (extnts.getD 2 0) 2 == 0)

/-- `HexGrid::markHexesInsideRectangularDomain`: compute the half-hex row
corrections from the bottom row's parity (`even_addn`/`odd_addn`), the
left-edge correction `addleft` (widening `d_rowlen` and recomputing
`d_size` in the one branch that does so), then mark `insideDomain` on
every cell whose horizontal index `ri + gi/2` and row `gi` lie within the
corrected extents. -/
def markHexesInsideRectangularDomain (g : HexGrid) (extnts : List Int) : HexGrid :=
  let e0 := extnts.getD 0 0
  let e1 := extnts.getD 1 0
  let e2 := extnts.getD 2 0
  let e3 := extnts.getD 3 0
  let t2 := Int.tmod e2 2
  let evenAddn : ℚ := if t2 = 0 then 0 else 1/2
  let oddAddn : ℚ := if t2 = 0 then 1/2 else 0
  let addleft : ℚ :=
    (if t2 = 0 then 0 else 1/2) +
      (if t2.natAbs = (Int.tmod (extnts.getD 4 0) 2).natAbs then 0
       else if t2 = 0 then 1 else 1/2)
  let g :=
    if rectWidens extnts then
      { g with d_rowlen := g.d_rowlen + 1, d_size := (g.d_rowlen + 1) * g.d_numrows }
    else g
  { g with hexen := g.hexen.map fun h =>
      let hz : ℚ := (h.ri : ℚ) + (h.gi : ℚ) / 2
      let parityhalf : ℚ := if Int.tmod h.gi 2 = 0 then evenAddn else oddAddn
      if hz < (e0 : ℚ) - addleft + parityhalf then h
      else if hz > (e1 : ℚ) + parityhalf then h
      else if h.gi < e2 then h
      else if h.gi > e3 then h
      else { h with insideDomain := true } }

/-- `HexGrid::markHexesInsideParallelogramDomain`: mark `insideDomain` on
every cell whose `ri` and `gi` lie within the extents. -/
def markHexesInsideParallelogramDomain (g : HexGrid) (extnts : List Int) : HexGrid :=
  { g with hexen := g.hexen.map fun h =>
      if h.ri < extnts.getD 0 0 ∨ h.ri > extnts.getD 1 0 ∨
         h.gi < extnts.getD 2 0 ∨ h.gi > extnts.getD 3 0 then h
      else { h with insideDomain := true } }

/-- `HexGrid::markAllHexesInsideDomain`. -/
def markAllHexesInsideDomain (g : HexGrid) : HexGrid :=
  { g with hexen := g.hexen.map fun h => { h with insideDomain := true } }

/-- `HexGrid::computeDistanceToBoundary`: boundary cells get 0, cells
outside the boundary the dummy `-100`, and every other cell the minimum
distance to a boundary cell (scanned in list order, starting from the
cell's current `distToBoundary` with the `< 0` reset).  Distances are
kept squared throughout the embedding (`Hex::distanceFrom` takes a square
root, which leaves ℚ); squaring is strictly monotone on nonnegative
reals, so the same minimiser is selected, the sentinel cases carry over,
and only the stored magnitude differs. -/
def computeDistanceToBoundary (g : HexGrid) : HexGrid :=
  { g with hexen := g.hexen.map fun h =>
      if h.boundaryHex then { h with distToBoundary := 0 }
      else if !h.insideBoundary then { h with distToBoundary := -100 }
      else
        { h with distToBoundary :=
            g.hexen.foldl (fun dcur bh =>
              if bh.boundaryHex then
                let delta := distSqFromHex g.d g.v h bh
                if delta < dcur ∨ dcur < 0 then delta else dcur
              else dcur) h.distToBoundary } }

/-- The `while (hi->has_nw) hi = hi->nw;` walk of `populate_d_vectors`.
`fuel` bounds the walk; exhaustion (a `nw` cycle, which would not
terminate in C++) and broken links return `none`. -/
def walkNWGo (s : List Hex) : Nat → Nat → Option Nat
  | 0, _ => none
  | fuel + 1, hi =>
    match findHex s hi with
    | none => none
    | some h =>
      match h.nw with
      | none => some hi
      | some t => walkNWGo s fuel t

/-- The Rectangle raster of `populate_d_vectors`: the body of the
do-while.  Each pass steps east unconditionally (`hi = hi->ne`, a
dangling dereference when absent), pushes, and at a row end either stops
(top row), or advances to the next row via the saved row start `blh`
(alternating `nne`/`nnw`) and pushes the new row start; the loop repeats
while the current cell has an east neighbour.  `fuel` bounds the
iterations; exhaustion is reported as `danglingIterator` like the other
corners that are undefined behaviour in the source. -/
def rectRasterGo (e3 : Int) : Nat → HexGrid → Nat → Nat → Bool → Except GridError HexGrid
  | 0, _, _, _, _ => .error .danglingIterator
  | fuel + 1, g, hi, blh, nextRowNE =>
    match findHex g.hexen hi with
    | none => .error .danglingIterator
    | some h =>
      match h.ne with
      | none => .error .danglingIterator
      | some t =>
        match findHex g.hexen t with
        | none => .error .danglingIterator
        | some h2 =>
          match d_push_back g h2 with
          | .error e => .error e
          | .ok g =>
            if h2.ne = none then
              if h2.gi = e3 then .ok g
              else
                match findHex g.hexen blh with
                | none => .error .danglingIterator
                | some hb =>
                  match (if nextRowNE then hb.nne else hb.nnw) with
                  | none => .error .danglingIterator
                  | some t2 =>
                    match findHex g.hexen t2 with
                    | none => .error .danglingIterator
                    | some h3 =>
                      match d_push_back g h3 with
                      | .error e => .error e
                      | .ok g =>
                        if h3.ne = none then .ok g
                        else rectRasterGo e3 fuel g t2 t2 (!nextRowNE)
            else rectRasterGo e3 fuel g t blh nextRowNE

/-- The Parallelogram raster of `populate_d_vectors`: while the current
cell has an east neighbour, step east and push; at the end of a non-top
row do the carriage return through `blh->nne` and push the new row
start. -/
def paraRasterGo (e3 : Int) : Nat → HexGrid → Nat → Nat → Except GridError HexGrid
  | 0, _, _, _ => .error .danglingIterator
  | fuel + 1, g, hi, blh =>
    match findHex g.hexen hi with
    | none => .error .danglingIterator
    | some h =>
      match h.ne with
      | none => .ok g
      | some t =>
        match findHex g.hexen t with
        | none => .error .danglingIterator
        | some h2 =>
          if h2.ne = none then
            if h2.gi = e3 then d_push_back g h2
            else
              match d_push_back g h2 with
              | .error e => .error e
              | .ok g =>
                match findHex g.hexen blh with
                | none => .error .danglingIterator
                | some hb =>
                  match hb.nne with
                  | none => .error .danglingIterator
                  | some t2 =>
                    match findHex g.hexen t2 with
                    | none => .error .danglingIterator
                    | some h3 =>
                      match d_push_back g h3 with
                      | .error e => .error e
                      | .ok g => paraRasterGo e3 fuel g t2 t2
          else
            match d_push_back g h2 with
            | .error e => .error e
            | .ok g => paraRasterGo e3 fuel g t blh

/-- The Hexagon/Boundary raster of `populate_d_vectors`: push every cell
in list order. -/
def pushAllGo : HexGrid → List Hex → Except GridError HexGrid
  | g, [] => .ok g
  | g, h :: t =>
    match d_push_back g h with
    | .error e => .error e
    | .ok g => pushAllGo g t

/-- `HexGrid::populate_d_vectors`: for Rectangle/Parallelogram find the
bottom-left cell (first cell on the bottom row `extnts[2]`, then walk
`nw`), check it has `ne` and `nne` neighbours but no `nnw`, clear the
flat arrays, raster through the cells, and finish with
`populate_d_neighbours`.  Iterator dereferences that the source leaves
undefined (no cell on the bottom row, broken raster links) surface as
`danglingIterator`. -/
def populate_d_vectors (g : HexGrid) (extnts : List Int) : Except GridError HexGrid :=
  let e2 := extnts.getD 2 0
  let e3 := extnts.getD 3 0
  if g.domainShape = HexDomainShape.Rectangle ∨
     g.domainShape = HexDomainShape.Parallelogram then
    match g.hexen.find? (fun h => h.gi == e2) with
    | none => .error .danglingIterator
    | some hrow =>
      match walkNWGo g.hexen (g.hexen.length + 1) hrow.hid with
      | none => .error .danglingIterator
      | some blh =>
        match findHex g.hexen blh with
        | none => .error .danglingIterator
        | some hb =>
          if hb.nne = none ∨ hb.ne = none ∨ hb.nnw ≠ none then
            .error .badBottomLeftHex
          else
            let g := g.d_clear
            if g.domainShape = HexDomainShape.Rectangle then
              match d_push_back g hb with
              | .error e => .error e
              | .ok g =>
                match rectRasterGo e3 (g.hexen.length + 1) g blh blh true with
                | .error e => .error e
                | .ok g => .ok g.populate_d_neighbours
            else
              match d_push_back g hb with
              | .error e => .error e
              | .ok g =>
                match paraRasterGo e3 (g.hexen.length + 1) g blh blh with
                | .error e => .error e
                | .ok g => .ok g.populate_d_neighbours
  else
    let g := g.d_clear
    match pushAllGo g g.hexen with
    | .error e => .error e
    | .ok g => .ok g.populate_d_neighbours

/-- The corner iterators and found flags of `allocateSubPgrams`'s
grow-the-parallelogram loop. -/
structure SubpCorners where
  cNW : Nat
  cNNE : Nat
  cENE : Nat
  cSSW : Nat
  cWSW : Nat
  cSE : Nat
  fNE : Bool := false
  fSW : Bool := false
  fNW : Bool := false
  fSE : Bool := false
deriving DecidableEq, Repr

/-- The `foundNE` arm of `allocateSubPgrams`: the NE corner cannot grow,
so record it found and test whether the NW and SE corners are pinned
too. -/
def aFoundNE (st : SubpCorners) (hNW hSE : Hex) : SubpCorners :=
  let st := { st with fNE := true }
  let st := if hNW.nw = none then { st with fNW := true } else st
  if hSE.nsw = none then { st with fSE := true } else st

/-- The inner else of `allocateSubPgrams`'s NE block: pin the NW corner
and extend the right edge east, then (with the updated corners) pin the
SE corner and extend the top edge northeast.  Iterator reads the source
leaves undefined (an absent link stored and dereferenced on a later
iteration) surface as `none` immediately. -/
def aInner (s : List Hex) (st : SubpCorners) : Option SubpCorners :=
  match findHex s st.cNW, findHex s st.cSE, findHex s st.cNNE, findHex s st.cENE with
  | some hNW, some hSE, some hNNE, some hENE =>
    let step1 : Option SubpCorners :=
      if hNW.nne = none then
        let st := { st with fNW := true }
        if hSE.ne.isSome ∧ hENE.ne.isSome ∧ hNNE.ne.isSome then
          match hSE.ne, hNNE.ne with
          | some tSE2, some tNNE2 =>
            match findHex s tNNE2 with
            | none => none
            | some hNNE2 =>
              match hNNE2.ne with
              | none => none
              | some tENE2 => some { st with cSE := tSE2, cNNE := tNNE2, cENE := tENE2 }
          | _, _ => none
        else some st
      else some st
    match step1 with
    | none => none
    | some st =>
      match findHex s st.cSE, findHex s st.cNW, findHex s st.cNNE, findHex s st.cENE with
      | some hSE2, some hNW2, some hNNE2, some hENE2 =>
        if hSE2.ne = none then
          let st := { st with fSE := true }
          if hNW2.nne.isSome ∧ hENE2.nne.isSome ∧ hNNE2.nne.isSome then
            match hNW2.nne, hNNE2.nne, hENE2.nne with
            | some tNW3, some tNNE3, some tENE3 =>
              some { st with cNW := tNW3, cNNE := tNNE3, cENE := tENE3 }
            | _, _, _ => none
          else some st
        else some st
      | _, _, _, _ => none
  | _, _, _, _ => none

/-- The NE block of `allocateSubPgrams`'s loop: when any of the NE, NW,
SE corners is unfound, either slide all three out along the NE axis, or
pin corners per the source's else ladder. -/
def blockA (s : List Hex) (st : SubpCorners) : Option SubpCorners :=
  if st.fNE = false ∨ st.fNW = false ∨ st.fSE = false then
    match findHex s st.cNNE, findHex s st.cNW, findHex s st.cSE with
    | some hNNE, some hNW, some hSE =>
      match hNNE.ne with
      | none => some (aFoundNE st hNW hSE)
      | some t1 =>
        match findHex s t1 with
        | none => none
        | some h1 =>
          if h1.nne.isSome ∧ h1.ne.isSome ∧ hNW.nne.isSome ∧ hSE.ne.isSome then
            match h1.nne, hNW.nne, hSE.ne with
            | some tNNE2, some tNW2, some tSE2 =>
              match findHex s tNNE2 with
              | none => none
              | some hNNE2 =>
                match hNNE2.ne with
                | none => none
                | some t2 =>
                  match findHex s t2 with
                  | none => none
                  | some h2 =>
                    match h2.ne with
                    | none => none
                    | some tENE2 =>
                      some { st with cNNE := tNNE2, cENE := tENE2, cNW := tNW2, cSE := tSE2 }
            | _, _, _ => none
          else if h1.nne = none ∨ h1.ne = none then
            some (aFoundNE st hNW hSE)
          else
            aInner s st
    | _, _, _ => none
  else some st

/-- The `foundSW` arm of `allocateSubPgrams`: the SW corner cannot grow;
record it found, test the NW/SE corners, and when the NE corner is found
too declare the NW and SE corners found outright. -/
def bFoundSW (st : SubpCorners) (hNW hSE : Hex) : SubpCorners :=
  let st := { st with fSW := true }
  let st := if hNW.nne = none then { st with fNW := true } else st
  let st := if hSE.ne = none then { st with fSE := true } else st
  if st.fNE then { st with fNW := true, fSE := true } else st

/-- The inner else of `allocateSubPgrams`'s SW block: pin the NW corner
and extend the bottom edge southwest, then pin the SE corner and extend
the left edge west (the source reads the new NW corner off
`cornerSE->nw`). -/
def bInner (s : List Hex) (st : SubpCorners) : Option SubpCorners :=
  match findHex s st.cNW, findHex s st.cSE, findHex s st.cSSW, findHex s st.cWSW with
  | some hNW, some hSE, some hSSW, some hWSW =>
    let step1 : Option SubpCorners :=
      if hNW.nw = none then
        let st := { st with fNW := true }
        if hSE.nsw.isSome ∧ hSSW.nsw.isSome ∧ hWSW.nsw.isSome then
          match hSE.nsw, hSSW.nsw, hWSW.nsw with
          | some tSE2, some tSSW2, some tWSW2 =>
            some { st with cSE := tSE2, cSSW := tSSW2, cWSW := tWSW2 }
          | _, _, _ => none
        else some st
      else some st
    match step1 with
    | none => none
    | some st =>
      match findHex s st.cSE, findHex s st.cNW, findHex s st.cSSW, findHex s st.cWSW with
      | some hSE2, some hNW2, some hSSW2, some hWSW2 =>
        if hSE2.nsw = none then
          let st := { st with fSE := true }
          if hNW2.nw.isSome ∧ hSSW2.nw.isSome ∧ hWSW2.nw.isSome then
            match hSE2.nw, hSSW2.nw, hWSW2.nw with
            | some tNW3, some tSSW3, some tWSW3 =>
              some { st with cNW := tNW3, cSSW := tSSW3, cWSW := tWSW3 }
            | _, _, _ => none
          else some st
        else some st
      | _, _, _, _ => none
  | _, _, _, _ => none

/-- The SW block of `allocateSubPgrams`'s loop, mirroring the NE
block. -/
def blockB (s : List Hex) (st : SubpCorners) : Option SubpCorners :=
  if st.fSW = false ∨ st.fNW = false ∨ st.fSE = false then
    match findHex s st.cSSW, findHex s st.cNW, findHex s st.cSE with
    | some hSSW, some hNW, some hSE =>
      match hSSW.nw with
      | none => some (bFoundSW st hNW hSE)
      | some t1 =>
        match findHex s t1 with
        | none => none
        | some h1 =>
          if h1.nw.isSome ∧ h1.nsw.isSome ∧ hNW.nw.isSome ∧ hSE.nsw.isSome then
            match h1.nsw, hNW.nw, hSE.nsw with
            | some tSSW2, some tNW2, some tSE2 =>
              match findHex s tSSW2 with
              | none => none
              | some hSSW2 =>
                match hSSW2.nw with
                | none => none
                | some t2 =>
                  match findHex s t2 with
                  | none => none
                  | some h2 =>
                    match h2.nw with
                    | none => none
                    | some tWSW2 =>
                      some { st with cSSW := tSSW2, cWSW := tWSW2, cNW := tNW2, cSE := tSE2 }
            | _, _, _ => none
          else if h1.nw = none ∨ h1.nsw = none then
            some (bFoundSW st hNW hSE)
          else
            bInner s st
    | _, _, _ => none
  else some st

/-- The grow loop of `allocateSubPgrams`: while any corner is unfound,
mark corners that hit the boundary, then run the NE and SW blocks.
`fuel` bounds the iterations. -/
def subpLoop (s : List Hex) : Nat → SubpCorners → Option SubpCorners
  | 0, _ => none
  | fuel + 1, st =>
    if st.fNE ∧ st.fSW ∧ st.fNW ∧ st.fSE then some st
    else
      match findHex s st.cNNE, findHex s st.cENE, findHex s st.cNW,
            findHex s st.cSE, findHex s st.cSSW, findHex s st.cWSW with
      | some hNNE, some hENE, some hNW, some hSE, some hSSW, some hWSW =>
        let st := { st with
          fNE := st.fNE || hNNE.boundaryHex || hENE.boundaryHex,
          fNW := st.fNW || hNW.boundaryHex,
          fSE := st.fSE || hSE.boundaryHex,
          fSW := st.fSW || hSSW.boundaryHex || hWSW.boundaryHex }
        match blockA s st with
        | none => none
        | some st =>
          match blockB s st with
          | none => none
          | some st => subpLoop s fuel st
      | _, _, _, _, _, _ => none

/-- `std::vector::resize(1)`: keep the first element or pad with the
default. -/
def resize1 {α : Type} (l : List α) (dflt : α) : List α :=
  l.take 1 ++ List.replicate (1 - l.length) dflt

/-- The inner `for (j = 0; j < rl_; ++j)` of `allocateSubPgrams`: set
`allocatedSubp`, push into the sub-parallelogram arrays, and step east;
the final east step only reads the link, so an absent link surfaces only
if another push follows. -/
def subpPushRow (subpIdx : Int) : Nat → HexGrid → Option Nat →
    Except GridError (HexGrid × Option Nat)
  | 0, g, hid => .ok (g, hid)
  | j + 1, g, hid =>
    match hid with
    | none => .error .danglingIterator
    | some hid =>
      match findHex g.hexen hid with
      | none => .error .danglingIterator
      | some _ =>
        let g := { g with hexen := g.hexen.map fun (k : Hex) =>
            if k.hid = hid then { k with allocatedSubp := subpIdx } else k }
        match findHex g.hexen hid with
        | none => .error .danglingIterator
        | some h2 =>
          let g := g.sp_push_back h2
          subpPushRow subpIdx j g h2.ne

/-- The row loop of `allocateSubPgrams`: each row pushes `rl` cells (one
fewer on the bottom and top rows), advancing the saved row start by `nnw`
on the edge rows and `nne` otherwise; the next row begins at the advanced
row start. -/
def subpFillGo (subpIdx : Int) (rl : Int) (bot top : Int) :
    Nat → Int → HexGrid → Option Nat → Nat → Except GridError HexGrid
  | 0, _, g, _, _ => .ok g
  | cnt + 1, v, g, h, rowstart =>
    match findHex g.hexen rowstart with
    | none => .error .danglingIterator
    | some hrs =>
      let isEdge := v = bot ∨ v = top
      let rl2 : Int := if isEdge then rl - 1 else rl
      let rowstart2 : Nat :=
        if isEdge then (match hrs.nnw with | some t => t | none => rowstart)
        else (match hrs.nne with | some t => t | none => rowstart)
      match subpPushRow subpIdx rl2.toNat g h with
      | .error e => .error e
      | .ok (g, _) => subpFillGo subpIdx rl bot top cnt (v + 1) g (some rowstart2) rowstart2

/-- `HexGrid::allocateSubPgrams`: grow a single sub-parallelogram out
from the cell nearest the boundary centroid until its corners touch the
boundary or run out of lattice, size the `sp_` arrays for one
sub-parallelogram, record its row length, row count and vector length
(product minus the two omitted pointy-corner cells), and walk its rows
allocating and pushing cells.  Iterator dereferences the source leaves
undefined surface as `danglingIterator`. -/
def allocateSubPgrams (g : HexGrid) : Except GridError HexGrid :=
  match findHexNearest g.d g.v g.hexen g.boundaryCentroid with
  | none => .error .danglingIterator
  | some cid =>
    match findHex g.hexen cid with
    | none => .error .danglingIterator
    | some ch =>
      match ch.nnw, ch.nne, ch.ne, ch.nsw, ch.nw, ch.nse with
      | some tNW, some tNNE, some tENE, some tSSW, some tWSW, some tSE =>
        match subpLoop g.hexen (g.hexen.length + 1)
            { cNW := tNW, cNNE := tNNE, cENE := tENE,
              cSSW := tSSW, cWSW := tWSW, cSE := tSE } with
        | none => .error .danglingIterator
        | some st =>
          let g := { g with
            sp_x := resize1 g.sp_x [], sp_y := resize1 g.sp_y [],
            sp_ri := resize1 g.sp_ri [], sp_gi := resize1 g.sp_gi [],
            sp_distToBoundary := resize1 g.sp_distToBoundary [],
            sp_ne := resize1 g.sp_ne [], sp_nne := resize1 g.sp_nne [],
            sp_nnw := resize1 g.sp_nnw [], sp_nw := resize1 g.sp_nw [],
            sp_nsw := resize1 g.sp_nsw [], sp_nse := resize1 g.sp_nse [],
            sp_v_ne := resize1 g.sp_v_ne [], sp_v_nne := resize1 g.sp_v_nne [],
            sp_v_nnw := resize1 g.sp_v_nnw [], sp_v_nw := resize1 g.sp_v_nw [],
            sp_v_nsw := resize1 g.sp_v_nsw [], sp_v_nse := resize1 g.sp_v_nse [],
            sp_flags := resize1 g.sp_flags [],
            sp_rowlens := resize1 g.sp_rowlens 0,
            sp_numrows := resize1 g.sp_numrows 0,
            sp_veclen := resize1 g.sp_veclen 0,
            sp_numvecs := 1 }
          match findHex g.hexen st.cSE, findHex g.hexen st.cSSW,
                findHex g.hexen st.cNW with
          | some hSE, some hSSW, some hNW =>
            let rowlen0 := hSE.ri - (hSSW.ri - 1)
            let numrows0 := hNW.gi - hSSW.gi + 1
            let g := { g with
              sp_rowlens := g.sp_rowlens.set 0 rowlen0,
              sp_numrows := g.sp_numrows.set 0 numrows0,
              sp_veclen := g.sp_veclen.set 0 (rowlen0 * numrows0 - 2) }
            subpFillGo 0 rowlen0 hSSW.gi hNW.gi (hNW.gi - hSSW.gi + 1).toNat hSSW.gi
              g (some st.cSSW) st.cSSW
          | _, _, _ => .error .danglingIterator
      | _, _, _, _, _, _ => .error .danglingIterator

/-- The `allocatedSubp == -1` push loop of the SubParallelograms branch
of `setBoundary(const BezCurvePath&)`. -/
def pushUnallocGo : HexGrid → List Hex → Except GridError HexGrid
  | g, [] => .ok g
  | g, h :: t =>
    if h.allocatedSubp = -1 then
      match d_push_back g h with
      | .error e => .error e
      | .ok g => pushUnallocGo g t
    else pushUnallocGo g t

/-- Steps 3–4 of `HexGrid::setDomain`: discard the cells outside the
domain, flood-fill `insideBoundary` from the cell nearest the boundary
centroid (dereferencing `end()` when there is none is undefined in the
source), compute the distances to the boundary, and populate the flat
arrays. -/
def setDomainRest (g : HexGrid) (extnts : List Int) : Except GridError HexGrid :=
  let g := g.discardOutsideDomain
  match findHexNearest g.d g.v g.hexen g.boundaryCentroid with
  | none => .error .danglingIterator
  | some cid =>
    let g := { g with hexen := markHexesInside g.hexen (g.hexen.length + 1) cid }
    let g := g.computeDistanceToBoundary
    g.populate_d_vectors extnts

/-- Step 1.5 of `HexGrid::setDomain`: `d_rowlen = extnts[1]-extnts[0]+1`,
`d_numrows = extnts[3]-extnts[2]+1`, `d_size = d_rowlen * d_numrows`. -/
def setDomainScalars (g : HexGrid) (extnts : List Int) : HexGrid :=
  { g with
    d_rowlen := extnts.getD 1 0 - extnts.getD 0 0 + 1,
    d_numrows := extnts.getD 3 0 - extnts.getD 2 0 + 1,
    d_size := (extnts.getD 1 0 - extnts.getD 0 0 + 1) *
      (extnts.getD 3 0 - extnts.getD 2 0 + 1) }

/-- `HexGrid::setDomain`: find the boundary extents (growth buffer
included), set the row-length/row-count/size scalars from them, mark the
cells inside the domain according to the domain shape (throwing for the
shapes without a marker), then discard, flood, compute distances and
populate.  The extents are computed once from the incoming grid (they do
not depend on the scalar fields the first step sets). -/
def setDomain (g : HexGrid) : Except GridError HexGrid :=
  if g.domainShape = HexDomainShape.Rectangle then
    ((setDomainScalars g g.findBoundaryExtents).markHexesInsideRectangularDomain
      g.findBoundaryExtents).setDomainRest g.findBoundaryExtents
  else if g.domainShape = HexDomainShape.Parallelogram then
    ((setDomainScalars g g.findBoundaryExtents).markHexesInsideParallelogramDomain
      g.findBoundaryExtents).setDomainRest g.findBoundaryExtents
  else if g.domainShape = HexDomainShape.Hexagon then
    (setDomainScalars g g.findBoundaryExtents).markAllHexesInsideDomain.setDomainRest
      g.findBoundaryExtents
  else .error .unknownDomainShape

/-- Modelled from the spec: `BezCurvePath::getCentroid` (the curve
collaborator is not among the sources) averages the sampled points'
coordinates. -/
def bezCentroid (pts : List (ℚ × ℚ)) : ℚ × ℚ :=
  ((pts.map Prod.fst).sum / (pts.length : ℚ), (pts.map Prod.snd).sum / (pts.length : ℚ))

/-- `HexGrid::setBoundary(const BezCurvePath& p)`: store the curve; when
it is not null, take its sampled points (the source samples at `d/2`; the
embedding's curve carries its samples), subtract their centroid so the
boundary is centred on the origin, hill-climb each point from the
previous match starting at `hexen.begin()`, check contiguity from the
last match, then for the Boundary and SubParallelograms shapes discard
the outside (SubParallelograms additionally allocates the
sub-parallelogram, pushes the unallocated cells and populates the `sp_`
neighbour arrays; Boundary pushes every cell and populates the dense
ones), and for the remaining shapes set a domain.  A null curve skips all
of it. -/
def setBoundary_curve (g : HexGrid) (p : BezCurvePathM) : Except GridError HexGrid :=
  let g := { g with boundary := p }
  if p.isNull = false then
    let bpoints := p.points
    let c := bezCentroid bpoints
    let bpoints := bpoints.map fun q => (q.1 - c.1, q.2 - c.2)
    let g := { g with boundaryCentroid := (0, 0) }
    match g.hexen with
    | [] => .error .danglingIterator
    | h0 :: _ =>
      let res := bpoints.foldl
        (fun (acc : HexGrid × Nat) q => HexGrid.setBoundary_point acc.1 q acc.2)
        (g, h0.hid)
      let g := res.1
      if boundaryContiguousFrom g.hexen res.2 = false then .error .notContiguous
      else if g.domainShape = HexDomainShape.Boundary ∨
              g.domainShape = HexDomainShape.SubParallelograms then
        let g := g.discardOutsideBoundary
        if g.domainShape = HexDomainShape.SubParallelograms then
          match g.allocateSubPgrams with
          | .error e => .error e
          | .ok g =>
            match pushUnallocGo g g.hexen with
            | .error e => .error e
            | .ok g => .ok g.populate_sp_d_neighbours
        else
          match pushAllGo g g.hexen with
          | .error e => .error e
          | .ok g => .ok g.populate_d_neighbours
      else
        g.setDomain
  else .ok g

end HexGrid

/-! ## Reciprocity (claim C1's invariant), as a proposition -/

/-- Neighbour reciprocity over a cell list: whenever cell `a` links to
cell `b` (both in the list) in direction `dir`, `b` links back to `a` in
the opposite direction. -/
def Reciprocal (s : List Hex) : Prop :=
  ∀ a ∈ s, ∀ b ∈ s, ∀ dir : Dir, a.link dir = some b.hid → b.link dir.opp = some a.hid

/-! ## Claim C7: renumbering density -/

theorem renumberGo_map_vi : ∀ (l : List Hex) (i : Nat),
    (HexGrid.renumberGo i l).map Hex.vi = List.range' i l.length := by
  intro l
  induction l with
  | nil => intro i; rfl
  | cons h t ih =>
    intro i
    simp [HexGrid.renumberGo, List.range'_succ, ih]

theorem renumber_density_list (l : List Hex) :
    (HexGrid.renumberGo 0 l).map Hex.vi = List.range (HexGrid.renumberGo 0 l).length := by
  have h1 := renumberGo_map_vi l 0
  have h2 : (HexGrid.renumberGo 0 l).length = l.length := by
    have := congrArg List.length h1
    simpa using this
  rw [h1, h2, List.range_eq_range']

/-- C7.  Renumbering density: after either pruning pass
(`discardOutsideBoundary` or `discardOutsideDomain`, both of which end by
calling `renumberVectorIndices`), the `vi` values of the surviving cells,
read in list order, are exactly `0, 1, …, count-1` — so their set is
`{0, …, count-1}` with no gaps and no duplicates, assigned in list
order. -/
theorem renumbering_density (g : HexGrid) :
    (g.discardOutsideBoundary.hexen.map Hex.vi) =
      List.range g.discardOutsideBoundary.hexen.length ∧
    (g.discardOutsideDomain.hexen.map Hex.vi) =
      List.range g.discardOutsideDomain.hexen.length :=
  ⟨renumber_density_list _, renumber_density_list _⟩

/-! ## Claim C2: lattice size -/

theorem setL_length (s : List Hex) (a : Nat) (dir : Dir) (b : Nat) :
    (setL s a dir b).length = s.length := by simp [setL]

@[simp] theorem setBoth_length (s : List Hex) (a : Nat) (dir : Dir) (b : Nat) :
    (setBoth s a dir b).length = s.length := by simp [setBoth, setL_length]

@[simp] theorem linkIfL_length (c : Prop) [Decidable c] (o : Option Nat) (a : Nat)
    (dir : Dir) (s : List Hex) : (linkIfL c o a dir s).length = s.length := by
  unfold linkIfL
  split
  · cases o <;> simp
  · rfl

@[simp] theorem linkEitherL_length (c : Prop) [Decidable c] (dt df : Dir) (a b : Nat)
    (s : List Hex) : (linkEitherL c dt df a b s).length = s.length := by
  unfold linkEitherL
  split <;> simp

@[simp] theorem gSite3L_length (j wmax : Int) (pr : List Nat) (a : Nat) (s : List Hex) :
    (gSite3L j wmax pr a s).length = s.length := by
  unfold gSite3L
  split
  · cases pr[0]? <;> simp
  · split
    · cases prIdx pr j <;> simp
    · rfl

theorem vtxIf_fields (c : Prop) [Decidable c] (w : Nat) (hid : Nat) (st : InitState) :
    (vtxIf c w hid st).hexen = st.hexen ∧ (vtxIf c w hid st).vi = st.vi ∧
    (vtxIf c w hid st).ri = st.ri ∧ (vtxIf c w hid st).gi = st.gi ∧
    (vtxIf c w hid st).prevRing = st.prevRing ∧
    (vtxIf c w hid st).nextPrevRing = st.nextPrevRing ∧
    (vtxIf c w hid st).walkstart = st.walkstart ∧
    (vtxIf c w hid st).walkinc = st.walkinc ∧
    (vtxIf c w hid st).walkmin = st.walkmin ∧
    (vtxIf c w hid st).walkmax = st.walkmax ∧
    (vtxIf c w hid st).numInRing = st.numInRing ∧
    (vtxIf c w hid st).ringSideLen = st.ringSideLen := by
  unfold vtxIf
  repeat' split
  all_goals exact ⟨rfl, rfl, rfl, rfl, rfl, rfl, rfl, rfl, rfl, rfl, rfl, rfl⟩

@[simp] theorem vtxIf_hexen (c : Prop) [Decidable c] (w hid : Nat) (st : InitState) :
    (vtxIf c w hid st).hexen = st.hexen := (vtxIf_fields c w hid st).1

@[simp] theorem vtxIf_vi (c : Prop) [Decidable c] (w hid : Nat) (st : InitState) :
    (vtxIf c w hid st).vi = st.vi := (vtxIf_fields c w hid st).2.1

@[simp] theorem vtxIf_ri (c : Prop) [Decidable c] (w hid : Nat) (st : InitState) :
    (vtxIf c w hid st).ri = st.ri := (vtxIf_fields c w hid st).2.2.1

@[simp] theorem vtxIf_gi (c : Prop) [Decidable c] (w hid : Nat) (st : InitState) :
    (vtxIf c w hid st).gi = st.gi := (vtxIf_fields c w hid st).2.2.2.1

@[simp] theorem vtxIf_prevRing (c : Prop) [Decidable c] (w hid : Nat) (st : InitState) :
    (vtxIf c w hid st).prevRing = st.prevRing := (vtxIf_fields c w hid st).2.2.2.2.1

@[simp] theorem vtxIf_nextPrevRing (c : Prop) [Decidable c] (w hid : Nat) (st : InitState) :
    (vtxIf c w hid st).nextPrevRing = st.nextPrevRing := (vtxIf_fields c w hid st).2.2.2.2.2.1

@[simp] theorem vtxIf_walkstart (c : Prop) [Decidable c] (w hid : Nat) (st : InitState) :
    (vtxIf c w hid st).walkstart = st.walkstart := (vtxIf_fields c w hid st).2.2.2.2.2.2.1

@[simp] theorem vtxIf_walkinc (c : Prop) [Decidable c] (w hid : Nat) (st : InitState) :
    (vtxIf c w hid st).walkinc = st.walkinc := (vtxIf_fields c w hid st).2.2.2.2.2.2.2.1

@[simp] theorem vtxIf_walkmin (c : Prop) [Decidable c] (w hid : Nat) (st : InitState) :
    (vtxIf c w hid st).walkmin = st.walkmin := (vtxIf_fields c w hid st).2.2.2.2.2.2.2.2.1

@[simp] theorem vtxIf_walkmax (c : Prop) [Decidable c] (w hid : Nat) (st : InitState) :
    (vtxIf c w hid st).walkmax = st.walkmax := (vtxIf_fields c w hid st).2.2.2.2.2.2.2.2.2.1

@[simp] theorem vtxIf_numInRing (c : Prop) [Decidable c] (w hid : Nat) (st : InitState) :
    (vtxIf c w hid st).numInRing = st.numInRing := (vtxIf_fields c w hid st).2.2.2.2.2.2.2.2.2.2.1

@[simp] theorem vtxIf_ringSideLen (c : Prop) [Decidable c] (w hid : Nat) (st : InitState) :
    (vtxIf c w hid st).ringSideLen = st.ringSideLen := (vtxIf_fields c w hid st).2.2.2.2.2.2.2.2.2.2.2

/-- The shape facts a single walk iteration guarantees: one cell is
appended and the ring counters are untouched. -/
def WalkStepShape (f : InitState → Nat → InitState) : Prop :=
  ∀ st i, (f st i).hexen.length = st.hexen.length + 1 ∧
    (f st i).ringSideLen = st.ringSideLen ∧
    (f st i).numInRing = st.numInRing

theorem rWalkStep_shape : WalkStepShape rWalkStep := by
  intro st i
  unfold rWalkStep
  simp [pushNPR, emplaceStep]

theorem mbWalkStep_shape : WalkStepShape mbWalkStep := by
  intro st i
  unfold mbWalkStep
  simp [pushNPR, emplaceStep]

theorem mgWalkStep_shape : WalkStepShape mgWalkStep := by
  intro st i
  unfold mgWalkStep
  simp [pushNPR, emplaceStep]

theorem mrWalkStep_shape : WalkStepShape mrWalkStep := by
  intro st i
  unfold mrWalkStep
  simp [pushNPR, emplaceStep]

theorem bWalkStep_shape : WalkStepShape bWalkStep := by
  intro st i
  unfold bWalkStep
  simp [pushNPR, emplaceStep]

theorem gWalkStep_shape : WalkStepShape gWalkStep := by
  intro st i
  unfold gWalkStep
  simp [pushNPR, emplaceStep]

theorem walkLoop_shape (f : InitState → Nat → InitState) (hf : WalkStepShape f) :
    ∀ (n i : Nat) (st : InitState),
      (walkLoop f st i n).hexen.length = st.hexen.length + n ∧
      (walkLoop f st i n).ringSideLen = st.ringSideLen ∧
      (walkLoop f st i n).numInRing = st.numInRing := by
  intro n
  induction n with
  | zero => intro i st; exact ⟨rfl, rfl, rfl⟩
  | succ n ih =>
    intro i st
    obtain ⟨h1, h2, h3⟩ := hf st i
    obtain ⟨g1, g2, g3⟩ := ih (i + 1) (f st i)
    refine ⟨?_, ?_, ?_⟩
    · show (walkLoop f (f st i) (i + 1) n).hexen.length = _
      rw [g1, h1]; omega
    · show (walkLoop f (f st i) (i + 1) n).ringSideLen = _
      rw [g2, h2]
    · show (walkLoop f (f st i) (i + 1) n).numInRing = _
      rw [g3, h3]

@[simp] theorem bump_hexen (st : InitState) : (bump st).hexen = st.hexen := rfl

@[simp] theorem ringStart_hexen (st : InitState) : (ringStart st).hexen = st.hexen := rfl

@[simp] theorem ringStart_ringSideLen (st : InitState) :
    (ringStart st).ringSideLen = st.ringSideLen := rfl

@[simp] theorem ringFinish_hexen (st : InitState) : (ringFinish st).hexen = st.hexen := rfl

@[simp] theorem ringFinish_ringSideLen (st : InitState) :
    (ringFinish st).ringSideLen = st.ringSideLen + 1 := rfl

@[simp] theorem bump_ringSideLen (st : InitState) : (bump st).ringSideLen = st.ringSideLen := rfl

@[simp] theorem bump_numInRing (st : InitState) : (bump st).numInRing = st.numInRing := rfl

theorem buildRing_shape (st : InitState) :
    (buildRing st).hexen.length = st.hexen.length + 6 * st.ringSideLen ∧
    (buildRing st).ringSideLen = st.ringSideLen + 1 := by
  obtain ⟨a1, a2, a3⟩ := walkLoop_shape rWalkStep rWalkStep_shape st.ringSideLen 0 (ringStart st)
  obtain ⟨b1, b2, b3⟩ := walkLoop_shape mbWalkStep mbWalkStep_shape st.ringSideLen 0
    (bump (walkLoop rWalkStep (ringStart st) 0 st.ringSideLen))
  obtain ⟨c1, c2, c3⟩ := walkLoop_shape mgWalkStep mgWalkStep_shape st.ringSideLen 0
    (bump (walkLoop mbWalkStep (bump (walkLoop rWalkStep (ringStart st) 0 st.ringSideLen)) 0
      st.ringSideLen))
  obtain ⟨d1, d2, d3⟩ := walkLoop_shape mrWalkStep mrWalkStep_shape st.ringSideLen 0
    (bump (walkLoop mgWalkStep (bump (walkLoop mbWalkStep
      (bump (walkLoop rWalkStep (ringStart st) 0 st.ringSideLen)) 0 st.ringSideLen)) 0
      st.ringSideLen))
  obtain ⟨e1, e2, e3⟩ := walkLoop_shape bWalkStep bWalkStep_shape st.ringSideLen 0
    (bump (walkLoop mrWalkStep (bump (walkLoop mgWalkStep (bump (walkLoop mbWalkStep
      (bump (walkLoop rWalkStep (ringStart st) 0 st.ringSideLen)) 0 st.ringSideLen)) 0
      st.ringSideLen)) 0 st.ringSideLen))
  obtain ⟨f1, f2, f3⟩ := walkLoop_shape gWalkStep gWalkStep_shape st.ringSideLen 0
    (bump (walkLoop bWalkStep (bump (walkLoop mrWalkStep (bump (walkLoop mgWalkStep
      (bump (walkLoop mbWalkStep (bump (walkLoop rWalkStep (ringStart st) 0 st.ringSideLen)) 0
        st.ringSideLen)) 0 st.ringSideLen)) 0 st.ringSideLen)) 0 st.ringSideLen))
  constructor
  · show (ringFinish _).hexen.length = _
    rw [ringFinish_hexen, bump_hexen, f1, bump_hexen, e1, bump_hexen, d1, bump_hexen, c1,
        bump_hexen, b1, bump_hexen, a1, ringStart_hexen]
    omega
  · show (ringFinish _).ringSideLen = _
    rw [ringFinish_ringSideLen, bump_ringSideLen, f2, bump_ringSideLen, e2, bump_ringSideLen,
        d2, bump_ringSideLen, c2, bump_ringSideLen, b2, bump_ringSideLen, a2,
        ringStart_ringSideLen]

/-- The invariant of the ring loop that the cell count depends on. -/
def RingCount (r : Nat) (st : InitState) : Prop :=
  st.hexen.length = 1 + 3 * r * (r + 1) ∧ st.ringSideLen = r + 1

theorem buildRings_count : ∀ (n r : Nat) (st : InitState),
    RingCount r st → RingCount (r + n) (buildRings st n) := by
  intro n
  induction n with
  | zero => intro r st h; exact h
  | succ n ih =>
    intro r st h
    obtain ⟨hl, hs⟩ := h
    obtain ⟨bl, bs⟩ := buildRing_shape st
    have hnext : RingCount (r + 1) (buildRing st) := by
      constructor
      · rw [bl, hl, hs]; ring
      · rw [bs, hs]
    have := ih (r + 1) (buildRing st) hnext
    show RingCount (r + (n + 1)) (buildRings (buildRing st) n)
    have harith : r + (n + 1) = (r + 1) + n := by omega
    rw [harith]
    exact this

theorem initStateFor_length (m : Nat) :
    (initStateFor m).hexen.length = 1 + 3 * m * (m + 1) := by
  have h0 : RingCount 0 initState0 := ⟨rfl, rfl⟩
  have := buildRings_count m 0 initState0 h0
  simpa [initStateFor] using this.1

theorem sum_six_mul (m : Nat) : (∑ k in Finset.Icc 1 m, 6 * k) = 3 * m * (m + 1) := by
  induction m with
  | zero => simp
  | succ n ih =>
    rw [Finset.sum_Icc_succ_top (by omega : 1 ≤ n + 1), ih]
    ring

/-- C2.  Lattice size: `init` with spacing `d` and span `x_span` builds
`maxRing = ceil((x_span/2)/d)` rings around the single central cell, ring
`k` contributing `6k` cells, so the total count is `1 + Σ_{k=1..maxRing} 6k`;
in particular for `d = 1` and `x_span = 5` there are `3` rings and `37`
cells. -/
theorem lattice_size (d v x_span z : ℚ) (shape : HexDomainShape) :
    (HexGrid.init d v x_span z shape).num =
      1 + ∑ k in Finset.Icc 1 (maxRingOf d x_span), 6 * k ∧
    maxRingOf 1 5 = 3 ∧
    (HexGrid.init 1 1 5 0 shape).num = 37 := by
  have hgen : ∀ (d' v' x' z' : ℚ) (sh : HexDomainShape),
      (HexGrid.init d' v' x' z' sh).num =
        1 + ∑ k in Finset.Icc 1 (maxRingOf d' x'), 6 * k := by
    intro d' v' x' z' sh
    show (initStateFor (maxRingOf d' x')).hexen.length = _
    rw [initStateFor_length, sum_six_mul]
  refine ⟨hgen d v x_span z shape, by with_unfolding_all decide, ?_⟩
  rw [hgen 1 1 5 0 shape, show maxRingOf 1 5 = 3 by with_unfolding_all decide]
  decide

/-! ## Claim C9: computeCentroid -/

theorem foldl_pair_sum (f g : Hex → ℚ) : ∀ (l : List Hex) (a b : ℚ),
    l.foldl (fun (acc : ℚ × ℚ) h => (acc.1 + f h, acc.2 + g h)) (a, b) =
      (a + (l.map f).sum, b + (l.map g).sum) := by
  intro l
  induction l with
  | nil => intro a b; simp
  | cons h t ih =>
    intro a b
    simp only [List.foldl_cons, ih, List.map_cons, List.sum_cons, Prod.mk.injEq]
    constructor <;> ring

/-- C9.  For every non-empty cell list, `computeCentroid` returns the
arithmetic mean of the cells' Cartesian coordinates: the component sums
divided by the list length (the divisions in the source are unguarded;
non-emptiness is the precondition under which they are meaningful). -/
theorem computeCentroid_is_mean (d v : ℚ) (pHexes : List Hex) (hne : pHexes ≠ []) :
    HexGrid.computeCentroid d v pHexes =
      ((pHexes.map (hexX d)).sum / (pHexes.length : ℚ),
       (pHexes.map (hexY v)).sum / (pHexes.length : ℚ)) := by
  unfold HexGrid.computeCentroid
  rw [foldl_pair_sum]
  simp

/-- Witness for C9 at a concrete two-cell list. -/
theorem computeCentroid_is_mean_witness :
    HexGrid.computeCentroid 1 1 [mkHex 0 1 0, mkHex 1 0 1] =
      (([mkHex 0 1 0, mkHex 1 0 1].map (hexX 1)).sum / (([mkHex 0 1 0, mkHex 1 0 1].length : Nat) : ℚ),
       ([mkHex 0 1 0, mkHex 1 0 1].map (hexY 1)).sum / (([mkHex 0 1 0, mkHex 1 0 1].length : Nat) : ℚ)) :=
  computeCentroid_is_mean 1 1 [mkHex 0 1 0, mkHex 1 0 1] (by decide)

/-! ## Claims C10 and C4: the flat neighbour arrays

Generic lemmas about index-write folds, then the factorisation of
`HexGrid.populate_d_neighbours` / `HexGrid.populate_sp_d_neighbours` into per-array folds. -/

@[simp] theorem HexGrid.setIdx_length (l : List Int) (i x : Int) :
    (HexGrid.setIdx l i x).length = l.length := by
  unfold HexGrid.setIdx
  split <;> simp

theorem HexGrid.setIdx_getD (l : List Int) (i x : Int) (j : Nat) :
    (HexGrid.setIdx l i x).getD j 0 = l.getD j 0 ∨ (HexGrid.setIdx l i x).getD j 0 = x := by
  unfold HexGrid.setIdx
  split
  · exact Or.inl rfl
  · by_cases hij : i.toNat = j
    · rw [List.getD_eq_getElem?_getD, List.getD_eq_getElem?_getD, ← hij,
        List.getElem?_set_self']
      cases hc : l[i.toNat]? with
      | none => left; simp [hc]
      | some y => right; simp [hc]
    · left
      rw [List.getD_eq_getElem?_getD, List.getD_eq_getElem?_getD,
        List.getElem?_set_ne hij]

/-- A write lands at its own in-range index. -/
theorem HexGrid.setIdx_getD_self (l : List Int) (i x : Int) (hi : 0 ≤ i)
    (hlt : i.toNat < l.length) : (HexGrid.setIdx l i x).getD i.toNat 0 = x := by
  unfold HexGrid.setIdx
  rw [if_neg (by omega)]
  rw [List.getD_eq_getElem?_getD, List.getElem?_set_eq_of_lt _ hlt]
  rfl

/-- A write leaves other indices unchanged. -/
theorem HexGrid.setIdx_getD_ne (l : List Int) (i x : Int) (j : Nat) (hij : i.toNat ≠ j ∨ i < 0) :
    (HexGrid.setIdx l i x).getD j 0 = l.getD j 0 := by
  unfold HexGrid.setIdx
  split
  · rfl
  · next hneg =>
    rcases hij with hij | hij
    · rw [List.getD_eq_getElem?_getD, List.getD_eq_getElem?_getD, List.getElem?_set_ne hij]
    · omega

@[simp] theorem resizeL_length (l : List Int) (n : Nat) (fill : Int) :
    (HexGrid.resizeL l n fill).length = n := by
  unfold HexGrid.resizeL
  simp
  omega

/-- Projection of a grid fold onto one of its arrays. -/
theorem fold_proj (step : HexGrid → Hex → HexGrid) (proj : HexGrid → List Int)
    (W : Hex → List Int → List Int) (hc : ∀ g h, proj (step g h) = W h (proj g)) :
    ∀ (hl : List Hex) (g : HexGrid),
      proj (hl.foldl step g) = hl.foldl (fun a h => W h a) (proj g) := by
  intro hl
  induction hl with
  | nil => intro g; rfl
  | cons h t ih => intro g; simp only [List.foldl_cons, ih, hc]

/-- Projection of a grid fold onto a pair of its arrays. -/
theorem fold_proj_pair (step : HexGrid → Hex → HexGrid)
    (proj : HexGrid → List Int × List Int)
    (W : Hex → List Int × List Int → List Int × List Int)
    (hc : ∀ g h, proj (step g h) = W h (proj g)) :
    ∀ (hl : List Hex) (g : HexGrid),
      proj (hl.foldl step g) = hl.foldl (fun p h => W h p) (proj g) := by
  intro hl
  induction hl with
  | nil => intro g; rfl
  | cons h t ih => intro g; simp only [List.foldl_cons, ih, hc]

/-- Entries after an index-write fold: the length is preserved and every
entry is either its initial value or a value some cell wrote. -/
theorem fold_write_entries (W : Hex → List Int → List Int) (P : Int → Prop)
    (hlen : ∀ h a, (W h a).length = a.length)
    (hval : ∀ h a j, j < a.length →
      (W h a).getD j 0 = a.getD j 0 ∨ P ((W h a).getD j 0)) :
    ∀ (hl : List Hex) (a : List Int),
      (hl.foldl (fun a h => W h a) a).length = a.length ∧
      ∀ j, j < a.length →
        (hl.foldl (fun a h => W h a) a).getD j 0 = a.getD j 0 ∨
        P ((hl.foldl (fun a h => W h a) a).getD j 0) := by
  intro hl
  induction hl with
  | nil => intro a; exact ⟨rfl, fun j hj => Or.inl rfl⟩
  | cons h t ih =>
    intro a
    obtain ⟨l1, v1⟩ := ih (W h a)
    refine ⟨by simp only [List.foldl_cons]; rw [l1, hlen], ?_⟩
    intro j hj
    have hj' : j < (W h a).length := by rw [hlen]; exact hj
    simp only [List.foldl_cons]
    rcases v1 j hj' with heq | hP
    · rcases hval h a j hj with heq2 | hP2
      · exact Or.inl (heq.trans heq2)
      · right; rw [heq]; exact hP2
    · exact Or.inr hP

/-- Pair version of `fold_write_entries`, for an array written jointly
with its companion sub-domain-id array. -/
theorem fold_write_entries_pair (W : Hex → List Int × List Int → List Int × List Int)
    (P : Int → Int → Prop)
    (hlen : ∀ h p, (W h p).1.length = p.1.length ∧ (W h p).2.length = p.2.length)
    (hval : ∀ h p (j : Nat), j < p.1.length → j < p.2.length →
      ((W h p).1.getD j 0 = p.1.getD j 0 ∧ (W h p).2.getD j 0 = p.2.getD j 0) ∨
      P ((W h p).1.getD j 0) ((W h p).2.getD j 0)) :
    ∀ (hl : List Hex) (p : List Int × List Int),
      (hl.foldl (fun p h => W h p) p).1.length = p.1.length ∧
      (hl.foldl (fun p h => W h p) p).2.length = p.2.length ∧
      ∀ j, j < p.1.length → j < p.2.length →
        ((hl.foldl (fun p h => W h p) p).1.getD j 0 = p.1.getD j 0 ∧
         (hl.foldl (fun p h => W h p) p).2.getD j 0 = p.2.getD j 0) ∨
        P ((hl.foldl (fun p h => W h p) p).1.getD j 0)
          ((hl.foldl (fun p h => W h p) p).2.getD j 0) := by
  intro hl
  induction hl with
  | nil => intro p; exact ⟨rfl, rfl, fun j hj1 hj2 => Or.inl ⟨rfl, rfl⟩⟩
  | cons h t ih =>
    intro p
    obtain ⟨l1, l2, v1⟩ := ih (W h p)
    obtain ⟨w1, w2⟩ := hlen h p
    refine ⟨by simp only [List.foldl_cons]; rw [l1, w1],
            by simp only [List.foldl_cons]; rw [l2, w2], ?_⟩
    intro j hj1 hj2
    have hj1' : j < (W h p).1.length := by rw [w1]; exact hj1
    have hj2' : j < (W h p).2.length := by rw [w2]; exact hj2
    simp only [List.foldl_cons]
    rcases v1 j hj1' hj2' with ⟨he1, he2⟩ | hP
    · rcases hval h p j hj1 hj2 with ⟨hf1, hf2⟩ | hP2
      · exact Or.inl ⟨he1.trans hf1, he2.trans hf2⟩
      · right; rw [he1, he2]; exact hP2
    · exact Or.inr hP

/-- After the unconditional `-1` writes of `populate_d_neighbours` into a
sub-domain-id array, an index that some cell writes — or that already held
`-1` — holds `-1`. -/
theorem fold_write_forced (hl : List Hex) :
    ∀ (a : List Int) (j : Nat), j < a.length →
      ((∃ h ∈ hl, h.di = (j : Int)) ∨ a.getD j 0 = -1) →
      (hl.foldl (fun a h => HexGrid.setIdx a h.di (-1)) a).getD j 0 = -1 := by
  induction hl with
  | nil =>
    intro a j hj hcase
    rcases hcase with ⟨h, hm, _⟩ | hinit
    · exact absurd hm (List.not_mem_nil h)
    · exact hinit
  | cons h t ih =>
    intro a j hj hcase
    simp only [List.foldl_cons]
    apply ih (HexGrid.setIdx a h.di (-1)) j (by simp [hj])
    rcases hcase with ⟨h', hm, hdi⟩ | hinit
    · rcases List.mem_cons.mp hm with rfl | hm'
      · right
        rw [show h'.di = ((j : Nat) : Int) from hdi]
        have hself := HexGrid.setIdx_getD_self a ((j : Nat) : Int) (-1)
          (Int.natCast_nonneg j) (by rw [Int.toNat_natCast]; exact hj)
        rw [Int.toNat_natCast] at hself
        exact hself
      · exact Or.inl ⟨h', hm', hdi⟩
    · right
      rcases HexGrid.setIdx_getD a h.di (-1) j with he | he
      · rw [he]; exact hinit
      · exact he

theorem fold_write_forced_length (hl : List Hex) (a : List Int) :
    (hl.foldl (fun a h => HexGrid.setIdx a h.di (-1)) a).length = a.length :=
  (fold_write_entries (fun h a => HexGrid.setIdx a h.di (-1)) (fun _ => True)
    (fun h a => HexGrid.setIdx_length a h.di (-1))
    (fun _ _ _ _ => Or.inr trivial) hl a).1

/-- C10.  In the `populate_d_neighbours` path (Boundary and Hexagon domain
modes, and every other caller of `populate_d_vectors`), after flattening —
i.e. when every flat index has been assigned to some cell as its `di` —
every entry of each of the six sub-domain-id arrays `d_v_ne, d_v_nne,
d_v_nnw, d_v_nw, d_v_nsw, d_v_nse` equals `-1`. -/
theorem dv_arrays_all_sentinel (g : HexGrid)
    (hsurj : ∀ i, i < g.d_x.length → ∃ h ∈ g.hexen, h.di = (i : Int)) :
    ∀ arr ∈ [(g.populate_d_neighbours).d_v_ne, (g.populate_d_neighbours).d_v_nne,
              (g.populate_d_neighbours).d_v_nnw, (g.populate_d_neighbours).d_v_nw,
              (g.populate_d_neighbours).d_v_nsw, (g.populate_d_neighbours).d_v_nse],
      arr.length = g.d_x.length ∧ ∀ j, j < g.d_x.length → arr.getD j 0 = -1 := by
  have base : ∀ (a0 : List Int),
      (g.hexen.foldl (fun a h => HexGrid.setIdx a h.di (-1))
        (HexGrid.resizeL a0 g.d_x.length 0)).length = g.d_x.length ∧
      ∀ j, j < g.d_x.length →
        (g.hexen.foldl (fun a h => HexGrid.setIdx a h.di (-1))
          (HexGrid.resizeL a0 g.d_x.length 0)).getD j 0 = -1 := by
    intro a0
    constructor
    · rw [fold_write_forced_length, resizeL_length]
    · intro j hj
      exact fold_write_forced g.hexen _ j (by rw [resizeL_length]; exact hj)
        (Or.inl (hsurj j hj))
  have hne : (g.populate_d_neighbours).d_v_ne =
      g.hexen.foldl (fun a h => HexGrid.setIdx a h.di (-1))
        (HexGrid.resizeL g.d_v_ne g.d_x.length 0) := by
    unfold HexGrid.populate_d_neighbours
    exact fold_proj _ (fun g => g.d_v_ne) (fun h a => HexGrid.setIdx a h.di (-1))
      (fun g h => rfl) _ _
  have hnne : (g.populate_d_neighbours).d_v_nne =
      g.hexen.foldl (fun a h => HexGrid.setIdx a h.di (-1))
        (HexGrid.resizeL g.d_v_nne g.d_x.length 0) := by
    unfold HexGrid.populate_d_neighbours
    exact fold_proj _ (fun g => g.d_v_nne) (fun h a => HexGrid.setIdx a h.di (-1))
      (fun g h => rfl) _ _
  have hnnw : (g.populate_d_neighbours).d_v_nnw =
      g.hexen.foldl (fun a h => HexGrid.setIdx a h.di (-1))
        (HexGrid.resizeL g.d_v_nnw g.d_x.length 0) := by
    unfold HexGrid.populate_d_neighbours
    exact fold_proj _ (fun g => g.d_v_nnw) (fun h a => HexGrid.setIdx a h.di (-1))
      (fun g h => rfl) _ _
  have hnw : (g.populate_d_neighbours).d_v_nw =
      g.hexen.foldl (fun a h => HexGrid.setIdx a h.di (-1))
        (HexGrid.resizeL g.d_v_nw g.d_x.length 0) := by
    unfold HexGrid.populate_d_neighbours
    exact fold_proj _ (fun g => g.d_v_nw) (fun h a => HexGrid.setIdx a h.di (-1))
      (fun g h => rfl) _ _
  have hnsw : (g.populate_d_neighbours).d_v_nsw =
      g.hexen.foldl (fun a h => HexGrid.setIdx a h.di (-1))
        (HexGrid.resizeL g.d_v_nsw g.d_x.length 0) := by
    unfold HexGrid.populate_d_neighbours
    exact fold_proj _ (fun g => g.d_v_nsw) (fun h a => HexGrid.setIdx a h.di (-1))
      (fun g h => rfl) _ _
  have hnse : (g.populate_d_neighbours).d_v_nse =
      g.hexen.foldl (fun a h => HexGrid.setIdx a h.di (-1))
        (HexGrid.resizeL g.d_v_nse g.d_x.length 0) := by
    unfold HexGrid.populate_d_neighbours
    exact fold_proj _ (fun g => g.d_v_nse) (fun h a => HexGrid.setIdx a h.di (-1))
      (fun g h => rfl) _ _
  intro arr harr
  simp only [List.mem_cons, List.not_mem_nil, or_false] at harr
  rcases harr with rfl | rfl | rfl | rfl | rfl | rfl
  · rw [hne]; exact base _
  · rw [hnne]; exact base _
  · rw [hnnw]; exact base _
  · rw [hnw]; exact base _
  · rw [hnsw]; exact base _
  · rw [hnse]; exact base _

/-- A two-cell grid whose `di` assignment is exactly `{0, 1}`. -/
def dvWitnessGrid : HexGrid :=
  { hexen := [{ mkHex 0 0 0 with di := 0 }, { mkHex 1 1 0 with di := 1 }],
    d_x := [0, 1] }

/-- Witness for C10 at a concrete two-cell flattened grid: both entries of
the first and last sub-domain-id arrays are the sentinel. -/
theorem dv_arrays_all_sentinel_witness :
    (dvWitnessGrid.populate_d_neighbours).d_v_ne.getD 0 0 = -1 ∧
    (dvWitnessGrid.populate_d_neighbours).d_v_ne.getD 1 0 = -1 ∧
    (dvWitnessGrid.populate_d_neighbours).d_v_nse.getD 0 0 = -1 ∧
    (dvWitnessGrid.populate_d_neighbours).d_v_nse.getD 1 0 = -1 := by
  have h := dv_arrays_all_sentinel dvWitnessGrid (by
    intro i hi
    have h2 : i < 2 := by simpa [dvWitnessGrid] using hi
    interval_cases i
    · exact ⟨{ mkHex 0 0 0 with di := 0 }, by simp [dvWitnessGrid], rfl⟩
    · exact ⟨{ mkHex 1 1 0 with di := 1 }, by simp [dvWitnessGrid], rfl⟩)
  have hne := h (dvWitnessGrid.populate_d_neighbours).d_v_ne (by simp)
  have hnse := h (dvWitnessGrid.populate_d_neighbours).d_v_nse (by simp)
  exact ⟨hne.2 0 (by simp [dvWitnessGrid]), hne.2 1 (by simp [dvWitnessGrid]),
    hnse.2 0 (by simp [dvWitnessGrid]), hnse.2 1 (by simp [dvWitnessGrid])⟩


/-- An entry of a dense neighbour-index array is the sentinel or a valid
index into the dense arrays. -/
def dEntryOK (n : Nat) (x : Int) : Prop := x = -1 ∨ (0 ≤ x ∧ x < (n : Int))

/-- An entry of a neighbour-index array, read together with its
sub-domain-id companion: the sentinel, or a valid index into the dense
arrays (companion `-1`), or a valid index into sub-parallelogram `vx`'s
arrays. -/
def vEntryOK (n : Nat) (spLens : List Nat) (x vx : Int) : Prop :=
  x = -1 ∨ (vx = -1 ∧ 0 ≤ x ∧ x < (n : Int)) ∨
    (0 ≤ vx ∧ ∃ m, spLens[vx.toNat]? = some m ∧ 0 ≤ x ∧ x < (m : Int))

theorem findHex_mem (s : List Hex) (t : Nat) (b : Hex) (hf : findHex s t = some b) :
    b ∈ s := List.mem_of_find?_eq_some hf

theorem resizeL_nil (n : Nat) (fill : Int) :
    HexGrid.resizeL [] n fill = List.replicate n fill := by
  simp [HexGrid.resizeL]

theorem replicate_getD (n j : Nat) (x : Int) (hj : j < n) :
    (List.replicate n x).getD j 0 = x := by
  rw [List.getD_eq_getElem?_getD, List.getElem?_replicate, if_pos hj]
  rfl

/-- Joint behaviour of the two writes of one pair stage: at every index
that exists in both arrays, either both entries are unchanged or both
receive the written pair. -/
theorem setIdx_pair_getD (a va : List Int) (i x y : Int) (j : Nat)
    (hja : j < a.length) (hjva : j < va.length) :
    ((HexGrid.setIdx a i x).getD j 0 = a.getD j 0 ∧
     (HexGrid.setIdx va i y).getD j 0 = va.getD j 0) ∨
    ((HexGrid.setIdx a i x).getD j 0 = x ∧ (HexGrid.setIdx va i y).getD j 0 = y) := by
  by_cases hi : 0 ≤ i ∧ i.toNat = j
  · right
    obtain ⟨h0, h1⟩ := hi
    constructor
    · have hs := HexGrid.setIdx_getD_self a i x h0 (by rw [h1]; exact hja)
      rw [h1] at hs; exact hs
    · have hs := HexGrid.setIdx_getD_self va i y h0 (by rw [h1]; exact hjva)
      rw [h1] at hs; exact hs
  · left
    have hcond : i.toNat ≠ j ∨ i < 0 := by
      rcases Decidable.em (0 ≤ i) with hp | hn
      · left; intro hc; exact hi ⟨hp, hc⟩
      · right; omega
    exact ⟨HexGrid.setIdx_getD_ne a i x j hcond, HexGrid.setIdx_getD_ne va i y j hcond⟩

/-- Length preservation of the per-direction write of
`populate_d_neighbours`. -/
theorem dnWrite_length (hl : List Hex) (di : Int) (lnk : Option Nat) (a : List Int) :
    (HexGrid.dnWrite hl di lnk a).length = a.length := by
  unfold HexGrid.dnWrite
  cases lnk with
  | none => simp
  | some t =>
    dsimp only
    cases findHex hl t <;> simp

/-- Every entry after the per-direction write of `populate_d_neighbours`
is unchanged or a value that is `-1` or a cell's `di`. -/
theorem dnWrite_getD (hl : List Hex) (n : Nat) (hdi : ∀ h ∈ hl, dEntryOK n h.di)
    (di : Int) (lnk : Option Nat) (a : List Int) (j : Nat) :
    (HexGrid.dnWrite hl di lnk a).getD j 0 = a.getD j 0 ∨
    dEntryOK n ((HexGrid.dnWrite hl di lnk a).getD j 0) := by
  unfold HexGrid.dnWrite
  cases lnk with
  | none =>
    dsimp only
    rcases HexGrid.setIdx_getD a di (-1) j with h | h
    · exact Or.inl h
    · exact Or.inr (by rw [h]; exact Or.inl rfl)
  | some t =>
    dsimp only
    cases hf : findHex hl t with
    | none => exact Or.inl rfl
    | some b =>
      rcases HexGrid.setIdx_getD a di b.di j with h | h
      · exact Or.inl h
      · exact Or.inr (by rw [h]; exact hdi b (findHex_mem hl t b hf))

/-- The per-direction `dnWrite` fold of `populate_d_neighbours` over an
initially empty array resized to `n` yields an array of length `n` each of
whose entries is the sentinel or a valid dense index. -/
theorem dnFold_ok (hl : List Hex) (n : Nat) (hdi : ∀ h ∈ hl, dEntryOK n h.di)
    (lnkOf : Hex → Option Nat) :
    (hl.foldl (fun a h => HexGrid.dnWrite hl h.di (lnkOf h) a)
        (HexGrid.resizeL [] n 0)).length = n ∧
    ∀ j, j < n → dEntryOK n
      ((hl.foldl (fun a h => HexGrid.dnWrite hl h.di (lnkOf h) a)
        (HexGrid.resizeL [] n 0)).getD j 0) := by
  obtain ⟨hL, hV⟩ := fold_write_entries (fun h a => HexGrid.dnWrite hl h.di (lnkOf h) a)
    (dEntryOK n) (fun h a => dnWrite_length hl h.di (lnkOf h) a)
    (fun h a j _ => dnWrite_getD hl n hdi h.di (lnkOf h) a j) hl (HexGrid.resizeL [] n 0)
  constructor
  · rw [hL, resizeL_length]
  · intro j hj
    have hj0 : j < (HexGrid.resizeL [] n 0).length := by rw [resizeL_length]; exact hj
    rcases hV j hj0 with he | hP
    · rw [he, resizeL_nil, replicate_getD n j 0 hj]
      exact Or.inr ⟨by omega, by omega⟩
    · exact hP

/-- Length preservation of the dense write pair of
`populate_sp_d_neighbours`. -/
theorem spdWrite_length (hl : List Hex) (h : Hex) (lnk : Option Nat) (arr varr : List Int) :
    (HexGrid.spdWrite hl h lnk arr varr).1.length = arr.length ∧
    (HexGrid.spdWrite hl h lnk arr varr).2.length = varr.length := by
  unfold HexGrid.spdWrite
  cases lnk with
  | none => dsimp only; split <;> simp
  | some t =>
    dsimp only
    cases findHex hl t with
    | none => exact ⟨rfl, rfl⟩
    | some b => dsimp only; split <;> simp

/-- Every entry pair after the dense write pair of
`populate_sp_d_neighbours` is unchanged on both components, or a pair that
is the sentinel or a valid (index, sub-domain) reference. -/
theorem spdWrite_getD (hl : List Hex) (n : Nat) (spLens : List Nat)
    (hok : ∀ h ∈ hl, vEntryOK n spLens h.di h.allocatedSubp)
    (h : Hex) (lnk : Option Nat) (arr varr : List Int) (j : Nat)
    (hja : j < arr.length) (hjv : j < varr.length) :
    ((HexGrid.spdWrite hl h lnk arr varr).1.getD j 0 = arr.getD j 0 ∧
     (HexGrid.spdWrite hl h lnk arr varr).2.getD j 0 = varr.getD j 0) ∨
    vEntryOK n spLens ((HexGrid.spdWrite hl h lnk arr varr).1.getD j 0)
      ((HexGrid.spdWrite hl h lnk arr varr).2.getD j 0) := by
  unfold HexGrid.spdWrite
  cases lnk with
  | none =>
    dsimp only
    split
    · rcases setIdx_pair_getD arr varr h.di (-1) (-1) j hja hjv with hu | ⟨h1, h2⟩
      · exact Or.inl hu
      · exact Or.inr (by rw [h1]; exact Or.inl rfl)
    · exact Or.inl ⟨rfl, rfl⟩
  | some t =>
    dsimp only
    cases hf : findHex hl t with
    | none => exact Or.inl ⟨rfl, rfl⟩
    | some b =>
      dsimp only
      split
      · rcases setIdx_pair_getD arr varr h.di b.di b.allocatedSubp j hja hjv with hu | ⟨h1, h2⟩
        · exact Or.inl hu
        · right
          rw [h1, h2]
          exact hok b (findHex_mem hl t b hf)
      · exact Or.inl ⟨rfl, rfl⟩

/-- The per-direction `spdWrite` pair fold of `populate_sp_d_neighbours`
over initially empty arrays resized to `n` (fills 0 and -1) yields arrays
of length `n` whose entry pairs are all sentinel-or-valid references. -/
theorem spdFold_ok (hl : List Hex) (n : Nat) (spLens : List Nat)
    (hok : ∀ h ∈ hl, vEntryOK n spLens h.di h.allocatedSubp)
    (lnkOf : Hex → Option Nat) :
    (hl.foldl (fun p h => HexGrid.spdWrite hl h (lnkOf h) p.1 p.2)
        (HexGrid.resizeL [] n 0, HexGrid.resizeL [] n (-1))).1.length = n ∧
    (hl.foldl (fun p h => HexGrid.spdWrite hl h (lnkOf h) p.1 p.2)
        (HexGrid.resizeL [] n 0, HexGrid.resizeL [] n (-1))).2.length = n ∧
    ∀ j, j < n → vEntryOK n spLens
      ((hl.foldl (fun p h => HexGrid.spdWrite hl h (lnkOf h) p.1 p.2)
        (HexGrid.resizeL [] n 0, HexGrid.resizeL [] n (-1))).1.getD j 0)
      ((hl.foldl (fun p h => HexGrid.spdWrite hl h (lnkOf h) p.1 p.2)
        (HexGrid.resizeL [] n 0, HexGrid.resizeL [] n (-1))).2.getD j 0) := by
  obtain ⟨hL1, hL2, hV⟩ := fold_write_entries_pair
    (fun h p => HexGrid.spdWrite hl h (lnkOf h) p.1 p.2) (vEntryOK n spLens)
    (fun h p => spdWrite_length hl h (lnkOf h) p.1 p.2)
    (fun h p j hj1 hj2 => spdWrite_getD hl n spLens hok h (lnkOf h) p.1 p.2 j hj1 hj2)
    hl (HexGrid.resizeL [] n 0, HexGrid.resizeL [] n (-1))
  refine ⟨by rw [hL1]; exact resizeL_length [] n 0,
          by rw [hL2]; exact resizeL_length [] n (-1), ?_⟩
  intro j hj
  have hj1 : j < (HexGrid.resizeL [] n 0).length := by rw [resizeL_length]; exact hj
  have hj2 : j < (HexGrid.resizeL [] n (-1)).length := by rw [resizeL_length]; exact hj
  rcases hV j hj1 hj2 with ⟨he1, he2⟩ | hP
  · rw [he1, he2, resizeL_nil, resizeL_nil, replicate_getD n j 0 hj,
      replicate_getD n j (-1) hj]
    exact Or.inr (Or.inl ⟨rfl, by omega, by omega⟩)
  · exact hP

/-- C4.  Flat-array sentinel validity: when every cell's `di` is the
sentinel or a valid flat index (`hdi`, and in the sub-parallelogram layout
a valid index into the array family its `allocatedSubp` selects, `hok`)
and the twelve neighbour-index and sub-domain-id arrays start empty — as
they do on every path that reaches the populate functions — then after
`populate_d_neighbours` each entry of the six `d_` arrays is `-1` or a
valid index into the dense arrays, and after `populate_sp_d_neighbours`
each entry of the six `d_` arrays, read with its `d_v_` companion, is `-1`
or a valid index into the array family (dense or the chosen
sub-parallelogram's) that the companion selects — for all domain shapes
including SubParallelograms. -/
theorem flat_sentinel_validity (g : HexGrid)
    (hdi : ∀ h ∈ g.hexen, dEntryOK g.d_x.length h.di)
    (hok : ∀ h ∈ g.hexen,
      vEntryOK g.d_x.length (g.sp_x.map List.length) h.di h.allocatedSubp)
    (hinit : ∀ a ∈ [g.d_ne, g.d_nne, g.d_nnw, g.d_nw, g.d_nsw, g.d_nse,
                    g.d_v_ne, g.d_v_nne, g.d_v_nnw, g.d_v_nw, g.d_v_nsw, g.d_v_nse],
      a = []) :
    (∀ arr ∈ [(g.populate_d_neighbours).d_ne, (g.populate_d_neighbours).d_nne,
              (g.populate_d_neighbours).d_nnw, (g.populate_d_neighbours).d_nw,
              (g.populate_d_neighbours).d_nsw, (g.populate_d_neighbours).d_nse],
      arr.length = g.d_x.length ∧
      ∀ j, j < g.d_x.length → dEntryOK g.d_x.length (arr.getD j 0)) ∧
    (∀ p ∈ [((g.populate_sp_d_neighbours).d_ne, (g.populate_sp_d_neighbours).d_v_ne),
            ((g.populate_sp_d_neighbours).d_nne, (g.populate_sp_d_neighbours).d_v_nne),
            ((g.populate_sp_d_neighbours).d_nnw, (g.populate_sp_d_neighbours).d_v_nnw),
            ((g.populate_sp_d_neighbours).d_nw, (g.populate_sp_d_neighbours).d_v_nw),
            ((g.populate_sp_d_neighbours).d_nsw, (g.populate_sp_d_neighbours).d_v_nsw),
            ((g.populate_sp_d_neighbours).d_nse, (g.populate_sp_d_neighbours).d_v_nse)],
      p.1.length = g.d_x.length ∧ p.2.length = g.d_x.length ∧
      ∀ j, j < g.d_x.length → vEntryOK g.d_x.length (g.sp_x.map List.length)
        (p.1.getD j 0) (p.2.getD j 0)) := by
  have e1 : g.d_ne = [] := hinit _ (by simp)
  have e2 : g.d_nne = [] := hinit _ (by simp)
  have e3 : g.d_nnw = [] := hinit _ (by simp)
  have e4 : g.d_nw = [] := hinit _ (by simp)
  have e5 : g.d_nsw = [] := hinit _ (by simp)
  have e6 : g.d_nse = [] := hinit _ (by simp)
  have v1 : g.d_v_ne = [] := hinit _ (by simp)
  have v2 : g.d_v_nne = [] := hinit _ (by simp)
  have v3 : g.d_v_nnw = [] := hinit _ (by simp)
  have v4 : g.d_v_nw = [] := hinit _ (by simp)
  have v5 : g.d_v_nsw = [] := hinit _ (by simp)
  have v6 : g.d_v_nse = [] := hinit _ (by simp)
  constructor
  · have p1 : (g.populate_d_neighbours).d_ne =
        g.hexen.foldl (fun a h => HexGrid.dnWrite g.hexen h.di h.ne a)
          (HexGrid.resizeL g.d_ne g.d_x.length 0) := by
      unfold HexGrid.populate_d_neighbours
      exact fold_proj _ (fun g => g.d_ne)
        (fun h a => HexGrid.dnWrite g.hexen h.di h.ne a) (fun g h => rfl) _ _
    have p2 : (g.populate_d_neighbours).d_nne =
        g.hexen.foldl (fun a h => HexGrid.dnWrite g.hexen h.di h.nne a)
          (HexGrid.resizeL g.d_nne g.d_x.length 0) := by
      unfold HexGrid.populate_d_neighbours
      exact fold_proj _ (fun g => g.d_nne)
        (fun h a => HexGrid.dnWrite g.hexen h.di h.nne a) (fun g h => rfl) _ _
    have p3 : (g.populate_d_neighbours).d_nnw =
        g.hexen.foldl (fun a h => HexGrid.dnWrite g.hexen h.di h.nnw a)
          (HexGrid.resizeL g.d_nnw g.d_x.length 0) := by
      unfold HexGrid.populate_d_neighbours
      exact fold_proj _ (fun g => g.d_nnw)
        (fun h a => HexGrid.dnWrite g.hexen h.di h.nnw a) (fun g h => rfl) _ _
    have p4 : (g.populate_d_neighbours).d_nw =
        g.hexen.foldl (fun a h => HexGrid.dnWrite g.hexen h.di h.nw a)
          (HexGrid.resizeL g.d_nw g.d_x.length 0) := by
      unfold HexGrid.populate_d_neighbours
      exact fold_proj _ (fun g => g.d_nw)
        (fun h a => HexGrid.dnWrite g.hexen h.di h.nw a) (fun g h => rfl) _ _
    have p5 : (g.populate_d_neighbours).d_nsw =
        g.hexen.foldl (fun a h => HexGrid.dnWrite g.hexen h.di h.nsw a)
          (HexGrid.resizeL g.d_nsw g.d_x.length 0) := by
      unfold HexGrid.populate_d_neighbours
      exact fold_proj _ (fun g => g.d_nsw)
        (fun h a => HexGrid.dnWrite g.hexen h.di h.nsw a) (fun g h => rfl) _ _
    have p6 : (g.populate_d_neighbours).d_nse =
        g.hexen.foldl (fun a h => HexGrid.dnWrite g.hexen h.di h.nse a)
          (HexGrid.resizeL g.d_nse g.d_x.length 0) := by
      unfold HexGrid.populate_d_neighbours
      exact fold_proj _ (fun g => g.d_nse)
        (fun h a => HexGrid.dnWrite g.hexen h.di h.nse a) (fun g h => rfl) _ _
    rw [e1] at p1; rw [e2] at p2; rw [e3] at p3
    rw [e4] at p4; rw [e5] at p5; rw [e6] at p6
    intro arr harr
    simp only [List.mem_cons, List.not_mem_nil, or_false] at harr
    rcases harr with rfl | rfl | rfl | rfl | rfl | rfl
    · rw [p1]; exact dnFold_ok g.hexen g.d_x.length hdi (fun h => h.ne)
    · rw [p2]; exact dnFold_ok g.hexen g.d_x.length hdi (fun h => h.nne)
    · rw [p3]; exact dnFold_ok g.hexen g.d_x.length hdi (fun h => h.nnw)
    · rw [p4]; exact dnFold_ok g.hexen g.d_x.length hdi (fun h => h.nw)
    · rw [p5]; exact dnFold_ok g.hexen g.d_x.length hdi (fun h => h.nsw)
    · rw [p6]; exact dnFold_ok g.hexen g.d_x.length hdi (fun h => h.nse)
  · have q1 : ((g.populate_sp_d_neighbours).d_ne, (g.populate_sp_d_neighbours).d_v_ne) =
        g.hexen.foldl (fun p h => HexGrid.spdWrite g.hexen h h.ne p.1 p.2)
          (HexGrid.resizeL g.d_ne g.d_x.length 0,
           HexGrid.resizeL g.d_v_ne g.d_x.length (-1)) := by
      unfold HexGrid.populate_sp_d_neighbours
      exact fold_proj_pair _ (fun g => (g.d_ne, g.d_v_ne))
        (fun h p => HexGrid.spdWrite g.hexen h h.ne p.1 p.2) (fun g h => rfl) _ _
    have q2 : ((g.populate_sp_d_neighbours).d_nne, (g.populate_sp_d_neighbours).d_v_nne) =
        g.hexen.foldl (fun p h => HexGrid.spdWrite g.hexen h h.nne p.1 p.2)
          (HexGrid.resizeL g.d_nne g.d_x.length 0,
           HexGrid.resizeL g.d_v_nne g.d_x.length (-1)) := by
      unfold HexGrid.populate_sp_d_neighbours
      exact fold_proj_pair _ (fun g => (g.d_nne, g.d_v_nne))
        (fun h p => HexGrid.spdWrite g.hexen h h.nne p.1 p.2) (fun g h => rfl) _ _
    have q3 : ((g.populate_sp_d_neighbours).d_nnw, (g.populate_sp_d_neighbours).d_v_nnw) =
        g.hexen.foldl (fun p h => HexGrid.spdWrite g.hexen h h.nnw p.1 p.2)
          (HexGrid.resizeL g.d_nnw g.d_x.length 0,
           HexGrid.resizeL g.d_v_nnw g.d_x.length (-1)) := by
      unfold HexGrid.populate_sp_d_neighbours
      exact fold_proj_pair _ (fun g => (g.d_nnw, g.d_v_nnw))
        (fun h p => HexGrid.spdWrite g.hexen h h.nnw p.1 p.2) (fun g h => rfl) _ _
    have q4 : ((g.populate_sp_d_neighbours).d_nw, (g.populate_sp_d_neighbours).d_v_nw) =
        g.hexen.foldl (fun p h => HexGrid.spdWrite g.hexen h h.nw p.1 p.2)
          (HexGrid.resizeL g.d_nw g.d_x.length 0,
           HexGrid.resizeL g.d_v_nw g.d_x.length (-1)) := by
      unfold HexGrid.populate_sp_d_neighbours
      exact fold_proj_pair _ (fun g => (g.d_nw, g.d_v_nw))
        (fun h p => HexGrid.spdWrite g.hexen h h.nw p.1 p.2) (fun g h => rfl) _ _
    have q5 : ((g.populate_sp_d_neighbours).d_nsw, (g.populate_sp_d_neighbours).d_v_nsw) =
        g.hexen.foldl (fun p h => HexGrid.spdWrite g.hexen h h.nsw p.1 p.2)
          (HexGrid.resizeL g.d_nsw g.d_x.length 0,
           HexGrid.resizeL g.d_v_nsw g.d_x.length (-1)) := by
      unfold HexGrid.populate_sp_d_neighbours
      exact fold_proj_pair _ (fun g => (g.d_nsw, g.d_v_nsw))
        (fun h p => HexGrid.spdWrite g.hexen h h.nsw p.1 p.2) (fun g h => rfl) _ _
    have q6 : ((g.populate_sp_d_neighbours).d_nse, (g.populate_sp_d_neighbours).d_v_nse) =
        g.hexen.foldl (fun p h => HexGrid.spdWrite g.hexen h h.nse p.1 p.2)
          (HexGrid.resizeL g.d_nse g.d_x.length 0,
           HexGrid.resizeL g.d_v_nse g.d_x.length (-1)) := by
      unfold HexGrid.populate_sp_d_neighbours
      exact fold_proj_pair _ (fun g => (g.d_nse, g.d_v_nse))
        (fun h p => HexGrid.spdWrite g.hexen h h.nse p.1 p.2) (fun g h => rfl) _ _
    rw [e1, v1] at q1; rw [e2, v2] at q2; rw [e3, v3] at q3
    rw [e4, v4] at q4; rw [e5, v5] at q5; rw [e6, v6] at q6
    intro p hp
    simp only [List.mem_cons, List.not_mem_nil, or_false] at hp
    rcases hp with rfl | rfl | rfl | rfl | rfl | rfl
    · rw [q1]
      exact spdFold_ok g.hexen g.d_x.length (g.sp_x.map List.length) hok (fun h => h.ne)
    · rw [q2]
      exact spdFold_ok g.hexen g.d_x.length (g.sp_x.map List.length) hok (fun h => h.nne)
    · rw [q3]
      exact spdFold_ok g.hexen g.d_x.length (g.sp_x.map List.length) hok (fun h => h.nnw)
    · rw [q4]
      exact spdFold_ok g.hexen g.d_x.length (g.sp_x.map List.length) hok (fun h => h.nw)
    · rw [q5]
      exact spdFold_ok g.hexen g.d_x.length (g.sp_x.map List.length) hok (fun h => h.nsw)
    · rw [q6]
      exact spdFold_ok g.hexen g.d_x.length (g.sp_x.map List.length) hok (fun h => h.nse)

/-- A flattened one-cell-dense grid with a second cell allocated to
sub-parallelogram 0 (one cell there). -/
def spWitnessGrid : HexGrid :=
  { hexen := [{ mkHex 0 0 0 with di := 0 },
              { mkHex 1 1 0 with di := 0, allocatedSubp := 0 }],
    d_x := [0],
    sp_x := [[5]] }

/-- Witness for C4 at a concrete flattened grid with one dense cell and
one sub-parallelogram cell. -/
theorem flat_sentinel_validity_witness :
    (∀ arr ∈ [(spWitnessGrid.populate_d_neighbours).d_ne,
              (spWitnessGrid.populate_d_neighbours).d_nne,
              (spWitnessGrid.populate_d_neighbours).d_nnw,
              (spWitnessGrid.populate_d_neighbours).d_nw,
              (spWitnessGrid.populate_d_neighbours).d_nsw,
              (spWitnessGrid.populate_d_neighbours).d_nse],
      arr.length = spWitnessGrid.d_x.length ∧
      ∀ j, j < spWitnessGrid.d_x.length →
        dEntryOK spWitnessGrid.d_x.length (arr.getD j 0)) ∧
    (∀ p ∈ [((spWitnessGrid.populate_sp_d_neighbours).d_ne,
             (spWitnessGrid.populate_sp_d_neighbours).d_v_ne),
            ((spWitnessGrid.populate_sp_d_neighbours).d_nne,
             (spWitnessGrid.populate_sp_d_neighbours).d_v_nne),
            ((spWitnessGrid.populate_sp_d_neighbours).d_nnw,
             (spWitnessGrid.populate_sp_d_neighbours).d_v_nnw),
            ((spWitnessGrid.populate_sp_d_neighbours).d_nw,
             (spWitnessGrid.populate_sp_d_neighbours).d_v_nw),
            ((spWitnessGrid.populate_sp_d_neighbours).d_nsw,
             (spWitnessGrid.populate_sp_d_neighbours).d_v_nsw),
            ((spWitnessGrid.populate_sp_d_neighbours).d_nse,
             (spWitnessGrid.populate_sp_d_neighbours).d_v_nse)],
      p.1.length = spWitnessGrid.d_x.length ∧
      p.2.length = spWitnessGrid.d_x.length ∧
      ∀ j, j < spWitnessGrid.d_x.length →
        vEntryOK spWitnessGrid.d_x.length (spWitnessGrid.sp_x.map List.length)
          (p.1.getD j 0) (p.2.getD j 0)) :=
  flat_sentinel_validity spWitnessGrid
    (by
      intro h hm
      simp only [spWitnessGrid, List.mem_cons, List.not_mem_nil, or_false] at hm
      rcases hm with rfl | rfl <;> exact Or.inr ⟨by decide, by decide⟩)
    (by
      intro h hm
      simp only [spWitnessGrid, List.mem_cons, List.not_mem_nil, or_false] at hm
      rcases hm with rfl | rfl
      · exact Or.inr (Or.inl ⟨rfl, by decide, by decide⟩)
      · exact Or.inr (Or.inr ⟨by decide, 1, by decide, by decide, by decide⟩))
    (by decide)

/-! ## Claim C3: the contiguity check

The spec says `setBoundary` raises a contiguity error exactly when some
boundary-flagged cell is unreachable from the starting boundary cell
through boundary-flagged neighbours, and that a boundary of two disjoint
arcs raises that error.  The traversal in the source
(`boundaryContiguous`, HexGrid.cpp:629-680) cannot report failure from its
top-level call: every recursive call stops at an unvisited cell that is
never the start iterator (the start's `vi` is inserted into `seen` first),
so every recursive call returns false and the top-level call falls through
to `rtn = (hi == bhi)`, which is true.  The definitions below exhibit this
on the spec's own scenario. -/

/-- Follows the spec's words, for comparison with the source's
`boundaryContiguous`: the boundary-flagged cells are contiguous when every
one of them is reachable from the first boundary-flagged cell by hops
along the six neighbour links restricted to boundary-flagged cells
(computed as a breadth-first closure with enough relaxation rounds). -/
def specReach (s : List Hex) (start : Nat) : List Nat :=
  let step : List Nat → List Nat := fun vis0 =>
    s.foldl
      (fun vis h =>
        if vis.contains h.hid then
          dirList.foldl
            (fun vis dir =>
              match h.link dir with
              | some t =>
                match findHex s t with
                | some b =>
                  if b.boundaryHex && !(vis.contains b.hid) then vis ++ [b.hid] else vis
                | none => vis
              | none => vis)
            vis
        else vis)
      vis0
  (List.range s.length).foldl (fun vis _ => step vis) [start]

/-- Follows the spec's words: contiguity of the boundary-flagged cell
set under the six-neighbour adjacency restricted to boundary cells. -/
def specBoundaryContiguous (s : List Hex) : Bool :=
  match s.find? (fun h => h.boundaryHex) with
  | none => true
  | some h0 =>
    (s.filter (fun h => h.boundaryHex)).all fun h => (specReach s h0.hid).contains h.hid

/-! The dead error path, in general: whatever the grid and whatever the
boundary flags, every recursive sub-call of `boundaryContiguous` returns
false — its current cell can never equal the start iterator, whose `vi`
is inserted into `seen` before any recursion — so the top-level call
always falls through to `rtn = (hi == bhi)` and returns true. -/

def PgoBC (s : List Hex) (bhi : Nat) (fuel : Nat) : Prop :=
  ∀ hi seen, (∃ b0, findHex s bhi = some b0 ∧ b0.vi ∈ seen) → hi ≠ bhi →
    (HexGrid.boundaryContiguousGo s bhi fuel hi seen).1 = false ∧
    ∀ x ∈ seen, x ∈ (HexGrid.boundaryContiguousGo s bhi fuel hi seen).2

def PtryBC (s : List Hex) (bhi : Nat) (fuel : Nat) : Prop :=
  ∀ (h : Hex) (dir : Dir) (acc : Bool × List Nat),
    (∃ b0, findHex s bhi = some b0 ∧ b0.vi ∈ acc.2) → acc.1 = false →
    (HexGrid.boundaryContiguousTry s bhi fuel h dir acc).1 = false ∧
    ∀ x ∈ acc.2, x ∈ (HexGrid.boundaryContiguousTry s bhi fuel h dir acc).2

theorem ptry_of_pgo (s : List Hex) (bhi : Nat) (fuel : Nat) (hgo : PgoBC s bhi fuel) :
    PtryBC s bhi fuel := by
  intro h dir acc hb hacc
  obtain ⟨b0, hb0, hb0mem⟩ := hb
  unfold HexGrid.boundaryContiguousTry
  rw [hacc]
  simp only [Bool.false_eq_true, if_false]
  cases hl : h.link dir with
  | none => exact ⟨hacc, fun x hx => hx⟩
  | some t =>
    dsimp only
    cases hf : findHex s t with
    | none => exact ⟨hacc, fun x hx => hx⟩
    | some b =>
      dsimp only
      split
      · next hcond =>
        have htne : t ≠ bhi := by
          intro heq
          rw [heq, hb0] at hf
          cases hf
          simp only [Bool.and_eq_true, Bool.not_eq_true'] at hcond
          have hct : acc.2.contains b0.vi = true := by
            simpa using hb0mem
          rw [hct] at hcond
          exact Bool.noConfusion hcond.2
        exact hgo t acc.2 ⟨b0, hb0, hb0mem⟩ htne
      · exact ⟨hacc, fun x hx => hx⟩

theorem pgo_zero (s : List Hex) (bhi : Nat) : PgoBC s bhi 0 := by
  intro hi seen _ _
  rw [show HexGrid.boundaryContiguousGo s bhi 0 hi seen = (false, seen) by
    rw [HexGrid.boundaryContiguousGo]]
  exact ⟨rfl, fun x hx => hx⟩

theorem pgo_succ (s : List Hex) (bhi : Nat) (fuel : Nat) (htry : PtryBC s bhi fuel) :
    PgoBC s bhi (fuel + 1) := by
  intro hi seen hb hne
  obtain ⟨b0, hb0, hb0mem⟩ := hb
  rw [HexGrid.boundaryContiguousGo]
  cases hfh : findHex s hi with
  | none => exact ⟨rfl, fun x hx => hx⟩
  | some h =>
    dsimp only
    have step : ∀ (acc : Bool × List Nat) (dir : Dir),
        (acc.1 = false ∧ b0.vi ∈ acc.2 ∧ ∀ x ∈ seen, x ∈ acc.2) →
        ((HexGrid.boundaryContiguousTry s bhi fuel h dir acc).1 = false ∧
         b0.vi ∈ (HexGrid.boundaryContiguousTry s bhi fuel h dir acc).2 ∧
         ∀ x ∈ seen, x ∈ (HexGrid.boundaryContiguousTry s bhi fuel h dir acc).2) := by
      intro acc dir hP
      obtain ⟨h1, h2, h3⟩ := hP
      obtain ⟨t1, t2⟩ := htry h dir acc ⟨b0, hb0, h2⟩ h1
      exact ⟨t1, t2 _ h2, fun x hx => t2 x (h3 x hx)⟩
    have base : ((false, seen ++ [h.vi]) : Bool × List Nat).1 = false ∧
        b0.vi ∈ ((false, seen ++ [h.vi]) : Bool × List Nat).2 ∧
        ∀ x ∈ seen, x ∈ ((false, seen ++ [h.vi]) : Bool × List Nat).2 :=
      ⟨rfl, List.mem_append_left _ hb0mem, fun x hx => List.mem_append_left _ hx⟩
    have hfin := step _ .nse (step _ .nsw (step _ .nw (step _ .nnw
      (step _ .nne (step _ .ne base)))))
    obtain ⟨f1, _, f3⟩ := hfin
    rw [f1]
    simp only [Bool.false_eq_true, if_false]
    exact ⟨by simp [hne], f3⟩

theorem bc_invariant (s : List Hex) (bhi : Nat) : ∀ fuel, PgoBC s bhi fuel := by
  intro fuel
  induction fuel with
  | zero => exact pgo_zero s bhi
  | succ fuel ih => exact pgo_succ s bhi fuel (ptry_of_pgo s bhi fuel ih)

theorem boundaryContiguousFrom_always_true (s : List Hex) (start : Nat)
    (hs : ∃ h0, findHex s start = some h0) :
    HexGrid.boundaryContiguousFrom s start = true := by
  obtain ⟨h0, hh0⟩ := hs
  unfold HexGrid.boundaryContiguousFrom
  rw [show s.length + 1 = Nat.succ s.length from rfl]
  rw [HexGrid.boundaryContiguousGo]
  rw [hh0]
  dsimp only
  have htry := ptry_of_pgo s start s.length (bc_invariant s start s.length)
  have step : ∀ (acc : Bool × List Nat) (dir : Dir),
      (acc.1 = false ∧ h0.vi ∈ acc.2) →
      ((HexGrid.boundaryContiguousTry s start s.length h0 dir acc).1 = false ∧
       h0.vi ∈ (HexGrid.boundaryContiguousTry s start s.length h0 dir acc).2) := by
    intro acc dir hP
    obtain ⟨t1, t2⟩ := htry h0 dir acc ⟨h0, hh0, hP.2⟩ hP.1
    exact ⟨t1, t2 _ hP.2⟩
  have base : ((false, ([] : List Nat) ++ [h0.vi]) : Bool × List Nat).1 = false ∧
      h0.vi ∈ ((false, ([] : List Nat) ++ [h0.vi]) : Bool × List Nat).2 :=
    ⟨rfl, by simp⟩
  have hfin := step _ .nse (step _ .nsw (step _ .nw (step _ .nnw
    (step _ .nne (step _ .ne base)))))
  rw [hfin.1]
  simp

/-- The failing input for C3: a ring-2 lattice in `Boundary` mode … -/
def twoArcGrid : HexGrid := HexGrid.init 1 1 3 0 HexDomainShape.Boundary

/-- … and an explicit boundary made of two disjoint arcs, `{(1,0),(2,0)}`
and `{(-1,0),(-2,0)}`. -/
def twoArcs : List Hex := [mkHex 0 1 0, mkHex 0 2 0, mkHex 0 (-1) 0, mkHex 0 (-2) 0]

/-- C3 (evidence of the code bug).  Feeding the two-disjoint-arcs boundary
to `setBoundary(const list<Hex>&)` does NOT raise the contiguity error the
spec promises: the call returns a grid (silently), all 19 cells survive,
the boundary-flagged set is exactly the four cells of the two disjoint
arcs, the source's own `boundaryContiguous` traversal reports `true` on
that grid, yet the spec's notion of contiguity is violated
(`specBoundaryContiguous = false`). -/
theorem setBoundary_two_disjoint_arcs_silently_ok :
    (twoArcGrid.setBoundary_list twoArcs).toOption.map
      (fun g => (g.num,
                 (g.hexen.filter (fun h => h.boundaryHex)).map (fun h => (h.ri, h.gi)),
                 HexGrid.boundaryContiguousFrom g.hexen 17,
                 specBoundaryContiguous g.hexen)) =
      some (19, [(1, 0), (-1, 0), (2, 0), (-2, 0)], true, false) := by
  set_option maxRecDepth 100000 in with_unfolding_all decide

/-! ## Claim C5: the domain size invariant

Scalar-preservation lemmas along `setDomain`, then the invariant and
scenario C. -/

/-- Scenario C's boundary ring: `(ri, gi)` pairs tracing a closed loop
whose extents are `[0, 3, 0, 2]`. -/
def rectScenarioBoundary : List (Int × Int) :=
  [(0, 0), (1, 0), (2, 0), (3, 0), (0, 1), (3, 1), (-1, 2), (0, 2), (1, 2), (2, 2)]

/-- Scenario C's grid: a Rectangle-shaped lattice (`d = 1`, `x_span = 7`,
so four rings) with the scenario boundary flagged and the boundary
centroid (the mean of the flagged cells' positions) recorded, ready for
`setDomain`. -/
def rectScenarioGrid : HexGrid :=
  let g := HexGrid.init 1 1 7 0 HexDomainShape.Rectangle
  { g with
    hexen := g.hexen.map fun h =>
      if rectScenarioBoundary.contains (h.ri, h.gi) then { h with boundaryHex := true }
      else h,
    boundaryCentroid := (8/5, 1) }

/-- A grid fold whose step preserves a projection preserves it overall. -/
theorem fold_scalar {α : Type} (step : HexGrid → Hex → HexGrid) (f : HexGrid → α)
    (hp : ∀ g h, f (step g h) = f g) :
    ∀ (hl : List Hex) (g : HexGrid), f (hl.foldl step g) = f g := by
  intro hl
  induction hl with
  | nil => intro g; rfl
  | cons h t ih => intro g; rw [List.foldl_cons, ih, hp]

/-- `populate_d_neighbours` never touches the domain-size scalars. -/
theorem populate_d_neighbours_scalars (g : HexGrid) :
    (g.populate_d_neighbours).d_rowlen = g.d_rowlen ∧
    (g.populate_d_neighbours).d_numrows = g.d_numrows ∧
    (g.populate_d_neighbours).d_size = g.d_size := by
  refine ⟨?_, ?_, ?_⟩
  · unfold HexGrid.populate_d_neighbours
    refine fold_scalar _ (fun g => g.d_rowlen) ?_ _ _
    intro g h
    rfl
  · unfold HexGrid.populate_d_neighbours
    refine fold_scalar _ (fun g => g.d_numrows) ?_ _ _
    intro g h
    rfl
  · unfold HexGrid.populate_d_neighbours
    refine fold_scalar _ (fun g => g.d_size) ?_ _ _
    intro g h
    rfl

/-- `d_push_back` never touches the domain-size scalars. -/
theorem d_push_back_scalars (g : HexGrid) (h : Hex) (g' : HexGrid)
    (hok : HexGrid.d_push_back g h = .ok g') :
    g'.d_rowlen = g.d_rowlen ∧ g'.d_numrows = g.d_numrows ∧ g'.d_size = g.d_size := by
  simp only [HexGrid.d_push_back] at hok
  split at hok
  · exact absurd hok (by simp)
  · cases hok
    exact ⟨rfl, rfl, rfl⟩

/-- The Rectangle raster never touches the domain-size scalars. -/
theorem rectRasterGo_scalars (e3 : Int) :
    ∀ (fuel : Nat) (g : HexGrid) (hi blh : Nat) (b : Bool) (g' : HexGrid),
      HexGrid.rectRasterGo e3 fuel g hi blh b = .ok g' →
      g'.d_rowlen = g.d_rowlen ∧ g'.d_numrows = g.d_numrows ∧ g'.d_size = g.d_size := by
  intro fuel
  induction fuel with
  | zero =>
    intro g hi blh b g' hok
    exact absurd hok (by simp [HexGrid.rectRasterGo])
  | succ n ih =>
    intro g hi blh b g' hok
    unfold HexGrid.rectRasterGo at hok
    split at hok
    · exact absurd hok (by simp)
    split at hok
    · exact absurd hok (by simp)
    split at hok
    · exact absurd hok (by simp)
    next h2 hfh2 =>
    split at hok
    · exact absurd hok (by simp)
    next g1 hpb =>
    obtain ⟨s1, s2, s3⟩ := d_push_back_scalars _ _ _ hpb
    split at hok
    · split at hok
      · cases hok; exact ⟨s1, s2, s3⟩
      · split at hok
        · exact absurd hok (by simp)
        split at hok
        · exact absurd hok (by simp)
        split at hok
        · exact absurd hok (by simp)
        next h3 hfh3 =>
        split at hok
        · exact absurd hok (by simp)
        next g2 hpb2 =>
        obtain ⟨t1, t2, t3⟩ := d_push_back_scalars _ _ _ hpb2
        split at hok
        · cases hok
          exact ⟨t1.trans s1, t2.trans s2, t3.trans s3⟩
        · obtain ⟨u1, u2, u3⟩ := ih _ _ _ _ _ hok
          exact ⟨(u1.trans t1).trans s1, (u2.trans t2).trans s2, (u3.trans t3).trans s3⟩
    · obtain ⟨u1, u2, u3⟩ := ih _ _ _ _ _ hok
      exact ⟨u1.trans s1, u2.trans s2, u3.trans s3⟩

/-- The Parallelogram raster never touches the domain-size scalars. -/
theorem paraRasterGo_scalars (e3 : Int) :
    ∀ (fuel : Nat) (g : HexGrid) (hi blh : Nat) (g' : HexGrid),
      HexGrid.paraRasterGo e3 fuel g hi blh = .ok g' →
      g'.d_rowlen = g.d_rowlen ∧ g'.d_numrows = g.d_numrows ∧ g'.d_size = g.d_size := by
  intro fuel
  induction fuel with
  | zero =>
    intro g hi blh g' hok
    exact absurd hok (by simp [HexGrid.paraRasterGo])
  | succ n ih =>
    intro g hi blh g' hok
    unfold HexGrid.paraRasterGo at hok
    split at hok
    · exact absurd hok (by simp)
    split at hok
    · cases hok; exact ⟨rfl, rfl, rfl⟩
    split at hok
    · exact absurd hok (by simp)
    next h2 hfh2 =>
    split at hok
    · split at hok
      · exact d_push_back_scalars _ _ _ hok
      · split at hok
        · exact absurd hok (by simp)
        next g1 hpb =>
        obtain ⟨s1, s2, s3⟩ := d_push_back_scalars _ _ _ hpb
        split at hok
        · exact absurd hok (by simp)
        split at hok
        · exact absurd hok (by simp)
        split at hok
        · exact absurd hok (by simp)
        next h3 hfh3 =>
        split at hok
        · exact absurd hok (by simp)
        next g2 hpb2 =>
        obtain ⟨t1, t2, t3⟩ := d_push_back_scalars _ _ _ hpb2
        obtain ⟨u1, u2, u3⟩ := ih _ _ _ _ hok
        exact ⟨(u1.trans t1).trans s1, (u2.trans t2).trans s2, (u3.trans t3).trans s3⟩
    · split at hok
      · exact absurd hok (by simp)
      next g1 hpb =>
      obtain ⟨s1, s2, s3⟩ := d_push_back_scalars _ _ _ hpb
      obtain ⟨u1, u2, u3⟩ := ih _ _ _ _ hok
      exact ⟨u1.trans s1, u2.trans s2, u3.trans s3⟩

/-- The Hexagon/Boundary raster never touches the domain-size scalars. -/
theorem pushAllGo_scalars :
    ∀ (hl : List Hex) (g : HexGrid) (g' : HexGrid),
      HexGrid.pushAllGo g hl = .ok g' →
      g'.d_rowlen = g.d_rowlen ∧ g'.d_numrows = g.d_numrows ∧ g'.d_size = g.d_size := by
  intro hl
  induction hl with
  | nil =>
    intro g g' hok
    cases hok
    exact ⟨rfl, rfl, rfl⟩
  | cons h t ih =>
    intro g g' hok
    unfold HexGrid.pushAllGo at hok
    split at hok
    · exact absurd hok (by simp)
    next g1 hpb =>
    obtain ⟨s1, s2, s3⟩ := d_push_back_scalars _ _ _ hpb
    obtain ⟨u1, u2, u3⟩ := ih _ _ hok
    exact ⟨u1.trans s1, u2.trans s2, u3.trans s3⟩

/-- `populate_d_vectors` never touches the domain-size scalars. -/
theorem populate_d_vectors_scalars (g : HexGrid) (ex : List Int) (g' : HexGrid)
    (hok : g.populate_d_vectors ex = .ok g') :
    g'.d_rowlen = g.d_rowlen ∧ g'.d_numrows = g.d_numrows ∧ g'.d_size = g.d_size := by
  simp only [HexGrid.populate_d_vectors] at hok
  split at hok
  · split at hok
    · exact absurd hok (by simp)
    split at hok
    · exact absurd hok (by simp)
    split at hok
    · exact absurd hok (by simp)
    next hb hfhb =>
    split at hok
    · exact absurd hok (by simp)
    · split at hok
      · split at hok
        · exact absurd hok (by simp)
        next g1 hpb =>
        obtain ⟨s1, s2, s3⟩ := d_push_back_scalars _ _ _ hpb
        split at hok
        · exact absurd hok (by simp)
        next g2 hrr =>
        obtain ⟨t1, t2, t3⟩ := rectRasterGo_scalars _ _ _ _ _ _ _ hrr
        cases hok
        obtain ⟨p1, p2, p3⟩ := populate_d_neighbours_scalars g2
        exact ⟨((p1.trans t1).trans s1).trans rfl,
               ((p2.trans t2).trans s2).trans rfl,
               ((p3.trans t3).trans s3).trans rfl⟩
      · split at hok
        · exact absurd hok (by simp)
        next g1 hpb =>
        obtain ⟨s1, s2, s3⟩ := d_push_back_scalars _ _ _ hpb
        split at hok
        · exact absurd hok (by simp)
        next g2 hrr =>
        obtain ⟨t1, t2, t3⟩ := paraRasterGo_scalars _ _ _ _ _ _ hrr
        cases hok
        obtain ⟨p1, p2, p3⟩ := populate_d_neighbours_scalars g2
        exact ⟨((p1.trans t1).trans s1).trans rfl,
               ((p2.trans t2).trans s2).trans rfl,
               ((p3.trans t3).trans s3).trans rfl⟩
  · split at hok
    · exact absurd hok (by simp)
    next g1 hpa =>
    obtain ⟨s1, s2, s3⟩ := pushAllGo_scalars _ _ _ hpa
    cases hok
    obtain ⟨p1, p2, p3⟩ := populate_d_neighbours_scalars g1
    exact ⟨(p1.trans s1).trans rfl, (p2.trans s2).trans rfl, (p3.trans s3).trans rfl⟩

/-- `setDomainRest` never touches the domain-size scalars. -/
theorem setDomainRest_scalars (g : HexGrid) (ex : List Int) (g' : HexGrid)
    (hok : g.setDomainRest ex = .ok g') :
    g'.d_rowlen = g.d_rowlen ∧ g'.d_numrows = g.d_numrows ∧ g'.d_size = g.d_size := by
  simp only [HexGrid.setDomainRest] at hok
  split at hok
  · exact absurd hok (by simp)
  · obtain ⟨r1, r2, r3⟩ := populate_d_vectors_scalars _ ex g' hok
    exact ⟨r1.trans rfl, r2.trans rfl, r3.trans rfl⟩

/-- The scalar effect of `markHexesInsideRectangularDomain`: `d_numrows`
unchanged, `d_rowlen` widened by one exactly under `rectWidens`, and
`d_size` recomputed in that case. -/
theorem markRect_scalars (g : HexGrid) (ex : List Int) :
    (g.markHexesInsideRectangularDomain ex).d_numrows = g.d_numrows ∧
    (g.markHexesInsideRectangularDomain ex).d_rowlen =
      g.d_rowlen + (if HexGrid.rectWidens ex = true then 1 else 0) ∧
    (g.markHexesInsideRectangularDomain ex).d_size =
      (if HexGrid.rectWidens ex = true then (g.d_rowlen + 1) * g.d_numrows
       else g.d_size) := by
  by_cases hw : HexGrid.rectWidens ex = true <;>
    simp [HexGrid.markHexesInsideRectangularDomain, hw]

/-- C5.  Domain size invariant: for the Rectangle and Parallelogram
domain shapes, a completed `setDomain` leaves
`d_numrows = extnts[3] - extnts[2] + 1`,
`d_rowlen = extnts[1] - extnts[0] + 1` (plus one when the rectangular
parity adjustment widens the row), and `d_size = d_rowlen * d_numrows`
exactly; and in scenario C — a Rectangle grid whose boundary extents come
out as `[0, 3, 0, 2]` — `d_rowlen = 4`, `d_numrows = 3`, `d_size = 12`,
exactly 12 cells are pushed into the flat arrays, and the first and last
pushed cells are the bottom-left corner `(ri, gi) = (0, 0)` and the
top-right corner `(2, 2)`. -/
theorem domain_size_invariant (g g' : HexGrid)
    (hshape : g.domainShape = HexDomainShape.Rectangle ∨
              g.domainShape = HexDomainShape.Parallelogram)
    (hok : g.setDomain = .ok g') :
    (g'.d_numrows =
       g.findBoundaryExtents.getD 3 0 - g.findBoundaryExtents.getD 2 0 + 1 ∧
     g'.d_rowlen =
       g.findBoundaryExtents.getD 1 0 - g.findBoundaryExtents.getD 0 0 + 1 +
         (if g.domainShape = HexDomainShape.Rectangle ∧
             HexGrid.rectWidens g.findBoundaryExtents = true then 1 else 0) ∧
     g'.d_size = g'.d_rowlen * g'.d_numrows) ∧
    ((rectScenarioGrid.setDomain).toOption.map (fun gg =>
        (gg.d_rowlen, gg.d_numrows, gg.d_size, gg.d_x.length,
         (gg.d_ri.getD 0 0, gg.d_gi.getD 0 0),
         (gg.d_ri.getD 11 0, gg.d_gi.getD 11 0))) =
      some (4, 3, 12, 12, (0, 0), (2, 2))) := by
  constructor
  · unfold HexGrid.setDomain at hok
    rcases hshape with hs | hs
    · rw [hs, if_pos rfl] at hok
      obtain ⟨r1, r2, r3⟩ := setDomainRest_scalars _ _ _ hok
      obtain ⟨m1, m2, m3⟩ := markRect_scalars
        (HexGrid.setDomainScalars g g.findBoundaryExtents) g.findBoundaryExtents
      have hscal : (HexGrid.setDomainScalars g g.findBoundaryExtents).d_rowlen =
          g.findBoundaryExtents.getD 1 0 - g.findBoundaryExtents.getD 0 0 + 1 := rfl
      have hsize : (HexGrid.setDomainScalars g g.findBoundaryExtents).d_size =
          (HexGrid.setDomainScalars g g.findBoundaryExtents).d_rowlen *
            (HexGrid.setDomainScalars g g.findBoundaryExtents).d_numrows := rfl
      have hnum : g'.d_numrows =
          g.findBoundaryExtents.getD 3 0 - g.findBoundaryExtents.getD 2 0 + 1 :=
        (r2.trans m1).trans rfl
      by_cases hw : HexGrid.rectWidens g.findBoundaryExtents = true
      · rw [if_pos hw] at m2 m3
        refine ⟨hnum, ?_, ?_⟩
        · rw [r1, m2, hscal, if_pos ⟨hs, hw⟩]
        · rw [r3, m3, r1, m2, r2, m1]
      · rw [if_neg hw] at m2 m3
        refine ⟨hnum, ?_, ?_⟩
        · rw [r1, m2, hscal, if_neg (fun hc => hw hc.2)]
        · rw [r3, m3, r1, m2, r2, m1, hsize]
          ring
    · rw [hs] at hok
      rw [if_neg (by decide), if_pos rfl] at hok
      obtain ⟨r1, r2, r3⟩ := setDomainRest_scalars _ _ _ hok
      refine ⟨r2.trans rfl, ?_, ?_⟩
      · rw [r1, hs, if_neg (fun hc => absurd hc.1 (by decide))]
        simp only [add_zero]
        rfl
      · rw [r3, r1, r2]
        rfl
  · set_option maxRecDepth 1000000 in with_unfolding_all rfl

/-- The grid `setDomain` produces in scenario C. -/
def rectScenarioResult : HexGrid :=
  match HexGrid.setDomain rectScenarioGrid with
  | .ok g => g
  | .error _ => {}

/-- Witness for C5: scenario C's grid completes `setDomain` and satisfies
the invariant. -/
theorem domain_size_invariant_witness :
    (rectScenarioResult.d_numrows =
       rectScenarioGrid.findBoundaryExtents.getD 3 0 -
         rectScenarioGrid.findBoundaryExtents.getD 2 0 + 1 ∧
     rectScenarioResult.d_rowlen =
       rectScenarioGrid.findBoundaryExtents.getD 1 0 -
         rectScenarioGrid.findBoundaryExtents.getD 0 0 + 1 +
         (if rectScenarioGrid.domainShape = HexDomainShape.Rectangle ∧
             HexGrid.rectWidens rectScenarioGrid.findBoundaryExtents = true
          then 1 else 0) ∧
     rectScenarioResult.d_size =
       rectScenarioResult.d_rowlen * rectScenarioResult.d_numrows) ∧
    ((rectScenarioGrid.setDomain).toOption.map (fun gg =>
        (gg.d_rowlen, gg.d_numrows, gg.d_size, gg.d_x.length,
         (gg.d_ri.getD 0 0, gg.d_gi.getD 0 0),
         (gg.d_ri.getD 11 0, gg.d_gi.getD 11 0))) =
      some (4, 3, 12, 12, (0, 0), (2, 2))) :=
  domain_size_invariant rectScenarioGrid rectScenarioResult
    (Or.inl rfl)
    (by set_option maxRecDepth 1000000 in with_unfolding_all rfl)

/-! ## Claim C6: the hill-climbing nearest-cell search -/

/-- One fold step of `firstCloser`, named for the proofs: a found result
propagates; otherwise probe the `dir`-neighbour and keep it when strictly
closer. -/
def fcStep (d v : ℚ) (s : List Hex) (p : ℚ × ℚ) (h : Hex) (dcur : ℚ)
    (acc : Option (Hex × ℚ)) (dir : Dir) : Option (Hex × ℚ) :=
  match acc with
  | some r => some r
  | none =>
    match h.link dir with
    | none => none
    | some t =>
      match findHex s t with
      | none => none
      | some b =>
        let dl := distSqFromPt d v b p
        if dl < dcur then some (b, dl) else none

theorem firstCloser_eq_fold (d v : ℚ) (s : List Hex) (p : ℚ × ℚ) (h : Hex) (dcur : ℚ) :
    HexGrid.firstCloser d v s p h dcur = dirList.foldl (fcStep d v s p h dcur) none := rfl

/-- A `some` accumulator propagates through the `firstCloser` fold. -/
theorem fcFold_some_acc (d v : ℚ) (s : List Hex) (p : ℚ × ℚ) (h : Hex) (dcur : ℚ) :
    ∀ (l : List Dir) (r : Hex × ℚ),
      l.foldl (fcStep d v s p h dcur) (some r) = some r := by
  intro l
  induction l with
  | nil => intro r; rfl
  | cons d0 t ih => intro r; rw [List.foldl_cons]; exact ih r

/-- A successful `firstCloser` fold reports the incoming accumulator or a
cell of the list, at its own distance, strictly closer than the current
distance. -/
theorem fcFold_some (d v : ℚ) (s : List Hex) (p : ℚ × ℚ) (h : Hex) (dcur : ℚ) :
    ∀ (l : List Dir) (acc : Option (Hex × ℚ)) (b : Hex) (dl : ℚ),
      l.foldl (fcStep d v s p h dcur) acc = some (b, dl) →
      acc = some (b, dl) ∨ (b ∈ s ∧ dl = distSqFromPt d v b p ∧ dl < dcur) := by
  intro l
  induction l with
  | nil => intro acc b dl hf; exact Or.inl hf
  | cons dir l ih =>
    intro acc b dl hf
    rw [List.foldl_cons] at hf
    rcases ih _ b dl hf with hacc | hgood
    · cases acc with
      | some r => exact Or.inl hacc
      | none =>
        right
        simp only [fcStep] at hacc
        cases hlk : h.link dir with
        | none => rw [hlk] at hacc; exact absurd hacc (by simp)
        | some t =>
          rw [hlk] at hacc
          dsimp only at hacc
          cases hfh : findHex s t with
          | none => rw [hfh] at hacc; exact absurd hacc (by simp)
          | some b0 =>
            rw [hfh] at hacc
            dsimp only at hacc
            split at hacc
            · next hlt =>
              cases hacc
              exact ⟨findHex_mem s t b hfh, rfl, hlt⟩
            · exact absurd hacc (by simp)
    · exact Or.inr hgood

/-- A failed `firstCloser` fold entered anywhere certifies an empty
accumulator and that every direction's probe failed. -/
theorem fcFold_none (d v : ℚ) (s : List Hex) (p : ℚ × ℚ) (h : Hex) (dcur : ℚ) :
    ∀ (l : List Dir) (acc : Option (Hex × ℚ)),
      l.foldl (fcStep d v s p h dcur) acc = none →
      acc = none ∧ ∀ dir ∈ l, fcStep d v s p h dcur none dir = none := by
  intro l
  induction l with
  | nil =>
    intro acc hf
    exact ⟨hf, fun dir hdir => absurd hdir (List.not_mem_nil dir)⟩
  | cons dir l ih =>
    intro acc hf
    rw [List.foldl_cons] at hf
    obtain ⟨hstep, hrest⟩ := ih _ hf
    have hacc : acc = none := by
      cases acc with
      | none => rfl
      | some r => exact absurd hstep (by simp [fcStep])
    refine ⟨hacc, ?_⟩
    intro dir0 hdir0
    rcases List.mem_cons.mp hdir0 with rfl | hd
    · rw [hacc] at hstep; exact hstep
    · exact hrest dir0 hd

/-- A failed probe in one direction means that direction offers no
strictly closer cell. -/
theorem fcStep_none_sound (d v : ℚ) (s : List Hex) (p : ℚ × ℚ) (h : Hex) (dcur : ℚ)
    (dir : Dir) (hn : fcStep d v s p h dcur none dir = none) :
    ∀ t, h.link dir = some t → ∀ b, findHex s t = some b →
      ¬ distSqFromPt d v b p < dcur := by
  intro t hlk b hfh hlt
  simp only [fcStep, hlk, hfh] at hn
  rw [if_pos hlt] at hn
  exact absurd hn (by simp)

/-- A successful `firstCloser` returns a cell of the list, at its own
distance, strictly closer than the current distance. -/
theorem firstCloser_some_mem (d v : ℚ) (s : List Hex) (p : ℚ × ℚ) (h : Hex) (dcur : ℚ)
    (b : Hex) (dl : ℚ) (hf : HexGrid.firstCloser d v s p h dcur = some (b, dl)) :
    b ∈ s ∧ dl = distSqFromPt d v b p ∧ dl < dcur := by
  rw [firstCloser_eq_fold] at hf
  rcases fcFold_some d v s p h dcur dirList none b dl hf with hacc | hg
  · exact absurd hacc (by simp)
  · exact hg

/-- A failed `firstCloser` means no linked neighbour present in the list
is strictly closer than the current distance. -/
theorem firstCloser_none_sound (d v : ℚ) (s : List Hex) (p : ℚ × ℚ) (h : Hex) (dcur : ℚ)
    (hf : HexGrid.firstCloser d v s p h dcur = none) :
    ∀ (dir : Dir) (t : Nat), h.link dir = some t → ∀ b, findHex s t = some b →
      ¬ distSqFromPt d v b p < dcur := by
  rw [firstCloser_eq_fold] at hf
  obtain ⟨-, hall⟩ := fcFold_none d v s p h dcur dirList none hf
  intro dir
  exact fcStep_none_sound d v s p h dcur dir (hall dir (by cases dir <;> decide))

/-- Filtering by a stronger predicate yields at most as many elements. -/
theorem filter_length_mono {α : Type} (p q : α → Bool)
    (hpq : ∀ a, p a = true → q a = true) :
    ∀ l : List α, (l.filter p).length ≤ (l.filter q).length := by
  intro l
  induction l with
  | nil => simp
  | cons x t ih =>
    by_cases hp : p x = true
    · rw [List.filter_cons_of_pos hp, List.filter_cons_of_pos (hpq x hp)]
      simpa using ih
    · rw [List.filter_cons_of_neg (by simpa using hp)]
      by_cases hq : q x = true
      · rw [List.filter_cons_of_pos hq]
        simp only [List.length_cons]
        omega
      · rw [List.filter_cons_of_neg (by simpa using hq)]
        exact ih

/-- Filtering by a stronger predicate that some listed element fails,
while passing the weaker one, yields strictly fewer elements. -/
theorem filter_length_strict {α : Type} (p q : α → Bool)
    (hpq : ∀ a, p a = true → q a = true) (b : α) (hq : q b = true) (hp : p b = false) :
    ∀ l : List α, b ∈ l → (l.filter p).length < (l.filter q).length := by
  intro l
  induction l with
  | nil => intro hb; cases hb
  | cons x t ih =>
    intro hb
    rcases List.mem_cons.mp hb with rfl | hbt
    · rw [List.filter_cons_of_neg (by simp [hp]), List.filter_cons_of_pos hq]
      have := filter_length_mono p q hpq t
      simp only [List.length_cons]
      omega
    · by_cases hx : p x = true
      · rw [List.filter_cons_of_pos hx, List.filter_cons_of_pos (hpq x hx)]
        simpa using ih hbt
      · rw [List.filter_cons_of_neg (by simpa using hx)]
        by_cases hqx : q x = true
        · rw [List.filter_cons_of_pos hqx]
          have := ih hbt
          simp only [List.length_cons]
          omega
        · rw [List.filter_cons_of_neg (by simpa using hqx)]
          exact ih hbt

/-- The hill climb, given fuel exceeding the number of cells strictly
closer than the start, ends at a cell none of whose linked neighbours is
strictly closer (so the source's unbounded loop terminates there), and
that cell is the start or a listed cell. -/
theorem hillClimb_localmin (d v : ℚ) (s : List Hex) (p : ℚ × ℚ) :
    ∀ (fuel : Nat) (h : Hex) (dcur : ℚ),
      dcur = distSqFromPt d v h p →
      (s.filter (fun x => decide (distSqFromPt d v x p < dcur))).length < fuel →
      HexGrid.firstCloser d v s p (HexGrid.hillClimb d v s p fuel h dcur)
          (distSqFromPt d v (HexGrid.hillClimb d v s p fuel h dcur) p) = none ∧
      (HexGrid.hillClimb d v s p fuel h dcur = h ∨
        HexGrid.hillClimb d v s p fuel h dcur ∈ s) := by
  intro fuel
  induction fuel with
  | zero => intro h dcur _ hc; exact absurd hc (by omega)
  | succ n ih =>
    intro h dcur hd hc
    unfold HexGrid.hillClimb
    cases hfc : HexGrid.firstCloser d v s p h dcur with
    | none =>
      refine ⟨?_, Or.inl rfl⟩
      rw [← hd]
      exact hfc
    | some r =>
      obtain ⟨b, dl⟩ := r
      dsimp only
      obtain ⟨hbmem, hdl, hlt⟩ := firstCloser_some_mem d v s p h dcur b dl hfc
      have hqb : (fun x => decide (distSqFromPt d v x p < dcur)) b = true := by
        simp only [decide_eq_true_eq]
        rw [← hdl]
        exact hlt
      have hpb : (fun x => decide (distSqFromPt d v x p < dl)) b = false := by
        simp only [decide_eq_false_iff_not]
        rw [← hdl]
        exact lt_irrefl dl
      have hstrict := filter_length_strict
        (fun x => decide (distSqFromPt d v x p < dl))
        (fun x => decide (distSqFromPt d v x p < dcur))
        (fun a ha => by
          simp only [decide_eq_true_eq] at ha ⊢
          exact lt_trans ha hlt)
        b hqb hpb s hbmem
      obtain ⟨h1, h2⟩ := ih b dl hdl (by omega)
      refine ⟨h1, ?_⟩
      rcases h2 with he | hm
      · rw [he]; exact Or.inr hbmem
      · exact Or.inr hm

/-- C6.  Hill-climbing nearest-cell search: for every target point and
every valid start cell, `setBoundary(point, startFrom)` terminates (the
climb strictly decreases the distance at every move, which is bounded
below, and the embedding's fuel of `hexen.length + 1` is never exhausted
before a local minimum) and returns a cell of the grid none of whose
linked neighbours is strictly closer to the point; the returned cell's
`boundaryHex` flag is set, and the cells are otherwise unchanged. -/
theorem hillclimb_nearest_boundary (g : HexGrid) (p : ℚ × ℚ) (startFrom : Nat) (h0 : Hex)
    (hstart : findHex g.hexen startFrom = some h0) :
    ∃ hres, hres ∈ g.hexen ∧
      (g.setBoundary_point p startFrom).2 = hres.hid ∧
      (∀ (dir : Dir) (t : Nat), hres.link dir = some t →
        ∀ b, findHex g.hexen t = some b →
          ¬ distSqFromPt g.d g.v b p < distSqFromPt g.d g.v hres p) ∧
      (g.setBoundary_point p startFrom).1.hexen =
        g.hexen.map fun h =>
          if h.hid = hres.hid then { h with boundaryHex := true } else h := by
  obtain ⟨hmin, hmem⟩ := hillClimb_localmin g.d g.v g.hexen p (g.hexen.length + 1) h0
    (distSqFromPt g.d g.v h0 p) rfl
    (by
      have := List.length_filter_le
        (fun x => decide (distSqFromPt g.d g.v x p < distSqFromPt g.d g.v h0 p)) g.hexen
      omega)
  refine ⟨HexGrid.hillClimb g.d g.v g.hexen p (g.hexen.length + 1) h0
    (distSqFromPt g.d g.v h0 p), ?_, ?_, ?_, ?_⟩
  · rcases hmem with he | hm
    · rw [he]; exact findHex_mem _ _ _ hstart
    · exact hm
  · unfold HexGrid.setBoundary_point
    rw [hstart]
  · exact firstCloser_none_sound _ _ _ _ _ _ hmin
  · unfold HexGrid.setBoundary_point
    rw [hstart]

/-- A two-cell grid for the C6 witness: cell 0 at the origin linked east
to cell 1. -/
def hillWitnessGrid : HexGrid :=
  { hexen := [{ mkHex 0 0 0 with ne := some 1 }, { mkHex 1 1 0 with nw := some 0 }] }

/-- Witness for C6: climbing from cell 0 toward the point `(5, 0)`. -/
theorem hillclimb_nearest_boundary_witness :
    ∃ hres, hres ∈ hillWitnessGrid.hexen ∧
      (hillWitnessGrid.setBoundary_point (5, 0) 0).2 = hres.hid ∧
      (∀ (dir : Dir) (t : Nat), hres.link dir = some t →
        ∀ b, findHex hillWitnessGrid.hexen t = some b →
          ¬ distSqFromPt hillWitnessGrid.d hillWitnessGrid.v b (5, 0) <
            distSqFromPt hillWitnessGrid.d hillWitnessGrid.v hres (5, 0)) ∧
      (hillWitnessGrid.setBoundary_point (5, 0) 0).1.hexen =
        hillWitnessGrid.hexen.map fun h =>
          if h.hid = hres.hid then { h with boundaryHex := true } else h :=
  hillclimb_nearest_boundary hillWitnessGrid (5, 0) 0
    { mkHex 0 0 0 with ne := some 1 } (by with_unfolding_all decide)

/-! ## Claim C8: a null boundary curve is a no-op -/

/-- C8.  Null-boundary no-op: `setBoundary(const BezCurvePath&)` with a
null curve stores the curve and does nothing else — it returns the grid
with only the `boundary` member updated, so the cell list (every cell's
coordinates, flags and neighbour links), the centroid, the reduction flag
and the flat arrays are all left unchanged. -/
theorem null_boundary_noop (g : HexGrid) (p : BezCurvePathM) (hnull : p.isNull = true) :
    g.setBoundary_curve p = .ok { g with boundary := p } ∧
    ∀ g', g.setBoundary_curve p = .ok g' →
      g'.hexen = g.hexen ∧ g'.boundaryCentroid = g.boundaryCentroid ∧
      g'.gridReduced = g.gridReduced ∧ g'.d_x = g.d_x ∧ g'.d_flags = g.d_flags ∧
      g'.d_ne = g.d_ne := by
  have hmain : g.setBoundary_curve p = .ok { g with boundary := p } := by
    simp [HexGrid.setBoundary_curve, hnull]
  refine ⟨hmain, ?_⟩
  intro g' hok
  rw [hmain] at hok
  cases hok
  exact ⟨rfl, rfl, rfl, rfl, rfl, rfl⟩

/-- Witness for C8: a populated lattice and the default (null) curve. -/
theorem null_boundary_noop_witness :
    (HexGrid.init 1 1 3 0 HexDomainShape.Boundary).setBoundary_curve {} =
      .ok { HexGrid.init 1 1 3 0 HexDomainShape.Boundary with boundary := {} } ∧
    ∀ g', (HexGrid.init 1 1 3 0 HexDomainShape.Boundary).setBoundary_curve {} = .ok g' →
      g'.hexen = (HexGrid.init 1 1 3 0 HexDomainShape.Boundary).hexen ∧
      g'.boundaryCentroid = (HexGrid.init 1 1 3 0 HexDomainShape.Boundary).boundaryCentroid ∧
      g'.gridReduced = (HexGrid.init 1 1 3 0 HexDomainShape.Boundary).gridReduced ∧
      g'.d_x = (HexGrid.init 1 1 3 0 HexDomainShape.Boundary).d_x ∧
      g'.d_flags = (HexGrid.init 1 1 3 0 HexDomainShape.Boundary).d_flags ∧
      g'.d_ne = (HexGrid.init 1 1 3 0 HexDomainShape.Boundary).d_ne :=
  null_boundary_noop (HexGrid.init 1 1 3 0 HexDomainShape.Boundary) {} rfl

/-! ## Claim C1: neighbour reciprocity

Geometry of the ring spiral: the coordinate of every cell id, and its
injectivity.  The six walks of ring `k` (source order r, -b, -g, -r, b,
g) start at the six scaled corner coordinates and advance by the six unit
steps. -/

/-- Number of cells in rings `< k` (the id of ring `k`'s first cell):
`1 + Σ 6t`. -/
def ringBase (k : Nat) : Nat := 1 + 3 * k * (k - 1)

theorem ringBase_succ (k : Nat) : ringBase (k + 1) = ringBase k + 6 * k := by
  cases k with
  | zero => rfl
  | succ n =>
    show 1 + 3 * (n + 2) * (n + 1) = 1 + 3 * (n + 1) * n + 6 * (n + 1)
    ring

theorem ringBase_le_ringBase (k1 k2 : Nat) (h : k1 ≤ k2) : ringBase k1 ≤ ringBase k2 := by
  induction k2 with
  | zero => simpa [Nat.le_zero.mp h]
  | succ n ih =>
    rcases Nat.lt_or_ge k1 (n + 1) with h' | h'
    · have := ih (by omega)
      rw [ringBase_succ]
      omega
    · have : k1 = n + 1 := by omega
      rw [this]

theorem ringBase_add_le (k1 k2 : Nat) (h : k1 < k2) : ringBase k1 + 6 * k1 ≤ ringBase k2 := by
  have h1 : ringBase (k1 + 1) ≤ ringBase k2 := ringBase_le_ringBase _ _ h
  rw [ringBase_succ] at h1
  exact h1

theorem self_lt_ringBase_succ (k : Nat) : k < ringBase (k + 1) := by
  have h1 : k ≤ 3 * (k + 1) * k := by
    calc k ≤ 3 * k := by omega
    _ ≤ 3 * (k + 1) * k := by
      have h2 : 3 ≤ 3 * (k + 1) := by omega
      exact Nat.mul_le_mul_right k h2
  have h3 : ringBase (k + 1) = 1 + 3 * (k + 1) * k := by
    show 1 + 3 * (k + 1) * (k + 1 - 1) = 1 + 3 * (k + 1) * k
    rfl
  omega

theorem ringBase_ge (k : Nat) : k ≤ ringBase k := by
  induction k with
  | zero => simp [ringBase]
  | succ n ih =>
    have h1 : 1 ≤ ringBase n := by unfold ringBase; omega
    rw [ringBase_succ]
    omega

/-- Axial coordinate of in-ring index `m` of ring `k`: walk `m / k`
(source order r, -b, -g, -r, b, g), step `m % k`, written as an explicit
six-segment chain. -/
def ringCoord (k m : Nat) : Int × Int :=
  if m < k then ((m : Int) - k, (k : Int))
  else if m < 2 * k then ((m : Int) - k, 2 * (k : Int) - m)
  else if m < 3 * k then ((k : Int), 2 * (k : Int) - m)
  else if m < 4 * k then (4 * (k : Int) - m, -(k : Int))
  else if m < 5 * k then (4 * (k : Int) - m, (m : Int) - 5 * k)
  else (-(k : Int), (m : Int) - 5 * k)

/-- Twice the hex norm of an axial coordinate (`|r| + |g| + |r + g|`). -/
def coordNorm2 (p : Int × Int) : Nat :=
  p.1.natAbs + p.2.natAbs + (p.1 + p.2).natAbs

theorem ringCoord_norm2 (k m : Nat) (hk : 1 ≤ k) (hm : m < 6 * k) :
    coordNorm2 (ringCoord k m) = 2 * k := by
  unfold ringCoord coordNorm2
  split_ifs <;> simp only <;> omega

theorem ringCoord_inj (k m1 m2 : Nat) (h1 : m1 < 6 * k) (h2 : m2 < 6 * k)
    (h : ringCoord k m1 = ringCoord k m2) : m1 = m2 := by
  unfold ringCoord at h
  rw [Prod.ext_iff] at h
  split_ifs at h <;> simp only at h <;> omega

/-- Peel full rings off a cell count: returns the ring and in-ring
index. -/
def ringSplitGo : Nat → Nat → Nat → Nat × Nat
  | 0, k, rem => (k, rem)
  | fuel + 1, k, rem => if rem < 6 * k then (k, rem) else ringSplitGo fuel (k + 1) (rem - 6 * k)

/-- The axial coordinate of cell id `id` in the spiral lattice. -/
def spiralCoord (id : Nat) : Int × Int :=
  if id = 0 then (0, 0)
  else
    let p := ringSplitGo id 1 (id - 1)
    ringCoord p.1 p.2

theorem ringSplitGo_spec : ∀ (j fuel k m : Nat), 1 ≤ k → m < 6 * (k + j) → j < fuel →
    ringSplitGo fuel k ((ringBase (k + j) - ringBase k) + m) = (k + j, m) := by
  intro j
  induction j with
  | zero =>
    intro fuel k m hk hm hfuel
    cases fuel with
    | zero => omega
    | succ n =>
      simp only [Nat.add_zero, Nat.sub_self, Nat.zero_add]
      unfold ringSplitGo
      rw [if_pos (by omega)]
  | succ j ih =>
    intro fuel k m hk hm hfuel
    cases fuel with
    | zero => omega
    | succ n =>
      have hrem : (ringBase (k + (j + 1)) - ringBase k) + m =
          6 * k + ((ringBase (k + 1 + j) - ringBase (k + 1)) + m) := by
        have hb1 : ringBase (k + 1) = ringBase k + 6 * k := ringBase_succ k
        have hmono2 : ringBase (k + 1) ≤ ringBase (k + 1 + j) :=
          ringBase_le_ringBase _ _ (by omega)
        have hidx : k + (j + 1) = k + 1 + j := by omega
        rw [hidx]
        omega
      unfold ringSplitGo
      rw [hrem, if_neg (by omega)]
      have hih := ih n (k + 1) m (by omega) (by omega) (by omega)
      have harg : 6 * k + ((ringBase (k + 1 + j) - ringBase (k + 1)) + m) - 6 * k =
          (ringBase (k + 1 + j) - ringBase (k + 1)) + m := by omega
      rw [harg]
      rw [show k + 1 + j = k + (j + 1) by omega]
      rw [show k + 1 + j = k + (j + 1) by omega] at hih
      exact hih

theorem spiralCoord_ring (k m : Nat) (hk : 1 ≤ k) (hm : m < 6 * k) :
    spiralCoord (ringBase k + m) = ringCoord k m := by
  unfold spiralCoord
  have hpos : ringBase k + m ≠ 0 := by have := ringBase_ge k; omega
  rw [if_neg hpos]
  have hb1 : ringBase 1 = 1 := rfl
  have harg : ringBase k + m - 1 = (ringBase k - ringBase 1) + m := by
    have := ringBase_ge k
    omega
  have hfuel : k - 1 < ringBase k + m := by
    have := ringBase_ge k
    omega
  have := ringSplitGo_spec (k - 1) (ringBase k + m) 1 m (by omega)
    (by rw [show 1 + (k - 1) = k by omega]; exact hm)
    hfuel
  rw [show 1 + (k - 1) = k by omega] at this
  rw [harg, this]

theorem spiralCoord_zero : spiralCoord 0 = (0, 0) := rfl

/-- Every positive id decomposes into a ring and in-ring index. -/
theorem ringDecompose (id : Nat) (h0 : 1 ≤ id) :
    ∃ k m, 1 ≤ k ∧ m < 6 * k ∧ id = ringBase k + m := by
  have main : ∀ (K id : Nat), 1 ≤ id → id < ringBase K →
      ∃ k m, 1 ≤ k ∧ m < 6 * k ∧ id = ringBase k + m := by
    intro K
    induction K with
    | zero => intro id h1 h2; simp [ringBase] at h2; omega
    | succ n ih =>
      intro id h1 h2
      rcases Nat.lt_or_ge id (ringBase n) with h' | h'
      · exact ih id h1 h'
      · cases n with
        | zero => simp [ringBase] at h2 h'; omega
        | succ n0 =>
          refine ⟨n0 + 1, id - ringBase (n0 + 1), by omega, ?_, by omega⟩
          rw [ringBase_succ] at h2
          omega
  exact main (id + 1) id h0 (by have := self_lt_ringBase_succ id; omega)

theorem ringDecompose_unique (k1 m1 k2 m2 : Nat) (hk1 : 1 ≤ k1) (hm1 : m1 < 6 * k1)
    (hk2 : 1 ≤ k2) (hm2 : m2 < 6 * k2) (h : ringBase k1 + m1 = ringBase k2 + m2) :
    k1 = k2 ∧ m1 = m2 := by
  rcases Nat.lt_trichotomy k1 k2 with h' | rfl | h'
  · have := ringBase_add_le k1 k2 h'; omega
  · omega
  · have := ringBase_add_le k2 k1 h'; omega

/-- The spiral never revisits a coordinate. -/
theorem spiralCoord_inj (i1 i2 : Nat) (h : spiralCoord i1 = spiralCoord i2) : i1 = i2 := by
  rcases Nat.eq_zero_or_pos i1 with rfl | h1 <;> rcases Nat.eq_zero_or_pos i2 with rfl | h2
  · rfl
  · obtain ⟨k, m, hk, hm, rfl⟩ := ringDecompose i2 h2
    rw [spiralCoord_zero, spiralCoord_ring k m hk hm] at h
    have := ringCoord_norm2 k m hk hm
    rw [← h] at this
    simp [coordNorm2] at this
    omega
  · obtain ⟨k, m, hk, hm, rfl⟩ := ringDecompose i1 h1
    rw [spiralCoord_zero, spiralCoord_ring k m hk hm] at h
    have := ringCoord_norm2 k m hk hm
    rw [h] at this
    simp [coordNorm2] at this
    omega
  · obtain ⟨k1, m1, hk1, hm1, rfl⟩ := ringDecompose i1 h1
    obtain ⟨k2, m2, hk2, hm2, rfl⟩ := ringDecompose i2 h2
    rw [spiralCoord_ring k1 m1 hk1 hm1, spiralCoord_ring k2 m2 hk2 hm2] at h
    have hn1 := ringCoord_norm2 k1 m1 hk1 hm1
    have hn2 := ringCoord_norm2 k2 m2 hk2 hm2
    rw [h] at hn1
    have hkk : k1 = k2 := by omega
    subst hkk
    have := ringCoord_inj k1 m1 m2 hm1 hm2 h
    omega

/-! The construction invariant: cell ids are `0, 1, 2, …` in list order,
every cell sits at its spiral coordinate, every link lands one lattice
step away on a present cell, and links are reciprocal. -/

theorem Dir.opp_inj (d1 d2 : Dir) (h : d1.opp = d2.opp) : d1 = d2 := by
  have := congrArg Dir.opp h
  rwa [Dir.opp_opp, Dir.opp_opp] at this

theorem Dir.delta_opp (d : Dir) :
    (Dir.delta d.opp).1 = -(Dir.delta d).1 ∧ (Dir.delta d.opp).2 = -(Dir.delta d).2 := by
  cases d <;> exact ⟨rfl, rfl⟩

theorem mkHex_link (v : Nat) (r g : Int) (d : Dir) : (mkHex v r g).link d = none := by
  cases d <;> rfl

/-- Cell ids are exactly `0, …, n-1` in list order and every cell sits at
its spiral coordinate. -/
def CellsOK (n : Nat) (s : List Hex) : Prop :=
  s.map Hex.hid = List.range n ∧ ∀ h ∈ s, (h.ri, h.gi) = spiralCoord h.hid

/-- Every link lands on a present cell exactly one lattice step away in
the link's direction. -/
def LinkDelta (s : List Hex) : Prop :=
  ∀ h ∈ s, ∀ (dir : Dir) (b : Nat), h.link dir = some b →
    ∃ hb ∈ s, hb.hid = b ∧ hb.ri = h.ri + (Dir.delta dir).1 ∧
      hb.gi = h.gi + (Dir.delta dir).2

/-- The invariant carried through `HexGrid::init`. -/
def SpiralInv (n : Nat) (s : List Hex) : Prop :=
  CellsOK n s ∧ LinkDelta s ∧ Reciprocal s

theorem CellsOK_hid_lt (n : Nat) (s : List Hex) (hc : CellsOK n s) :
    ∀ h ∈ s, h.hid < n := by
  intro h hm
  have : h.hid ∈ s.map Hex.hid := List.mem_map_of_mem Hex.hid hm
  rw [hc.1] at this
  exact List.mem_range.mp this

theorem CellsOK_exists_hid (n : Nat) (s : List Hex) (hc : CellsOK n s)
    (id : Nat) (hid : id < n) : ∃ h ∈ s, h.hid = id := by
  have : id ∈ s.map Hex.hid := by rw [hc.1]; exact List.mem_range.mpr hid
  obtain ⟨h, hm, he⟩ := List.mem_map.mp this
  exact ⟨h, hm, he⟩

/-- The per-cell effect of `setBoth s a dir b` (for `a ≠ b`). -/
def sbPatch (a b : Nat) (dir : Dir) (h : Hex) : Hex :=
  if h.hid = a then h.setDir dir (some b)
  else if h.hid = b then h.setDir dir.opp (some a)
  else h

theorem setBoth_eq_map (s : List Hex) (a b : Nat) (dir : Dir) (hab : a ≠ b) :
    setBoth s a dir b = s.map (sbPatch a b dir) := by
  unfold setBoth setL
  rw [List.map_map]
  apply List.map_congr_left
  intro h _
  show (if (if h.hid = a then h.setDir dir (some b) else h).hid = b
      then (if h.hid = a then h.setDir dir (some b) else h).setDir dir.opp (some a)
      else (if h.hid = a then h.setDir dir (some b) else h)) = sbPatch a b dir h
  by_cases h1 : h.hid = a
  · rw [if_pos h1]
    rw [if_neg (show ¬(h.setDir dir (some b)).hid = b by
      rw [Hex.hid_setDir, h1]; exact hab)]
    unfold sbPatch
    rw [if_pos h1]
  · rw [if_neg h1]
    unfold sbPatch
    rw [if_neg h1]

@[simp] theorem sbPatch_hid (a b : Nat) (dir : Dir) (h : Hex) :
    (sbPatch a b dir h).hid = h.hid := by
  unfold sbPatch
  split_ifs <;> simp [Hex.hid_setDir]

@[simp] theorem sbPatch_ri (a b : Nat) (dir : Dir) (h : Hex) :
    (sbPatch a b dir h).ri = h.ri := by
  unfold sbPatch
  split_ifs <;> simp [Hex.ri_setDir]

@[simp] theorem sbPatch_gi (a b : Nat) (dir : Dir) (h : Hex) :
    (sbPatch a b dir h).gi = h.gi := by
  unfold sbPatch
  split_ifs <;> simp [Hex.gi_setDir]

theorem Dir.opp_ne (d : Dir) : d.opp ≠ d := by cases d <;> decide

theorem sbPatch_link (a b : Nat) (dir : Dir) (hab : a ≠ b) (h : Hex) (d2 : Dir) :
    (sbPatch a b dir h).link d2 =
      if h.hid = a ∧ d2 = dir then some b
      else if h.hid = b ∧ d2 = dir.opp then some a
      else h.link d2 := by
  unfold sbPatch
  by_cases h1 : h.hid = a
  · rw [if_pos h1]
    by_cases h2 : d2 = dir
    · rw [if_pos ⟨h1, h2⟩, h2, Hex.link_setDir_same]
    · rw [Hex.link_setDir_other h dir d2 (some b) h2]
      rw [if_neg (fun hcc => h2 hcc.2)]
      rw [if_neg (fun hcc => hab (h1.symm.trans hcc.1))]
  · rw [if_neg h1]
    by_cases h3 : h.hid = b
    · rw [if_pos h3]
      by_cases h4 : d2 = dir.opp
      · rw [h4, Hex.link_setDir_same]
        rw [if_neg (fun hcc => h1 hcc.1), if_pos ⟨h3, rfl⟩]
      · rw [Hex.link_setDir_other h dir.opp d2 (some a) h4]
        rw [if_neg (fun hcc => h1 hcc.1), if_neg (fun hcc => h4 hcc.2)]
    · rw [if_neg h3, if_neg (fun hcc => h1 hcc.1), if_neg (fun hcc => h3 hcc.1)]

theorem Dir.delta_nonzero (d : Dir) : (Dir.delta d).1 ≠ 0 ∨ (Dir.delta d).2 ≠ 0 := by
  cases d <;> simp [Dir.delta]

/-- `setBoth` preserves the construction invariant whenever the linked
pair are present cells exactly one `dir`-step apart. -/
theorem setBoth_SpiralInv (n : Nat) (s : List Hex) (a b : Nat) (dir : Dir)
    (hinv : SpiralInv n s) (ha : a < n) (hb : b < n)
    (hdelta : (spiralCoord b).1 = (spiralCoord a).1 + (Dir.delta dir).1 ∧
              (spiralCoord b).2 = (spiralCoord a).2 + (Dir.delta dir).2) :
    SpiralInv n (setBoth s a dir b) := by
  obtain ⟨hc, hld, hrec⟩ := hinv
  have hab : a ≠ b := by
    intro he
    rcases Dir.delta_nonzero dir with hz | hz <;> (subst he; omega)
  rw [setBoth_eq_map s a b dir hab]
  have hcoord : ∀ h ∈ s, (h.ri, h.gi) = spiralCoord h.hid := hc.2
  refine ⟨⟨?_, ?_⟩, ?_, ?_⟩
  · rw [List.map_map]
    rw [show (Hex.hid ∘ sbPatch a b dir) = Hex.hid from funext fun h => sbPatch_hid a b dir h]
    exact hc.1
  · intro h' hm
    obtain ⟨h, hhm, rfl⟩ := List.mem_map.mp hm
    simp only [sbPatch_ri, sbPatch_gi, sbPatch_hid]
    exact hcoord h hhm
  · -- LinkDelta
    intro h' hm dir2 tb hlk
    obtain ⟨h, hhm, rfl⟩ := List.mem_map.mp hm
    rw [sbPatch_link a b dir hab h dir2] at hlk
    split_ifs at hlk with hc1 hc2
    · -- a linking dir to b
      cases hlk
      obtain ⟨hB, hBm, hBid⟩ := CellsOK_exists_hid n s hc b hb
      refine ⟨sbPatch a b dir hB, List.mem_map_of_mem _ hBm, by simp [hBid], ?_, ?_⟩ <;>
      · simp only [sbPatch_ri, sbPatch_gi]
        have h1 := hcoord h hhm
        have h2 := hcoord hB hBm
        rw [Prod.ext_iff] at h1 h2
        simp only at h1 h2
        rw [hc1.1] at h1
        rw [hBid] at h2
        rw [hc1.2]
        omega
    · -- b linking dir.opp back to a
      cases hlk
      obtain ⟨hA, hAm, hAid⟩ := CellsOK_exists_hid n s hc a ha
      have hdo := Dir.delta_opp dir
      refine ⟨sbPatch a b dir hA, List.mem_map_of_mem _ hAm, by simp [hAid], ?_, ?_⟩ <;>
      · simp only [sbPatch_ri, sbPatch_gi]
        have h1 := hcoord h hhm
        have h2 := hcoord hA hAm
        rw [Prod.ext_iff] at h1 h2
        simp only at h1 h2
        rw [hc2.1] at h1
        rw [hAid] at h2
        rw [hc2.2]
        omega
    · obtain ⟨hb', hbm, hbid, hbri, hbgi⟩ := hld h hhm dir2 tb hlk
      exact ⟨sbPatch a b dir hb', List.mem_map_of_mem _ hbm, by simp [hbid],
        by simp [hbri], by simp [hbgi]⟩
  · -- Reciprocal
    intro A' hA'm B' hB'm d2 hlk
    obtain ⟨A, hAm, rfl⟩ := List.mem_map.mp hA'm
    obtain ⟨B, hBm, rfl⟩ := List.mem_map.mp hB'm
    rw [sbPatch_link a b dir hab A d2, sbPatch_hid] at hlk
    rw [sbPatch_link a b dir hab B d2.opp, sbPatch_hid]
    split_ifs at hlk with hc1 hc2
    · -- A is a, d2 = dir, so B is b; b links back
      have hBb : B.hid = b := by
        have := Option.some.inj hlk
        omega
      rw [if_neg (show ¬(B.hid = a ∧ d2.opp = dir) from
            fun hcc => hab (by rw [← hcc.1]; exact hBb)),
          if_pos ⟨hBb, by rw [hc1.2]⟩, hc1.1]
    · -- A is b, d2 = dir.opp, so B is a; a links dir back
      have hBa : B.hid = a := by
        have := Option.some.inj hlk
        omega
      rw [if_pos ⟨hBa, by rw [hc2.2, Dir.opp_opp]⟩, hc2.1]
    · -- untouched slot of A
      have hold := hrec A hAm B hBm d2 hlk
      by_cases hb1 : B.hid = a ∧ d2.opp = dir
      · -- the overwritten slot: it is rewritten with the same target
        rw [if_pos hb1]
        obtain ⟨hT, hTm, hTid, hTri, hTgi⟩ := hld A hAm d2 B.hid hlk
        have hA1 := hcoord A hAm
        have hT1 := hcoord hT hTm
        rw [Prod.ext_iff] at hA1 hT1
        simp only at hA1 hT1
        rw [hTid, hb1.1] at hT1
        have hd2 : d2 = dir.opp := by
          have := congrArg Dir.opp hb1.2
          rwa [Dir.opp_opp] at this
        have hdo := Dir.delta_opp dir
        rw [hd2] at hTri hTgi
        have hAb : spiralCoord A.hid = spiralCoord b := by
          rw [Prod.ext_iff]
          constructor <;> omega
        rw [spiralCoord_inj A.hid b hAb]
      · rw [if_neg hb1]
        by_cases hb2 : B.hid = b ∧ d2.opp = dir.opp
        · -- would force A to be a, contradicting this branch
          exfalso
          have hd2 : d2 = dir := Dir.opp_inj _ _ hb2.2
          obtain ⟨hT, hTm, hTid, hTri, hTgi⟩ := hld A hAm d2 B.hid hlk
          have hA1 := hcoord A hAm
          have hT1 := hcoord hT hTm
          rw [Prod.ext_iff] at hA1 hT1
          simp only at hA1 hT1
          rw [hTid, hb2.1] at hT1
          rw [hd2] at hTri hTgi
          have hAa : spiralCoord A.hid = spiralCoord a := by
            rw [Prod.ext_iff]
            constructor <;> omega
          exact hc1 ⟨spiralCoord_inj A.hid a hAa, hd2⟩
        · rw [if_neg hb2]
          exact hold

/-- Appending a fresh, linkless cell at the next id and its spiral
coordinate preserves the invariant (for the grown count). -/
theorem append_SpiralInv (n : Nat) (s : List Hex) (hinv : SpiralInv n s)
    (r g : Int) (hco : (r, g) = spiralCoord n) :
    SpiralInv (n + 1) (s ++ [mkHex n r g]) := by
  obtain ⟨hc, hld, hrec⟩ := hinv
  refine ⟨⟨?_, ?_⟩, ?_, ?_⟩
  · rw [List.map_append, hc.1, List.range_succ]
    rfl
  · intro h hm
    rcases List.mem_append.mp hm with hm | hm
    · exact hc.2 h hm
    · rw [List.mem_singleton.mp hm]
      exact hco
  · intro h hm dir b hlk
    rcases List.mem_append.mp hm with hm | hm
    · obtain ⟨hb', hbm, hrest⟩ := hld h hm dir b hlk
      exact ⟨hb', List.mem_append.mpr (Or.inl hbm), hrest⟩
    · rw [List.mem_singleton.mp hm] at hlk
      rw [mkHex_link] at hlk
      exact absurd hlk (by simp)
  · intro A hAm B hBm d2 hlk
    rcases List.mem_append.mp hAm with hAm' | hAm'
    · rcases List.mem_append.mp hBm with hBm' | hBm'
      · exact hrec A hAm' B hBm' d2 hlk
      · exfalso
        rw [List.mem_singleton.mp hBm'] at hlk
        obtain ⟨hb', hbm, hbid, -, -⟩ := hld A hAm' d2 _ hlk
        have := CellsOK_hid_lt n s hc hb' hbm
        simp [mkHex] at hbid
        omega
    · rw [List.mem_singleton.mp hAm'] at hlk
      rw [mkHex_link] at hlk
      exact absurd hlk (by simp)

/-! Stage-level preservation of the invariant, and the walk-window
bookkeeping of the ring loop. -/

theorem linkIfL_SpiralInv (cnd : Prop) [Decidable cnd] (o : Option Nat) (a : Nat) (dir : Dir)
    (n : Nat) (s : List Hex) (hinv : SpiralInv n s)
    (hok : cnd → ∀ p, o = some p → a < n ∧ p < n ∧
      (spiralCoord p).1 = (spiralCoord a).1 + (Dir.delta dir).1 ∧
      (spiralCoord p).2 = (spiralCoord a).2 + (Dir.delta dir).2) :
    SpiralInv n (linkIfL cnd o a dir s) := by
  unfold linkIfL
  split
  · next hcnd =>
    cases ho : o with
    | none => exact hinv
    | some p =>
      obtain ⟨h1, h2, h3, h4⟩ := hok hcnd p ho
      exact setBoth_SpiralInv n s a p dir hinv h1 h2 ⟨h3, h4⟩
  · exact hinv

theorem linkEitherL_SpiralInv (cnd : Prop) [Decidable cnd] (dt df : Dir) (a b : Nat)
    (n : Nat) (s : List Hex) (hinv : SpiralInv n s)
    (ht : cnd → a < n ∧ b < n ∧
      (spiralCoord b).1 = (spiralCoord a).1 + (Dir.delta dt).1 ∧
      (spiralCoord b).2 = (spiralCoord a).2 + (Dir.delta dt).2)
    (hf : ¬cnd → a < n ∧ b < n ∧
      (spiralCoord b).1 = (spiralCoord a).1 + (Dir.delta df).1 ∧
      (spiralCoord b).2 = (spiralCoord a).2 + (Dir.delta df).2) :
    SpiralInv n (linkEitherL cnd dt df a b s) := by
  unfold linkEitherL
  split
  · next hcnd =>
    obtain ⟨h1, h2, h3, h4⟩ := ht hcnd
    exact setBoth_SpiralInv n s a b dt hinv h1 h2 ⟨h3, h4⟩
  · next hcnd =>
    obtain ⟨h1, h2, h3, h4⟩ := hf hcnd
    exact setBoth_SpiralInv n s a b df hinv h1 h2 ⟨h3, h4⟩

theorem gSite3L_SpiralInv (j wmax : Int) (pr : List Nat) (a : Nat)
    (n : Nat) (s : List Hex) (hinv : SpiralInv n s)
    (heq : j = wmax → ∀ p, pr[0]? = some p → a < n ∧ p < n ∧
      (spiralCoord p).1 = (spiralCoord a).1 + (Dir.delta .ne).1 ∧
      (spiralCoord p).2 = (spiralCoord a).2 + (Dir.delta .ne).2)
    (hlt : j ≠ wmax → j < wmax → ∀ p, prIdx pr j = some p → a < n ∧ p < n ∧
      (spiralCoord p).1 = (spiralCoord a).1 + (Dir.delta .ne).1 ∧
      (spiralCoord p).2 = (spiralCoord a).2 + (Dir.delta .ne).2) :
    SpiralInv n (gSite3L j wmax pr a s) := by
  unfold gSite3L
  split_ifs with h1 h2
  · cases ho : pr[0]? with
    | none => exact hinv
    | some p =>
      obtain ⟨g1, g2, g3, g4⟩ := heq h1 p ho
      exact setBoth_SpiralInv n s a p .ne hinv g1 g2 ⟨g3, g4⟩
  · cases ho : prIdx pr j with
    | none => exact hinv
    | some p =>
      obtain ⟨g1, g2, g3, g4⟩ := hlt h1 h2 p ho
      exact setBoth_SpiralInv n s a p .ne hinv g1 g2 ⟨g3, g4⟩
  · exact hinv

theorem prIdx_range' (b l : Nat) (j : Int) :
    prIdx (List.range' b l) j = if 0 ≤ j ∧ j.toNat < l then some (b + j.toNat) else none := by
  unfold prIdx
  by_cases h1 : j < 0
  · rw [if_pos h1, if_neg (by omega)]
  · rw [if_neg h1]
    by_cases h2 : j.toNat < l
    · rw [if_pos ⟨by omega, h2⟩, List.getElem?_range' _ _ h2, Nat.one_mul]
    · rw [if_neg (fun hc => h2 hc.2), List.getElem?_eq_none (by simpa using h2)]

theorem prIdx_single (j : Int) : prIdx [0] j = if j = 0 then some 0 else none := by
  unfold prIdx
  by_cases h1 : j < 0
  · rw [if_pos h1, if_neg (by omega)]
  · rw [if_neg h1]
    by_cases h2 : j = 0
    · rw [if_pos h2, h2]; rfl
    · rw [if_neg h2, List.getElem?_eq_none (by simp; omega)]

/-- Walk-window upper bound for walk `w` of ring `k` (ring 1 keeps the
initial window). -/
def wmaxOf (k w : Nat) : Int := if k = 1 then 1 else ((w : Int) + 1) * ((k : Int) - 1)

/-- The previous ring's cell ids, in walk order. -/
def prevRingIds (k : Nat) : List Nat :=
  if k = 1 then [0] else List.range' (ringBase (k - 1)) (6 * (k - 1))

/-- The walk position at in-ring index `m` (after `m` cells of ring `k`
have been emplaced); after the last cell the position sits one row above
the ring's first cell. -/
def posAt (k m : Nat) : Int × Int :=
  if m < 6 * k then ringCoord k m else (-(k : Int), (k : Int))

/-- The loop invariant inside walk `w` of ring `k`, before emplacing the
walk's cell `i`. -/
structure WalkInv (k w i : Nat) (st : InitState) : Prop where
  hvi : st.vi = ringBase k + (w * k + i)
  hpos : (st.ri, st.gi) = posAt k (w * k + i)
  hws : st.walkstart = (w : Int) * ((k : Int) - 1)
  hwmin : st.walkmin = (w : Int) * ((k : Int) - 1) - 1
  hwmax : st.walkmax = wmaxOf k w
  hwinc : st.walkinc = (k : Int) - 1
  hsl : st.ringSideLen = k
  hnum : st.numInRing = 6 * k
  hpr : st.prevRing = prevRingIds k
  hnpr : st.nextPrevRing = List.range' (ringBase k) (w * k + i)
  hinv : SpiralInv (ringBase k + (w * k + i)) st.hexen

/-! The coordinate identities behind every link the six walks create:
in-ring steps, walk-transition steps, the two previous-ring sites, and
the "g" walk's closing and wrap-around links. -/

theorem rc0_in (k i : Nat) (hk : 1 ≤ k) (hi1 : 1 ≤ i) (hi : i < k) :
    ringCoord k (i - 1) = ((ringCoord k i).1 - 1, (ringCoord k i).2) := by
  unfold ringCoord
  split_ifs <;> simp only [Prod.mk.injEq, and_true, true_and] <;> omega

theorem rc0_s2 (k i : Nat) (hk : 2 ≤ k) (hi1 : 1 ≤ i) (hi : i < k) :
    ringCoord (k - 1) (i - 1) = ((ringCoord k i).1, (ringCoord k i).2 - 1) := by
  unfold ringCoord
  split_ifs <;> simp only [Prod.mk.injEq, and_true, true_and] <;> omega

theorem rc0_s3 (k i : Nat) (hk : 2 ≤ k) (hi : i < k) :
    ringCoord (k - 1) i = ((ringCoord k i).1 + 1, (ringCoord k i).2 - 1) := by
  unfold ringCoord
  split_ifs <;> simp only [Prod.mk.injEq, and_true, true_and] <;> omega

theorem rc1_in (k i : Nat) (hk : 1 ≤ k) (hi1 : 1 ≤ i) (hi : i < k) :
    ringCoord k (k + i - 1) = ((ringCoord k (k + i)).1 - 1, (ringCoord k (k + i)).2 + 1) := by
  unfold ringCoord
  split_ifs <;> simp only [Prod.mk.injEq, and_true, true_and] <;> omega

theorem rc1_first (k : Nat) (hk : 1 ≤ k) :
    ringCoord k (k - 1) = ((ringCoord k k).1 - 1, (ringCoord k k).2) := by
  unfold ringCoord
  split_ifs <;> simp only [Prod.mk.injEq, and_true, true_and] <;> omega

theorem rc1_s2 (k i : Nat) (hk : 2 ≤ k) (hi1 : 1 ≤ i) (hi : i < k) :
    ringCoord (k - 1) ((k - 1) + i - 1) =
      ((ringCoord k (k + i)).1 - 1, (ringCoord k (k + i)).2) := by
  unfold ringCoord
  split_ifs <;> simp only [Prod.mk.injEq, and_true, true_and] <;> omega

theorem rc1_s3 (k i : Nat) (hk : 2 ≤ k) (hi : i < k) :
    ringCoord (k - 1) ((k - 1) + i) =
      ((ringCoord k (k + i)).1, (ringCoord k (k + i)).2 - 1) := by
  unfold ringCoord
  split_ifs <;> simp only [Prod.mk.injEq, and_true, true_and] <;> omega

theorem rc2_in (k i : Nat) (hk : 1 ≤ k) (hi1 : 1 ≤ i) (hi : i < k) :
    ringCoord k (2 * k + i - 1) =
      ((ringCoord k (2 * k + i)).1, (ringCoord k (2 * k + i)).2 + 1) := by
  unfold ringCoord
  split_ifs <;> simp only [Prod.mk.injEq, and_true, true_and] <;> omega

theorem rc2_first (k : Nat) (hk : 1 ≤ k) :
    ringCoord k (2 * k - 1) = ((ringCoord k (2 * k)).1 - 1, (ringCoord k (2 * k)).2 + 1) := by
  unfold ringCoord
  split_ifs <;> simp only [Prod.mk.injEq, and_true, true_and] <;> omega

theorem rc2_s2 (k i : Nat) (hk : 2 ≤ k) (hi1 : 1 ≤ i) (hi : i < k) :
    ringCoord (k - 1) (2 * (k - 1) + i - 1) =
      ((ringCoord k (2 * k + i)).1 - 1, (ringCoord k (2 * k + i)).2 + 1) := by
  unfold ringCoord
  split_ifs <;> simp only [Prod.mk.injEq, and_true, true_and] <;> omega

theorem rc2_s3 (k i : Nat) (hk : 2 ≤ k) (hi : i < k) :
    ringCoord (k - 1) (2 * (k - 1) + i) =
      ((ringCoord k (2 * k + i)).1 - 1, (ringCoord k (2 * k + i)).2) := by
  unfold ringCoord
  split_ifs <;> simp only [Prod.mk.injEq, and_true, true_and] <;> omega

theorem rc3_in (k i : Nat) (hk : 1 ≤ k) (hi1 : 1 ≤ i) (hi : i < k) :
    ringCoord k (3 * k + i - 1) =
      ((ringCoord k (3 * k + i)).1 + 1, (ringCoord k (3 * k + i)).2) := by
  unfold ringCoord
  split_ifs <;> simp only [Prod.mk.injEq, and_true, true_and] <;> omega

theorem rc3_first (k : Nat) (hk : 1 ≤ k) :
    ringCoord k (3 * k - 1) = ((ringCoord k (3 * k)).1, (ringCoord k (3 * k)).2 + 1) := by
  unfold ringCoord
  split_ifs <;> simp only [Prod.mk.injEq, and_true, true_and] <;> omega

theorem rc3_s2 (k i : Nat) (hk : 2 ≤ k) (hi1 : 1 ≤ i) (hi : i < k) :
    ringCoord (k - 1) (3 * (k - 1) + i - 1) =
      ((ringCoord k (3 * k + i)).1, (ringCoord k (3 * k + i)).2 + 1) := by
  unfold ringCoord
  split_ifs <;> simp only [Prod.mk.injEq, and_true, true_and] <;> omega

theorem rc3_s3 (k i : Nat) (hk : 2 ≤ k) (hi : i < k) :
    ringCoord (k - 1) (3 * (k - 1) + i) =
      ((ringCoord k (3 * k + i)).1 - 1, (ringCoord k (3 * k + i)).2 + 1) := by
  unfold ringCoord
  split_ifs <;> simp only [Prod.mk.injEq, and_true, true_and] <;> omega

theorem rc4_in (k i : Nat) (hk : 1 ≤ k) (hi1 : 1 ≤ i) (hi : i < k) :
    ringCoord k (4 * k + i - 1) =
      ((ringCoord k (4 * k + i)).1 + 1, (ringCoord k (4 * k + i)).2 - 1) := by
  unfold ringCoord
  split_ifs <;> simp only [Prod.mk.injEq, and_true, true_and] <;> omega

theorem rc4_first (k : Nat) (hk : 1 ≤ k) :
    ringCoord k (4 * k - 1) = ((ringCoord k (4 * k)).1 + 1, (ringCoord k (4 * k)).2) := by
  unfold ringCoord
  split_ifs <;> simp only [Prod.mk.injEq, and_true, true_and] <;> omega

theorem rc4_s2 (k i : Nat) (hk : 2 ≤ k) (hi1 : 1 ≤ i) (hi : i < k) :
    ringCoord (k - 1) (4 * (k - 1) + i - 1) =
      ((ringCoord k (4 * k + i)).1 + 1, (ringCoord k (4 * k + i)).2) := by
  unfold ringCoord
  split_ifs <;> simp only [Prod.mk.injEq, and_true, true_and] <;> omega

theorem rc4_s3 (k i : Nat) (hk : 2 ≤ k) (hi : i < k) :
    ringCoord (k - 1) (4 * (k - 1) + i) =
      ((ringCoord k (4 * k + i)).1, (ringCoord k (4 * k + i)).2 + 1) := by
  unfold ringCoord
  split_ifs <;> simp only [Prod.mk.injEq, and_true, true_and] <;> omega

theorem rc5_in (k i : Nat) (hk : 1 ≤ k) (hi1 : 1 ≤ i) (hi : i < k) :
    ringCoord k (5 * k + i - 1) =
      ((ringCoord k (5 * k + i)).1, (ringCoord k (5 * k + i)).2 - 1) := by
  unfold ringCoord
  split_ifs <;> simp only [Prod.mk.injEq, and_true, true_and] <;> omega

theorem rc5_first (k : Nat) (hk : 1 ≤ k) :
    ringCoord k (5 * k - 1) = ((ringCoord k (5 * k)).1 + 1, (ringCoord k (5 * k)).2 - 1) := by
  unfold ringCoord
  split_ifs <;> simp only [Prod.mk.injEq, and_true, true_and] <;> omega

theorem rc5_s2 (k i : Nat) (hk : 2 ≤ k) (hi1 : 1 ≤ i) (hi : i < k) :
    ringCoord (k - 1) (5 * (k - 1) + i - 1) =
      ((ringCoord k (5 * k + i)).1 + 1, (ringCoord k (5 * k + i)).2 - 1) := by
  unfold ringCoord
  split_ifs <;> simp only [Prod.mk.injEq, and_true, true_and] <;> omega

theorem rc5_s3lt (k i : Nat) (hk : 2 ≤ k) (hi : i < k - 1) :
    ringCoord (k - 1) (5 * (k - 1) + i) =
      ((ringCoord k (5 * k + i)).1 + 1, (ringCoord k (5 * k + i)).2) := by
  unfold ringCoord
  split_ifs <;> simp only [Prod.mk.injEq, and_true, true_and] <;> omega

theorem rc5_s3wrap (k : Nat) (hk : 2 ≤ k) :
    ringCoord (k - 1) 0 =
      ((ringCoord k (6 * k - 1)).1 + 1, (ringCoord k (6 * k - 1)).2) := by
  unfold ringCoord
  split_ifs <;> simp only [Prod.mk.injEq, and_true, true_and] <;> omega

theorem rc5_close (k : Nat) (hk : 1 ≤ k) :
    ringCoord k 0 = ((ringCoord k (6 * k - 1)).1, (ringCoord k (6 * k - 1)).2 + 1) := by
  unfold ringCoord
  split_ifs <;> simp only [Prod.mk.injEq, and_true, true_and] <;> omega


/-! Field-level descriptions of the six walk-step functions. -/

theorem rWalkStep_vi (st : InitState) (i : Nat) : (rWalkStep st i).vi = st.vi + 1 := by
  simp [rWalkStep, pushNPR, emplaceStep]

theorem rWalkStep_ri (st : InitState) (i : Nat) : (rWalkStep st i).ri = st.ri + 1 := by
  simp [rWalkStep, pushNPR, emplaceStep]

theorem rWalkStep_gi (st : InitState) (i : Nat) : (rWalkStep st i).gi = st.gi := by
  simp [rWalkStep, pushNPR, emplaceStep]

theorem rWalkStep_npr (st : InitState) (i : Nat) :
    (rWalkStep st i).nextPrevRing = st.nextPrevRing ++ [st.vi] := by
  simp [rWalkStep, pushNPR, emplaceStep]

theorem rWalkStep_walkstart (st : InitState) (i : Nat) : (rWalkStep st i).walkstart = st.walkstart := by
  simp [rWalkStep, pushNPR, emplaceStep]

theorem rWalkStep_walkinc (st : InitState) (i : Nat) : (rWalkStep st i).walkinc = st.walkinc := by
  simp [rWalkStep, pushNPR, emplaceStep]

theorem rWalkStep_walkmin (st : InitState) (i : Nat) : (rWalkStep st i).walkmin = st.walkmin := by
  simp [rWalkStep, pushNPR, emplaceStep]

theorem rWalkStep_walkmax (st : InitState) (i : Nat) : (rWalkStep st i).walkmax = st.walkmax := by
  simp [rWalkStep, pushNPR, emplaceStep]

theorem rWalkStep_numInRing (st : InitState) (i : Nat) : (rWalkStep st i).numInRing = st.numInRing := by
  simp [rWalkStep, pushNPR, emplaceStep]

theorem rWalkStep_ringSideLen (st : InitState) (i : Nat) : (rWalkStep st i).ringSideLen = st.ringSideLen := by
  simp [rWalkStep, pushNPR, emplaceStep]

theorem rWalkStep_prevRing (st : InitState) (i : Nat) : (rWalkStep st i).prevRing = st.prevRing := by
  simp [rWalkStep, pushNPR, emplaceStep]

theorem rWalkStep_hexen (st : InitState) (i : Nat) :
    (rWalkStep st i).hexen =
      linkIfL (st.walkstart + (i : Int) - 1 + 1 ≤ st.walkmax)
        (prIdx st.prevRing (st.walkstart + (i : Int) - 1 + 1)) st.vi .nse
        (linkIfL (st.walkmin < st.walkstart + (i : Int) - 1 ∧
                  st.walkstart + (i : Int) - 1 < st.walkmax)
          (prIdx st.prevRing (st.walkstart + (i : Int) - 1)) st.vi .nsw
          (linkIfL (0 < i) (some (st.vi - 1)) st.vi .nw
            (st.hexen ++ [mkHex st.vi st.ri st.gi]))) := by
  simp [rWalkStep, pushNPR, emplaceStep]

theorem mbWalkStep_vi (st : InitState) (i : Nat) : (mbWalkStep st i).vi = st.vi + 1 := by
  simp [mbWalkStep, pushNPR, emplaceStep]

theorem mbWalkStep_ri (st : InitState) (i : Nat) : (mbWalkStep st i).ri = st.ri + 1 := by
  simp [mbWalkStep, pushNPR, emplaceStep]

theorem mbWalkStep_gi (st : InitState) (i : Nat) : (mbWalkStep st i).gi = st.gi + (-1) := by
  simp [mbWalkStep, pushNPR, emplaceStep]

theorem mbWalkStep_npr (st : InitState) (i : Nat) :
    (mbWalkStep st i).nextPrevRing = st.nextPrevRing ++ [st.vi] := by
  simp [mbWalkStep, pushNPR, emplaceStep]

theorem mbWalkStep_walkstart (st : InitState) (i : Nat) : (mbWalkStep st i).walkstart = st.walkstart := by
  simp [mbWalkStep, pushNPR, emplaceStep]

theorem mbWalkStep_walkinc (st : InitState) (i : Nat) : (mbWalkStep st i).walkinc = st.walkinc := by
  simp [mbWalkStep, pushNPR, emplaceStep]

theorem mbWalkStep_walkmin (st : InitState) (i : Nat) : (mbWalkStep st i).walkmin = st.walkmin := by
  simp [mbWalkStep, pushNPR, emplaceStep]

theorem mbWalkStep_walkmax (st : InitState) (i : Nat) : (mbWalkStep st i).walkmax = st.walkmax := by
  simp [mbWalkStep, pushNPR, emplaceStep]

theorem mbWalkStep_numInRing (st : InitState) (i : Nat) : (mbWalkStep st i).numInRing = st.numInRing := by
  simp [mbWalkStep, pushNPR, emplaceStep]

theorem mbWalkStep_ringSideLen (st : InitState) (i : Nat) : (mbWalkStep st i).ringSideLen = st.ringSideLen := by
  simp [mbWalkStep, pushNPR, emplaceStep]

theorem mbWalkStep_prevRing (st : InitState) (i : Nat) : (mbWalkStep st i).prevRing = st.prevRing := by
  simp [mbWalkStep, pushNPR, emplaceStep]

theorem mbWalkStep_hexen (st : InitState) (i : Nat) :
    (mbWalkStep st i).hexen =
      linkIfL (st.walkstart + (i : Int) - 1 + 1 ≤ st.walkmax)
        (prIdx st.prevRing (st.walkstart + (i : Int) - 1 + 1)) st.vi .nsw
        (linkIfL (st.walkmin < st.walkstart + (i : Int) - 1 ∧
                  st.walkstart + (i : Int) - 1 < st.walkmax)
          (prIdx st.prevRing (st.walkstart + (i : Int) - 1)) st.vi .nw
          (linkEitherL (0 < i) .nnw .nw st.vi (st.vi - 1)
            (st.hexen ++ [mkHex st.vi st.ri st.gi]))) := by
  simp [mbWalkStep, pushNPR, emplaceStep]

theorem mgWalkStep_vi (st : InitState) (i : Nat) : (mgWalkStep st i).vi = st.vi + 1 := by
  simp [mgWalkStep, pushNPR, emplaceStep]

theorem mgWalkStep_ri (st : InitState) (i : Nat) : (mgWalkStep st i).ri = st.ri := by
  simp [mgWalkStep, pushNPR, emplaceStep]

theorem mgWalkStep_gi (st : InitState) (i : Nat) : (mgWalkStep st i).gi = st.gi + (-1) := by
  simp [mgWalkStep, pushNPR, emplaceStep]

theorem mgWalkStep_npr (st : InitState) (i : Nat) :
    (mgWalkStep st i).nextPrevRing = st.nextPrevRing ++ [st.vi] := by
  simp [mgWalkStep, pushNPR, emplaceStep]

theorem mgWalkStep_walkstart (st : InitState) (i : Nat) : (mgWalkStep st i).walkstart = st.walkstart := by
  simp [mgWalkStep, pushNPR, emplaceStep]

theorem mgWalkStep_walkinc (st : InitState) (i : Nat) : (mgWalkStep st i).walkinc = st.walkinc := by
  simp [mgWalkStep, pushNPR, emplaceStep]

theorem mgWalkStep_walkmin (st : InitState) (i : Nat) : (mgWalkStep st i).walkmin = st.walkmin := by
  simp [mgWalkStep, pushNPR, emplaceStep]

theorem mgWalkStep_walkmax (st : InitState) (i : Nat) : (mgWalkStep st i).walkmax = st.walkmax := by
  simp [mgWalkStep, pushNPR, emplaceStep]

theorem mgWalkStep_numInRing (st : InitState) (i : Nat) : (mgWalkStep st i).numInRing = st.numInRing := by
  simp [mgWalkStep, pushNPR, emplaceStep]

theorem mgWalkStep_ringSideLen (st : InitState) (i : Nat) : (mgWalkStep st i).ringSideLen = st.ringSideLen := by
  simp [mgWalkStep, pushNPR, emplaceStep]

theorem mgWalkStep_prevRing (st : InitState) (i : Nat) : (mgWalkStep st i).prevRing = st.prevRing := by
  simp [mgWalkStep, pushNPR, emplaceStep]

theorem mgWalkStep_hexen (st : InitState) (i : Nat) :
    (mgWalkStep st i).hexen =
      linkIfL (st.walkstart + (i : Int) - 1 + 1 ≤ st.walkmax)
        (prIdx st.prevRing (st.walkstart + (i : Int) - 1 + 1)) st.vi .nw
        (linkIfL (st.walkmin < st.walkstart + (i : Int) - 1 ∧
                  st.walkstart + (i : Int) - 1 < st.walkmax)
          (prIdx st.prevRing (st.walkstart + (i : Int) - 1)) st.vi .nnw
          (linkEitherL (0 < i) .nne .nnw st.vi (st.vi - 1)
            (st.hexen ++ [mkHex st.vi st.ri st.gi]))) := by
  simp [mgWalkStep, pushNPR, emplaceStep]

theorem mrWalkStep_vi (st : InitState) (i : Nat) : (mrWalkStep st i).vi = st.vi + 1 := by
  simp [mrWalkStep, pushNPR, emplaceStep]

theorem mrWalkStep_ri (st : InitState) (i : Nat) : (mrWalkStep st i).ri = st.ri + (-1) := by
  simp [mrWalkStep, pushNPR, emplaceStep]

theorem mrWalkStep_gi (st : InitState) (i : Nat) : (mrWalkStep st i).gi = st.gi := by
  simp [mrWalkStep, pushNPR, emplaceStep]

theorem mrWalkStep_npr (st : InitState) (i : Nat) :
    (mrWalkStep st i).nextPrevRing = st.nextPrevRing ++ [st.vi] := by
  simp [mrWalkStep, pushNPR, emplaceStep]

theorem mrWalkStep_walkstart (st : InitState) (i : Nat) : (mrWalkStep st i).walkstart = st.walkstart := by
  simp [mrWalkStep, pushNPR, emplaceStep]

theorem mrWalkStep_walkinc (st : InitState) (i : Nat) : (mrWalkStep st i).walkinc = st.walkinc := by
  simp [mrWalkStep, pushNPR, emplaceStep]

theorem mrWalkStep_walkmin (st : InitState) (i : Nat) : (mrWalkStep st i).walkmin = st.walkmin := by
  simp [mrWalkStep, pushNPR, emplaceStep]

theorem mrWalkStep_walkmax (st : InitState) (i : Nat) : (mrWalkStep st i).walkmax = st.walkmax := by
  simp [mrWalkStep, pushNPR, emplaceStep]

theorem mrWalkStep_numInRing (st : InitState) (i : Nat) : (mrWalkStep st i).numInRing = st.numInRing := by
  simp [mrWalkStep, pushNPR, emplaceStep]

theorem mrWalkStep_ringSideLen (st : InitState) (i : Nat) : (mrWalkStep st i).ringSideLen = st.ringSideLen := by
  simp [mrWalkStep, pushNPR, emplaceStep]

theorem mrWalkStep_prevRing (st : InitState) (i : Nat) : (mrWalkStep st i).prevRing = st.prevRing := by
  simp [mrWalkStep, pushNPR, emplaceStep]

theorem mrWalkStep_hexen (st : InitState) (i : Nat) :
    (mrWalkStep st i).hexen =
      linkIfL (st.walkstart + (i : Int) - 1 + 1 ≤ st.walkmax)
        (prIdx st.prevRing (st.walkstart + (i : Int) - 1 + 1)) st.vi .nnw
        (linkIfL (st.walkmin < st.walkstart + (i : Int) - 1 ∧
                  st.walkstart + (i : Int) - 1 < st.walkmax)
          (prIdx st.prevRing (st.walkstart + (i : Int) - 1)) st.vi .nne
          (linkEitherL (0 < i) .ne .nne st.vi (st.vi - 1)
            (st.hexen ++ [mkHex st.vi st.ri st.gi]))) := by
  simp [mrWalkStep, pushNPR, emplaceStep]

theorem bWalkStep_vi (st : InitState) (i : Nat) : (bWalkStep st i).vi = st.vi + 1 := by
  simp [bWalkStep, pushNPR, emplaceStep]

theorem bWalkStep_ri (st : InitState) (i : Nat) : (bWalkStep st i).ri = st.ri + (-1) := by
  simp [bWalkStep, pushNPR, emplaceStep]

theorem bWalkStep_gi (st : InitState) (i : Nat) : (bWalkStep st i).gi = st.gi + 1 := by
  simp [bWalkStep, pushNPR, emplaceStep]

theorem bWalkStep_npr (st : InitState) (i : Nat) :
    (bWalkStep st i).nextPrevRing = st.nextPrevRing ++ [st.vi] := by
  simp [bWalkStep, pushNPR, emplaceStep]

theorem bWalkStep_walkstart (st : InitState) (i : Nat) : (bWalkStep st i).walkstart = st.walkstart := by
  simp [bWalkStep, pushNPR, emplaceStep]

theorem bWalkStep_walkinc (st : InitState) (i : Nat) : (bWalkStep st i).walkinc = st.walkinc := by
  simp [bWalkStep, pushNPR, emplaceStep]

theorem bWalkStep_walkmin (st : InitState) (i : Nat) : (bWalkStep st i).walkmin = st.walkmin := by
  simp [bWalkStep, pushNPR, emplaceStep]

theorem bWalkStep_walkmax (st : InitState) (i : Nat) : (bWalkStep st i).walkmax = st.walkmax := by
  simp [bWalkStep, pushNPR, emplaceStep]

theorem bWalkStep_numInRing (st : InitState) (i : Nat) : (bWalkStep st i).numInRing = st.numInRing := by
  simp [bWalkStep, pushNPR, emplaceStep]

theorem bWalkStep_ringSideLen (st : InitState) (i : Nat) : (bWalkStep st i).ringSideLen = st.ringSideLen := by
  simp [bWalkStep, pushNPR, emplaceStep]

theorem bWalkStep_prevRing (st : InitState) (i : Nat) : (bWalkStep st i).prevRing = st.prevRing := by
  simp [bWalkStep, pushNPR, emplaceStep]

theorem bWalkStep_hexen (st : InitState) (i : Nat) :
    (bWalkStep st i).hexen =
      linkIfL (st.walkstart + (i : Int) - 1 + 1 ≤ st.walkmax)
        (prIdx st.prevRing (st.walkstart + (i : Int) - 1 + 1)) st.vi .nne
        (linkIfL (st.walkmin < st.walkstart + (i : Int) - 1 ∧
                  st.walkstart + (i : Int) - 1 < st.walkmax)
          (prIdx st.prevRing (st.walkstart + (i : Int) - 1)) st.vi .ne
          (linkEitherL (0 < i) .nse .ne st.vi (st.vi - 1)
            (st.hexen ++ [mkHex st.vi st.ri st.gi]))) := by
  simp [bWalkStep, pushNPR, emplaceStep]

theorem gWalkStep_vi (st : InitState) (i : Nat) : (gWalkStep st i).vi = st.vi + 1 := by
  simp [gWalkStep, pushNPR, emplaceStep]

theorem gWalkStep_ri (st : InitState) (i : Nat) : (gWalkStep st i).ri = st.ri := by
  simp [gWalkStep, pushNPR, emplaceStep]

theorem gWalkStep_gi (st : InitState) (i : Nat) : (gWalkStep st i).gi = st.gi + 1 := by
  simp [gWalkStep, pushNPR, emplaceStep]

theorem gWalkStep_npr (st : InitState) (i : Nat) :
    (gWalkStep st i).nextPrevRing = st.nextPrevRing ++ [st.vi] := by
  simp [gWalkStep, pushNPR, emplaceStep]

theorem gWalkStep_walkstart (st : InitState) (i : Nat) : (gWalkStep st i).walkstart = st.walkstart := by
  simp [gWalkStep, pushNPR, emplaceStep]

theorem gWalkStep_walkinc (st : InitState) (i : Nat) : (gWalkStep st i).walkinc = st.walkinc := by
  simp [gWalkStep, pushNPR, emplaceStep]

theorem gWalkStep_walkmin (st : InitState) (i : Nat) : (gWalkStep st i).walkmin = st.walkmin := by
  simp [gWalkStep, pushNPR, emplaceStep]

theorem gWalkStep_walkmax (st : InitState) (i : Nat) : (gWalkStep st i).walkmax = st.walkmax := by
  simp [gWalkStep, pushNPR, emplaceStep]

theorem gWalkStep_numInRing (st : InitState) (i : Nat) : (gWalkStep st i).numInRing = st.numInRing := by
  simp [gWalkStep, pushNPR, emplaceStep]

theorem gWalkStep_ringSideLen (st : InitState) (i : Nat) : (gWalkStep st i).ringSideLen = st.ringSideLen := by
  simp [gWalkStep, pushNPR, emplaceStep]

theorem gWalkStep_prevRing (st : InitState) (i : Nat) : (gWalkStep st i).prevRing = st.prevRing := by
  simp [gWalkStep, pushNPR, emplaceStep]

theorem gWalkStep_hexen (st : InitState) (i : Nat) :
    (gWalkStep st i).hexen =
      gSite3L (st.walkstart + (i : Int) - 1 + 1) st.walkmax st.prevRing st.vi
        (linkIfL (st.walkmin < st.walkstart + (i : Int) - 1 ∧
                  st.walkstart + (i : Int) - 1 < st.walkmax)
          (prIdx st.prevRing (st.walkstart + (i : Int) - 1)) st.vi .nse
          (linkEitherL (0 < i) .nsw .nse st.vi (st.vi - 1)
            (linkIfL (i = st.ringSideLen - 1) st.nextPrevRing[0]? st.vi .nne
              (st.hexen ++ [mkHex st.vi st.ri st.gi])))) := by
  simp [gWalkStep, pushNPR, emplaceStep]

/-! Position advance of each walk, expressed against `posAt`. -/

theorem posAt_step0 (k i : Nat) (hk : 1 ≤ k) (hi : i < k) :
    posAt k (0 * k + (i + 1)) =
      ((ringCoord k (0 * k + i)).1 + 1, (ringCoord k (0 * k + i)).2 + 0) := by
  unfold posAt ringCoord
  split_ifs <;> simp only [Prod.mk.injEq, and_true, true_and, add_zero] <;> omega

theorem posAt_step1 (k i : Nat) (hk : 1 ≤ k) (hi : i < k) :
    posAt k (1 * k + (i + 1)) =
      ((ringCoord k (1 * k + i)).1 + 1, (ringCoord k (1 * k + i)).2 + -1) := by
  unfold posAt ringCoord
  split_ifs <;> simp only [Prod.mk.injEq, and_true, true_and, add_zero] <;> omega

theorem posAt_step2 (k i : Nat) (hk : 1 ≤ k) (hi : i < k) :
    posAt k (2 * k + (i + 1)) =
      ((ringCoord k (2 * k + i)).1 + 0, (ringCoord k (2 * k + i)).2 + -1) := by
  unfold posAt ringCoord
  split_ifs <;> simp only [Prod.mk.injEq, and_true, true_and, add_zero] <;> omega

theorem posAt_step3 (k i : Nat) (hk : 1 ≤ k) (hi : i < k) :
    posAt k (3 * k + (i + 1)) =
      ((ringCoord k (3 * k + i)).1 + -1, (ringCoord k (3 * k + i)).2 + 0) := by
  unfold posAt ringCoord
  split_ifs <;> simp only [Prod.mk.injEq, and_true, true_and, add_zero] <;> omega

theorem posAt_step4 (k i : Nat) (hk : 1 ≤ k) (hi : i < k) :
    posAt k (4 * k + (i + 1)) =
      ((ringCoord k (4 * k + i)).1 + -1, (ringCoord k (4 * k + i)).2 + 1) := by
  unfold posAt ringCoord
  split_ifs <;> simp only [Prod.mk.injEq, and_true, true_and, add_zero] <;> omega

theorem posAt_step5 (k i : Nat) (hk : 1 ≤ k) (hi : i < k) :
    posAt k (5 * k + (i + 1)) =
      ((ringCoord k (5 * k + i)).1 + 0, (ringCoord k (5 * k + i)).2 + 1) := by
  unfold posAt ringCoord
  split_ifs <;> simp only [Prod.mk.injEq, and_true, true_and, add_zero] <;> omega

theorem prIdx_range'_inv (b l : Nat) (j : Int) (p : Nat)
    (hp : prIdx (List.range' b l) j = some p) :
    0 ≤ j ∧ j.toNat < l ∧ p = b + j.toNat := by
  rw [prIdx_range'] at hp
  split at hp
  · next hc =>
    injection hp with hp
    exact ⟨hc.1, hc.2, hp.symm⟩
  · exact absurd hp (by simp)

theorem rWalkStep_inv (k i : Nat) (hk : 1 ≤ k) (hi : i < k) (st : InitState)
    (hw : WalkInv k 0 i st) : WalkInv k 0 (i + 1) (rWalkStep st i) := by
  obtain ⟨hvi, hpos, hws, hwmin, hwmax, hwinc, hsl, hnum, hpr, hnpr, hinv⟩ := hw
  simp only [Nat.zero_mul, Nat.zero_add] at hvi hpos hnpr hinv
  have hlt6 : i < 6 * k := by omega
  have hpos' : (st.ri, st.gi) = ringCoord k i := by
    rw [hpos]; unfold posAt; rw [if_pos hlt6]
  refine ⟨?_, ?_, ?_, ?_, ?_, ?_, ?_, ?_, ?_, ?_, ?_⟩
  · simp only [Nat.zero_mul, Nat.zero_add]
    rw [rWalkStep_vi, hvi]
    omega
  · simp only [Nat.zero_mul, Nat.zero_add]
    have hstep := posAt_step0 k i hk hi
    simp only [Nat.zero_mul, Nat.zero_add] at hstep
    rw [rWalkStep_ri, rWalkStep_gi, hstep]
    rw [Prod.ext_iff] at hpos' ⊢
    obtain ⟨h1, h2⟩ := hpos'
    constructor
    · dsimp only
      omega
    · dsimp only
      omega
  · rw [rWalkStep_walkstart, hws]
  · rw [rWalkStep_walkmin, hwmin]
  · rw [rWalkStep_walkmax, hwmax]
  · rw [rWalkStep_walkinc, hwinc]
  · rw [rWalkStep_ringSideLen, hsl]
  · rw [rWalkStep_numInRing, hnum]
  · rw [rWalkStep_prevRing, hpr]
  · simp only [Nat.zero_mul, Nat.zero_add]
    rw [rWalkStep_npr, hnpr, hvi, List.range'_concat]
    simp
  · simp only [Nat.zero_mul, Nat.zero_add]
    rw [rWalkStep_hexen, hws, hwmin, hwmax, hpr, hvi]
    rw [show ringBase k + (i + 1) = (ringBase k + i) + 1 from by omega]
    apply linkIfL_SpiralInv
    · apply linkIfL_SpiralInv
      · apply linkIfL_SpiralInv
        · exact append_SpiralInv _ _ hinv st.ri st.gi
            (by rw [spiralCoord_ring k i hk hlt6]; exact hpos')
        · intro hip p hp
          injection hp with hp
          subst hp
          have e1 : ringBase k + i - 1 = ringBase k + (i - 1) := by omega
          have hrc := rc0_in k i hk hip hi
          refine ⟨by omega, by omega, ?_, ?_⟩
          · rw [e1, spiralCoord_ring k (i - 1) hk (by omega),
              spiralCoord_ring k i hk hlt6, hrc]
            try dsimp only [Dir.delta]
            try omega
          · rw [e1, spiralCoord_ring k (i - 1) hk (by omega),
              spiralCoord_ring k i hk hlt6, hrc]
            try dsimp only [Dir.delta]
            try omega
      · intro hc p hp
        obtain ⟨hc1, hc2⟩ := hc
        by_cases hk1 : k = 1
        · exfalso
          omega
        · have hk2 : 2 ≤ k := by omega
          have hi1 : 1 ≤ i := by omega
          rw [prevRingIds, if_neg hk1] at hp
          obtain ⟨hge, hltl, hpv⟩ := prIdx_range'_inv _ _ _ _ hp
          have hpv' : p = ringBase (k - 1) + (i - 1) := by omega
          subst hpv'
          have hbs := ringBase_succ (k - 1)
          rw [show k - 1 + 1 = k from by omega] at hbs
          refine ⟨by omega, by omega, ?_, ?_⟩
          · rw [spiralCoord_ring (k - 1) (i - 1) (by omega) (by omega),
              spiralCoord_ring k i hk hlt6, rc0_s2 k i hk2 hi1 hi]
            try dsimp only [Dir.delta]
            try omega
          · rw [spiralCoord_ring (k - 1) (i - 1) (by omega) (by omega),
              spiralCoord_ring k i hk hlt6, rc0_s2 k i hk2 hi1 hi]
            try dsimp only [Dir.delta]
            try omega
    · intro hc p hp
      by_cases hk1 : k = 1
      · subst hk1
        have hi0 : i = 0 := by omega
        subst hi0
        rw [prevRingIds, if_pos rfl, prIdx_single, if_pos (by norm_num)] at hp
        injection hp with hp
        subst hp
        refine ⟨by omega, by omega, by decide, by decide⟩
      · have hk2 : 2 ≤ k := by omega
        rw [prevRingIds, if_neg hk1] at hp
        obtain ⟨hge, hltl, hpv⟩ := prIdx_range'_inv _ _ _ _ hp
        have hpv' : p = ringBase (k - 1) + i := by omega
        subst hpv'
        have hbs := ringBase_succ (k - 1)
        rw [show k - 1 + 1 = k from by omega] at hbs
        refine ⟨by omega, by omega, ?_, ?_⟩
        · rw [spiralCoord_ring (k - 1) i (by omega) (by omega),
            spiralCoord_ring k i hk hlt6, rc0_s3 k i hk2 hi]
          try dsimp only [Dir.delta]
          try omega
        · rw [spiralCoord_ring (k - 1) i (by omega) (by omega),
            spiralCoord_ring k i hk hlt6, rc0_s3 k i hk2 hi]
          try dsimp only [Dir.delta]
          try omega

theorem mbWalkStep_inv (k i : Nat) (hk : 1 ≤ k) (hi : i < k) (st : InitState)
    (hw : WalkInv k 1 i st) : WalkInv k 1 (i + 1) (mbWalkStep st i) := by
  obtain ⟨hvi, hpos, hws, hwmin, hwmax, hwinc, hsl, hnum, hpr, hnpr, hinv⟩ := hw
  have hlt6 : 1 * k + i < 6 * k := by omega
  have hpos' : (st.ri, st.gi) = ringCoord k (1 * k + i) := by
    rw [hpos]; unfold posAt; rw [if_pos hlt6]
  refine ⟨?_, ?_, ?_, ?_, ?_, ?_, ?_, ?_, ?_, ?_, ?_⟩
  · rw [mbWalkStep_vi, hvi]
    omega
  · rw [mbWalkStep_ri, mbWalkStep_gi, posAt_step1 k i hk hi]
    rw [Prod.ext_iff] at hpos' ⊢
    obtain ⟨h1, h2⟩ := hpos'
    constructor
    · dsimp only
      omega
    · dsimp only
      omega
  · rw [mbWalkStep_walkstart, hws]
  · rw [mbWalkStep_walkmin, hwmin]
  · rw [mbWalkStep_walkmax, hwmax]
  · rw [mbWalkStep_walkinc, hwinc]
  · rw [mbWalkStep_ringSideLen, hsl]
  · rw [mbWalkStep_numInRing, hnum]
  · rw [mbWalkStep_prevRing, hpr]
  · rw [mbWalkStep_npr, hnpr, hvi]
    rw [show 1 * k + (i + 1) = (1 * k + i) + 1 from by omega, List.range'_concat]
    simp
  · rw [mbWalkStep_hexen, hws, hwmin, hwmax, hpr, hvi]
    rw [show ringBase k + (1 * k + (i + 1)) = (ringBase k + (1 * k + i)) + 1 from by omega]
    apply linkIfL_SpiralInv
    · apply linkIfL_SpiralInv
      · apply linkEitherL_SpiralInv
        · exact append_SpiralInv _ _ hinv st.ri st.gi
            (by rw [spiralCoord_ring k (1 * k + i) hk hlt6]; exact hpos')
        · intro hip
          have e1 : ringBase k + (1 * k + i) - 1 = ringBase k + (k + i - 1) := by omega
          have hrc := rc1_in k i hk hip hi
          refine ⟨by omega, by omega, ?_, ?_⟩
          · rw [e1, spiralCoord_ring k (k + i - 1) hk (by omega),
              spiralCoord_ring k (1 * k + i) hk hlt6, hrc]
            try dsimp only [Dir.delta]
            try simp only [Nat.one_mul]
            try omega
          · rw [e1, spiralCoord_ring k (k + i - 1) hk (by omega),
              spiralCoord_ring k (1 * k + i) hk hlt6, hrc]
            try dsimp only [Dir.delta]
            try simp only [Nat.one_mul]
            try omega
        · intro hip
          have hi0 : i = 0 := by omega
          have e1 : ringBase k + (1 * k + i) - 1 = ringBase k + (k - 1) := by omega
          refine ⟨by omega, by omega, ?_, ?_⟩
          · rw [e1, show 1 * k + i = k from by omega,
              spiralCoord_ring k (k - 1) hk (by omega),
              spiralCoord_ring k (k) hk (by omega), rc1_first k hk]
            try dsimp only [Dir.delta]
            try simp only [Nat.one_mul]
            try omega
          · rw [e1, show 1 * k + i = k from by omega,
              spiralCoord_ring k (k - 1) hk (by omega),
              spiralCoord_ring k (k) hk (by omega), rc1_first k hk]
            try dsimp only [Dir.delta]
            try simp only [Nat.one_mul]
            try omega
      · intro hc p hp
        obtain ⟨hc1, hc2⟩ := hc
        by_cases hk1 : k = 1
        · exfalso
          omega
        · have hk2 : 2 ≤ k := by omega
          have hi1 : 1 ≤ i := by omega
          rw [prevRingIds, if_neg hk1] at hp
          obtain ⟨hge, hltl, hpv⟩ := prIdx_range'_inv _ _ _ _ hp
          have hpv' : p = ringBase (k - 1) + ((k - 1) + i - 1) := by omega
          subst hpv'
          have hbs := ringBase_succ (k - 1)
          rw [show k - 1 + 1 = k from by omega] at hbs
          refine ⟨by omega, by omega, ?_, ?_⟩
          · rw [spiralCoord_ring (k - 1) ((k - 1) + i - 1) (by omega) (by omega),
              spiralCoord_ring k (1 * k + i) hk hlt6, rc1_s2 k i hk2 hi1 hi]
            try dsimp only [Dir.delta]
            try simp only [Nat.one_mul]
            try omega
          · rw [spiralCoord_ring (k - 1) ((k - 1) + i - 1) (by omega) (by omega),
              spiralCoord_ring k (1 * k + i) hk hlt6, rc1_s2 k i hk2 hi1 hi]
            try dsimp only [Dir.delta]
            try simp only [Nat.one_mul]
            try omega
    · intro hc p hp
      by_cases hk1 : k = 1
      · subst hk1
        have hi0 : i = 0 := by omega
        subst hi0
        rw [prevRingIds, if_pos rfl, prIdx_single, if_pos (by norm_num)] at hp
        injection hp with hp
        subst hp
        refine ⟨by omega, by omega, by decide, by decide⟩
      · have hk2 : 2 ≤ k := by omega
        rw [prevRingIds, if_neg hk1] at hp
        obtain ⟨hge, hltl, hpv⟩ := prIdx_range'_inv _ _ _ _ hp
        have hpv' : p = ringBase (k - 1) + ((k - 1) + i) := by omega
        subst hpv'
        have hbs := ringBase_succ (k - 1)
        rw [show k - 1 + 1 = k from by omega] at hbs
        refine ⟨by omega, by omega, ?_, ?_⟩
        · rw [spiralCoord_ring (k - 1) ((k - 1) + i) (by omega) (by omega),
            spiralCoord_ring k (1 * k + i) hk hlt6, rc1_s3 k i hk2 hi]
          try dsimp only [Dir.delta]
          try simp only [Nat.one_mul]
          try omega
        · rw [spiralCoord_ring (k - 1) ((k - 1) + i) (by omega) (by omega),
            spiralCoord_ring k (1 * k + i) hk hlt6, rc1_s3 k i hk2 hi]
          try dsimp only [Dir.delta]
          try simp only [Nat.one_mul]
          try omega

theorem mgWalkStep_inv (k i : Nat) (hk : 1 ≤ k) (hi : i < k) (st : InitState)
    (hw : WalkInv k 2 i st) : WalkInv k 2 (i + 1) (mgWalkStep st i) := by
  obtain ⟨hvi, hpos, hws, hwmin, hwmax, hwinc, hsl, hnum, hpr, hnpr, hinv⟩ := hw
  have hlt6 : 2 * k + i < 6 * k := by omega
  have hpos' : (st.ri, st.gi) = ringCoord k (2 * k + i) := by
    rw [hpos]; unfold posAt; rw [if_pos hlt6]
  refine ⟨?_, ?_, ?_, ?_, ?_, ?_, ?_, ?_, ?_, ?_, ?_⟩
  · rw [mgWalkStep_vi, hvi]
    omega
  · rw [mgWalkStep_ri, mgWalkStep_gi, posAt_step2 k i hk hi]
    rw [Prod.ext_iff] at hpos' ⊢
    obtain ⟨h1, h2⟩ := hpos'
    constructor
    · dsimp only
      omega
    · dsimp only
      omega
  · rw [mgWalkStep_walkstart, hws]
  · rw [mgWalkStep_walkmin, hwmin]
  · rw [mgWalkStep_walkmax, hwmax]
  · rw [mgWalkStep_walkinc, hwinc]
  · rw [mgWalkStep_ringSideLen, hsl]
  · rw [mgWalkStep_numInRing, hnum]
  · rw [mgWalkStep_prevRing, hpr]
  · rw [mgWalkStep_npr, hnpr, hvi]
    rw [show 2 * k + (i + 1) = (2 * k + i) + 1 from by omega, List.range'_concat]
    simp
  · rw [mgWalkStep_hexen, hws, hwmin, hwmax, hpr, hvi]
    rw [show ringBase k + (2 * k + (i + 1)) = (ringBase k + (2 * k + i)) + 1 from by omega]
    apply linkIfL_SpiralInv
    · apply linkIfL_SpiralInv
      · apply linkEitherL_SpiralInv
        · exact append_SpiralInv _ _ hinv st.ri st.gi
            (by rw [spiralCoord_ring k (2 * k + i) hk hlt6]; exact hpos')
        · intro hip
          have e1 : ringBase k + (2 * k + i) - 1 = ringBase k + (2 * k + i - 1) := by omega
          have hrc := rc2_in k i hk hip hi
          refine ⟨by omega, by omega, ?_, ?_⟩
          · rw [e1, spiralCoord_ring k (2 * k + i - 1) hk (by omega),
              spiralCoord_ring k (2 * k + i) hk hlt6, hrc]
            try dsimp only [Dir.delta]
            try omega
          · rw [e1, spiralCoord_ring k (2 * k + i - 1) hk (by omega),
              spiralCoord_ring k (2 * k + i) hk hlt6, hrc]
            try dsimp only [Dir.delta]
            try omega
        · intro hip
          have hi0 : i = 0 := by omega
          have e1 : ringBase k + (2 * k + i) - 1 = ringBase k + (2 * k - 1) := by omega
          refine ⟨by omega, by omega, ?_, ?_⟩
          · rw [e1, show 2 * k + i = 2 * k from by omega,
              spiralCoord_ring k (2 * k - 1) hk (by omega),
              spiralCoord_ring k (2 * k) hk (by omega), rc2_first k hk]
            try dsimp only [Dir.delta]
            try omega
          · rw [e1, show 2 * k + i = 2 * k from by omega,
              spiralCoord_ring k (2 * k - 1) hk (by omega),
              spiralCoord_ring k (2 * k) hk (by omega), rc2_first k hk]
            try dsimp only [Dir.delta]
            try omega
      · intro hc p hp
        obtain ⟨hc1, hc2⟩ := hc
        by_cases hk1 : k = 1
        · exfalso
          omega
        · have hk2 : 2 ≤ k := by omega
          have hi1 : 1 ≤ i := by omega
          rw [prevRingIds, if_neg hk1] at hp
          obtain ⟨hge, hltl, hpv⟩ := prIdx_range'_inv _ _ _ _ hp
          have hpv' : p = ringBase (k - 1) + (2 * (k - 1) + i - 1) := by omega
          subst hpv'
          have hbs := ringBase_succ (k - 1)
          rw [show k - 1 + 1 = k from by omega] at hbs
          refine ⟨by omega, by omega, ?_, ?_⟩
          · rw [spiralCoord_ring (k - 1) (2 * (k - 1) + i - 1) (by omega) (by omega),
              spiralCoord_ring k (2 * k + i) hk hlt6, rc2_s2 k i hk2 hi1 hi]
            try dsimp only [Dir.delta]
            try omega
          · rw [spiralCoord_ring (k - 1) (2 * (k - 1) + i - 1) (by omega) (by omega),
              spiralCoord_ring k (2 * k + i) hk hlt6, rc2_s2 k i hk2 hi1 hi]
            try dsimp only [Dir.delta]
            try omega
    · intro hc p hp
      by_cases hk1 : k = 1
      · subst hk1
        have hi0 : i = 0 := by omega
        subst hi0
        rw [prevRingIds, if_pos rfl, prIdx_single, if_pos (by norm_num)] at hp
        injection hp with hp
        subst hp
        refine ⟨by omega, by omega, by decide, by decide⟩
      · have hk2 : 2 ≤ k := by omega
        rw [prevRingIds, if_neg hk1] at hp
        obtain ⟨hge, hltl, hpv⟩ := prIdx_range'_inv _ _ _ _ hp
        have hpv' : p = ringBase (k - 1) + (2 * (k - 1) + i) := by omega
        subst hpv'
        have hbs := ringBase_succ (k - 1)
        rw [show k - 1 + 1 = k from by omega] at hbs
        refine ⟨by omega, by omega, ?_, ?_⟩
        · rw [spiralCoord_ring (k - 1) (2 * (k - 1) + i) (by omega) (by omega),
            spiralCoord_ring k (2 * k + i) hk hlt6, rc2_s3 k i hk2 hi]
          try dsimp only [Dir.delta]
          try omega
        · rw [spiralCoord_ring (k - 1) (2 * (k - 1) + i) (by omega) (by omega),
            spiralCoord_ring k (2 * k + i) hk hlt6, rc2_s3 k i hk2 hi]
          try dsimp only [Dir.delta]
          try omega

theorem mrWalkStep_inv (k i : Nat) (hk : 1 ≤ k) (hi : i < k) (st : InitState)
    (hw : WalkInv k 3 i st) : WalkInv k 3 (i + 1) (mrWalkStep st i) := by
  obtain ⟨hvi, hpos, hws, hwmin, hwmax, hwinc, hsl, hnum, hpr, hnpr, hinv⟩ := hw
  have hlt6 : 3 * k + i < 6 * k := by omega
  have hpos' : (st.ri, st.gi) = ringCoord k (3 * k + i) := by
    rw [hpos]; unfold posAt; rw [if_pos hlt6]
  refine ⟨?_, ?_, ?_, ?_, ?_, ?_, ?_, ?_, ?_, ?_, ?_⟩
  · rw [mrWalkStep_vi, hvi]
    omega
  · rw [mrWalkStep_ri, mrWalkStep_gi, posAt_step3 k i hk hi]
    rw [Prod.ext_iff] at hpos' ⊢
    obtain ⟨h1, h2⟩ := hpos'
    constructor
    · dsimp only
      omega
    · dsimp only
      omega
  · rw [mrWalkStep_walkstart, hws]
  · rw [mrWalkStep_walkmin, hwmin]
  · rw [mrWalkStep_walkmax, hwmax]
  · rw [mrWalkStep_walkinc, hwinc]
  · rw [mrWalkStep_ringSideLen, hsl]
  · rw [mrWalkStep_numInRing, hnum]
  · rw [mrWalkStep_prevRing, hpr]
  · rw [mrWalkStep_npr, hnpr, hvi]
    rw [show 3 * k + (i + 1) = (3 * k + i) + 1 from by omega, List.range'_concat]
    simp
  · rw [mrWalkStep_hexen, hws, hwmin, hwmax, hpr, hvi]
    rw [show ringBase k + (3 * k + (i + 1)) = (ringBase k + (3 * k + i)) + 1 from by omega]
    apply linkIfL_SpiralInv
    · apply linkIfL_SpiralInv
      · apply linkEitherL_SpiralInv
        · exact append_SpiralInv _ _ hinv st.ri st.gi
            (by rw [spiralCoord_ring k (3 * k + i) hk hlt6]; exact hpos')
        · intro hip
          have e1 : ringBase k + (3 * k + i) - 1 = ringBase k + (3 * k + i - 1) := by omega
          have hrc := rc3_in k i hk hip hi
          refine ⟨by omega, by omega, ?_, ?_⟩
          · rw [e1, spiralCoord_ring k (3 * k + i - 1) hk (by omega),
              spiralCoord_ring k (3 * k + i) hk hlt6, hrc]
            try dsimp only [Dir.delta]
            try omega
          · rw [e1, spiralCoord_ring k (3 * k + i - 1) hk (by omega),
              spiralCoord_ring k (3 * k + i) hk hlt6, hrc]
            try dsimp only [Dir.delta]
            try omega
        · intro hip
          have hi0 : i = 0 := by omega
          have e1 : ringBase k + (3 * k + i) - 1 = ringBase k + (3 * k - 1) := by omega
          refine ⟨by omega, by omega, ?_, ?_⟩
          · rw [e1, show 3 * k + i = 3 * k from by omega,
              spiralCoord_ring k (3 * k - 1) hk (by omega),
              spiralCoord_ring k (3 * k) hk (by omega), rc3_first k hk]
            try dsimp only [Dir.delta]
            try omega
          · rw [e1, show 3 * k + i = 3 * k from by omega,
              spiralCoord_ring k (3 * k - 1) hk (by omega),
              spiralCoord_ring k (3 * k) hk (by omega), rc3_first k hk]
            try dsimp only [Dir.delta]
            try omega
      · intro hc p hp
        obtain ⟨hc1, hc2⟩ := hc
        by_cases hk1 : k = 1
        · exfalso
          omega
        · have hk2 : 2 ≤ k := by omega
          have hi1 : 1 ≤ i := by omega
          rw [prevRingIds, if_neg hk1] at hp
          obtain ⟨hge, hltl, hpv⟩ := prIdx_range'_inv _ _ _ _ hp
          have hpv' : p = ringBase (k - 1) + (3 * (k - 1) + i - 1) := by omega
          subst hpv'
          have hbs := ringBase_succ (k - 1)
          rw [show k - 1 + 1 = k from by omega] at hbs
          refine ⟨by omega, by omega, ?_, ?_⟩
          · rw [spiralCoord_ring (k - 1) (3 * (k - 1) + i - 1) (by omega) (by omega),
              spiralCoord_ring k (3 * k + i) hk hlt6, rc3_s2 k i hk2 hi1 hi]
            try dsimp only [Dir.delta]
            try omega
          · rw [spiralCoord_ring (k - 1) (3 * (k - 1) + i - 1) (by omega) (by omega),
              spiralCoord_ring k (3 * k + i) hk hlt6, rc3_s2 k i hk2 hi1 hi]
            try dsimp only [Dir.delta]
            try omega
    · intro hc p hp
      by_cases hk1 : k = 1
      · subst hk1
        have hi0 : i = 0 := by omega
        subst hi0
        rw [prevRingIds, if_pos rfl, prIdx_single, if_pos (by norm_num)] at hp
        injection hp with hp
        subst hp
        refine ⟨by omega, by omega, by decide, by decide⟩
      · have hk2 : 2 ≤ k := by omega
        rw [prevRingIds, if_neg hk1] at hp
        obtain ⟨hge, hltl, hpv⟩ := prIdx_range'_inv _ _ _ _ hp
        have hpv' : p = ringBase (k - 1) + (3 * (k - 1) + i) := by omega
        subst hpv'
        have hbs := ringBase_succ (k - 1)
        rw [show k - 1 + 1 = k from by omega] at hbs
        refine ⟨by omega, by omega, ?_, ?_⟩
        · rw [spiralCoord_ring (k - 1) (3 * (k - 1) + i) (by omega) (by omega),
            spiralCoord_ring k (3 * k + i) hk hlt6, rc3_s3 k i hk2 hi]
          try dsimp only [Dir.delta]
          try omega
        · rw [spiralCoord_ring (k - 1) (3 * (k - 1) + i) (by omega) (by omega),
            spiralCoord_ring k (3 * k + i) hk hlt6, rc3_s3 k i hk2 hi]
          try dsimp only [Dir.delta]
          try omega

theorem bWalkStep_inv (k i : Nat) (hk : 1 ≤ k) (hi : i < k) (st : InitState)
    (hw : WalkInv k 4 i st) : WalkInv k 4 (i + 1) (bWalkStep st i) := by
  obtain ⟨hvi, hpos, hws, hwmin, hwmax, hwinc, hsl, hnum, hpr, hnpr, hinv⟩ := hw
  have hlt6 : 4 * k + i < 6 * k := by omega
  have hpos' : (st.ri, st.gi) = ringCoord k (4 * k + i) := by
    rw [hpos]; unfold posAt; rw [if_pos hlt6]
  refine ⟨?_, ?_, ?_, ?_, ?_, ?_, ?_, ?_, ?_, ?_, ?_⟩
  · rw [bWalkStep_vi, hvi]
    omega
  · rw [bWalkStep_ri, bWalkStep_gi, posAt_step4 k i hk hi]
    rw [Prod.ext_iff] at hpos' ⊢
    obtain ⟨h1, h2⟩ := hpos'
    constructor
    · dsimp only
      omega
    · dsimp only
      omega
  · rw [bWalkStep_walkstart, hws]
  · rw [bWalkStep_walkmin, hwmin]
  · rw [bWalkStep_walkmax, hwmax]
  · rw [bWalkStep_walkinc, hwinc]
  · rw [bWalkStep_ringSideLen, hsl]
  · rw [bWalkStep_numInRing, hnum]
  · rw [bWalkStep_prevRing, hpr]
  · rw [bWalkStep_npr, hnpr, hvi]
    rw [show 4 * k + (i + 1) = (4 * k + i) + 1 from by omega, List.range'_concat]
    simp
  · rw [bWalkStep_hexen, hws, hwmin, hwmax, hpr, hvi]
    rw [show ringBase k + (4 * k + (i + 1)) = (ringBase k + (4 * k + i)) + 1 from by omega]
    apply linkIfL_SpiralInv
    · apply linkIfL_SpiralInv
      · apply linkEitherL_SpiralInv
        · exact append_SpiralInv _ _ hinv st.ri st.gi
            (by rw [spiralCoord_ring k (4 * k + i) hk hlt6]; exact hpos')
        · intro hip
          have e1 : ringBase k + (4 * k + i) - 1 = ringBase k + (4 * k + i - 1) := by omega
          have hrc := rc4_in k i hk hip hi
          refine ⟨by omega, by omega, ?_, ?_⟩
          · rw [e1, spiralCoord_ring k (4 * k + i - 1) hk (by omega),
              spiralCoord_ring k (4 * k + i) hk hlt6, hrc]
            try dsimp only [Dir.delta]
            try omega
          · rw [e1, spiralCoord_ring k (4 * k + i - 1) hk (by omega),
              spiralCoord_ring k (4 * k + i) hk hlt6, hrc]
            try dsimp only [Dir.delta]
            try omega
        · intro hip
          have hi0 : i = 0 := by omega
          have e1 : ringBase k + (4 * k + i) - 1 = ringBase k + (4 * k - 1) := by omega
          refine ⟨by omega, by omega, ?_, ?_⟩
          · rw [e1, show 4 * k + i = 4 * k from by omega,
              spiralCoord_ring k (4 * k - 1) hk (by omega),
              spiralCoord_ring k (4 * k) hk (by omega), rc4_first k hk]
            try dsimp only [Dir.delta]
            try omega
          · rw [e1, show 4 * k + i = 4 * k from by omega,
              spiralCoord_ring k (4 * k - 1) hk (by omega),
              spiralCoord_ring k (4 * k) hk (by omega), rc4_first k hk]
            try dsimp only [Dir.delta]
            try omega
      · intro hc p hp
        obtain ⟨hc1, hc2⟩ := hc
        by_cases hk1 : k = 1
        · exfalso
          omega
        · have hk2 : 2 ≤ k := by omega
          have hi1 : 1 ≤ i := by omega
          rw [prevRingIds, if_neg hk1] at hp
          obtain ⟨hge, hltl, hpv⟩ := prIdx_range'_inv _ _ _ _ hp
          have hpv' : p = ringBase (k - 1) + (4 * (k - 1) + i - 1) := by omega
          subst hpv'
          have hbs := ringBase_succ (k - 1)
          rw [show k - 1 + 1 = k from by omega] at hbs
          refine ⟨by omega, by omega, ?_, ?_⟩
          · rw [spiralCoord_ring (k - 1) (4 * (k - 1) + i - 1) (by omega) (by omega),
              spiralCoord_ring k (4 * k + i) hk hlt6, rc4_s2 k i hk2 hi1 hi]
            try dsimp only [Dir.delta]
            try omega
          · rw [spiralCoord_ring (k - 1) (4 * (k - 1) + i - 1) (by omega) (by omega),
              spiralCoord_ring k (4 * k + i) hk hlt6, rc4_s2 k i hk2 hi1 hi]
            try dsimp only [Dir.delta]
            try omega
    · intro hc p hp
      by_cases hk1 : k = 1
      · subst hk1
        have hi0 : i = 0 := by omega
        subst hi0
        rw [prevRingIds, if_pos rfl, prIdx_single, if_pos (by norm_num)] at hp
        injection hp with hp
        subst hp
        refine ⟨by omega, by omega, by decide, by decide⟩
      · have hk2 : 2 ≤ k := by omega
        rw [prevRingIds, if_neg hk1] at hp
        obtain ⟨hge, hltl, hpv⟩ := prIdx_range'_inv _ _ _ _ hp
        have hpv' : p = ringBase (k - 1) + (4 * (k - 1) + i) := by omega
        subst hpv'
        have hbs := ringBase_succ (k - 1)
        rw [show k - 1 + 1 = k from by omega] at hbs
        refine ⟨by omega, by omega, ?_, ?_⟩
        · rw [spiralCoord_ring (k - 1) (4 * (k - 1) + i) (by omega) (by omega),
            spiralCoord_ring k (4 * k + i) hk hlt6, rc4_s3 k i hk2 hi]
          try dsimp only [Dir.delta]
          try omega
        · rw [spiralCoord_ring (k - 1) (4 * (k - 1) + i) (by omega) (by omega),
            spiralCoord_ring k (4 * k + i) hk hlt6, rc4_s3 k i hk2 hi]
          try dsimp only [Dir.delta]
          try omega

theorem gWalkStep_inv (k i : Nat) (hk : 1 ≤ k) (hi : i < k) (st : InitState)
    (hw : WalkInv k 5 i st) : WalkInv k 5 (i + 1) (gWalkStep st i) := by
  obtain ⟨hvi, hpos, hws, hwmin, hwmax, hwinc, hsl, hnum, hpr, hnpr, hinv⟩ := hw
  have hlt6 : 5 * k + i < 6 * k := by omega
  have hpos' : (st.ri, st.gi) = ringCoord k (5 * k + i) := by
    rw [hpos]; unfold posAt; rw [if_pos hlt6]
  refine ⟨?_, ?_, ?_, ?_, ?_, ?_, ?_, ?_, ?_, ?_, ?_⟩
  · rw [gWalkStep_vi, hvi]
    omega
  · rw [gWalkStep_ri, gWalkStep_gi, posAt_step5 k i hk hi]
    rw [Prod.ext_iff] at hpos' ⊢
    obtain ⟨h1, h2⟩ := hpos'
    constructor
    · dsimp only
      omega
    · dsimp only
      omega
  · rw [gWalkStep_walkstart, hws]
  · rw [gWalkStep_walkmin, hwmin]
  · rw [gWalkStep_walkmax, hwmax]
  · rw [gWalkStep_walkinc, hwinc]
  · rw [gWalkStep_ringSideLen, hsl]
  · rw [gWalkStep_numInRing, hnum]
  · rw [gWalkStep_prevRing, hpr]
  · rw [gWalkStep_npr, hnpr, hvi]
    rw [show 5 * k + (i + 1) = (5 * k + i) + 1 from by omega, List.range'_concat]
    simp
  · rw [gWalkStep_hexen, hws, hwmin, hwmax, hpr, hvi, hsl, hnpr]
    rw [show ringBase k + (5 * k + (i + 1)) = (ringBase k + (5 * k + i)) + 1 from by omega]
    apply gSite3L_SpiralInv
    · apply linkIfL_SpiralInv
      · apply linkEitherL_SpiralInv
        · apply linkIfL_SpiralInv
          · exact append_SpiralInv _ _ hinv st.ri st.gi
              (by rw [spiralCoord_ring k (5 * k + i) hk hlt6]; exact hpos')
          · intro hik p hp
            rw [List.getElem?_range' _ _ (show (0:Nat) < 5 * k + i from by omega)] at hp
            injection hp with hp
            have hpv' : p = ringBase k + 0 := by omega
            subst hpv'
            refine ⟨by omega, by omega, ?_, ?_⟩
            · rw [show 5 * k + i = 6 * k - 1 from by omega,
                spiralCoord_ring k 0 hk (by omega),
                spiralCoord_ring k (6 * k - 1) hk (by omega), rc5_close k hk]
              try dsimp only [Dir.delta]
              try omega
            · rw [show 5 * k + i = 6 * k - 1 from by omega,
                spiralCoord_ring k 0 hk (by omega),
                spiralCoord_ring k (6 * k - 1) hk (by omega), rc5_close k hk]
              try dsimp only [Dir.delta]
              try omega
        · intro hip
          have e1 : ringBase k + (5 * k + i) - 1 = ringBase k + (5 * k + i - 1) := by omega
          have hrc := rc5_in k i hk hip hi
          refine ⟨by omega, by omega, ?_, ?_⟩
          · rw [e1, spiralCoord_ring k (5 * k + i - 1) hk (by omega),
              spiralCoord_ring k (5 * k + i) hk hlt6, hrc]
            try dsimp only [Dir.delta]
            try omega
          · rw [e1, spiralCoord_ring k (5 * k + i - 1) hk (by omega),
              spiralCoord_ring k (5 * k + i) hk hlt6, hrc]
            try dsimp only [Dir.delta]
            try omega
        · intro hip
          have hi0 : i = 0 := by omega
          have e1 : ringBase k + (5 * k + i) - 1 = ringBase k + (5 * k - 1) := by omega
          refine ⟨by omega, by omega, ?_, ?_⟩
          · rw [e1, show 5 * k + i = 5 * k from by omega,
              spiralCoord_ring k (5 * k - 1) hk (by omega),
              spiralCoord_ring k (5 * k) hk (by omega), rc5_first k hk]
            try dsimp only [Dir.delta]
            try omega
          · rw [e1, show 5 * k + i = 5 * k from by omega,
              spiralCoord_ring k (5 * k - 1) hk (by omega),
              spiralCoord_ring k (5 * k) hk (by omega), rc5_first k hk]
            try dsimp only [Dir.delta]
            try omega
      · intro hc p hp
        obtain ⟨hc1, hc2⟩ := hc
        by_cases hk1 : k = 1
        · exfalso
          omega
        · have hk2 : 2 ≤ k := by omega
          have hi1 : 1 ≤ i := by omega
          rw [prevRingIds, if_neg hk1] at hp
          obtain ⟨hge, hltl, hpv⟩ := prIdx_range'_inv _ _ _ _ hp
          have hpv' : p = ringBase (k - 1) + (5 * (k - 1) + i - 1) := by omega
          subst hpv'
          have hbs := ringBase_succ (k - 1)
          rw [show k - 1 + 1 = k from by omega] at hbs
          refine ⟨by omega, by omega, ?_, ?_⟩
          · rw [spiralCoord_ring (k - 1) (5 * (k - 1) + i - 1) (by omega) (by omega),
              spiralCoord_ring k (5 * k + i) hk hlt6, rc5_s2 k i hk2 hi1 hi]
            try dsimp only [Dir.delta]
            try omega
          · rw [spiralCoord_ring (k - 1) (5 * (k - 1) + i - 1) (by omega) (by omega),
              spiralCoord_ring k (5 * k + i) hk hlt6, rc5_s2 k i hk2 hi1 hi]
            try dsimp only [Dir.delta]
            try omega
    · intro hJ p hp
      by_cases hk1 : k = 1
      · exfalso
        subst hk1
        have hw1 : wmaxOf 1 5 = 1 := rfl
        rw [hw1] at hJ
        omega
      · have hk2 : 2 ≤ k := by omega
        unfold wmaxOf at hJ
        rw [if_neg hk1] at hJ
        push_cast at hJ
        have hi' : i = k - 1 := by omega
        rw [prevRingIds, if_neg hk1,
          List.getElem?_range' _ _ (show (0:Nat) < 6 * (k - 1) from by omega)] at hp
        injection hp with hp
        have hpv' : p = ringBase (k - 1) + 0 := by omega
        subst hpv'
        have hbs := ringBase_succ (k - 1)
        rw [show k - 1 + 1 = k from by omega] at hbs
        refine ⟨by omega, by omega, ?_, ?_⟩
        · rw [show 5 * k + i = 6 * k - 1 from by omega,
            spiralCoord_ring (k - 1) 0 (by omega) (by omega),
            spiralCoord_ring k (6 * k - 1) hk (by omega), rc5_s3wrap k hk2]
          try dsimp only [Dir.delta]
          try omega
        · rw [show 5 * k + i = 6 * k - 1 from by omega,
            spiralCoord_ring (k - 1) 0 (by omega) (by omega),
            spiralCoord_ring k (6 * k - 1) hk (by omega), rc5_s3wrap k hk2]
          try dsimp only [Dir.delta]
          try omega
    · intro hne hlt2 p hp
      by_cases hk1 : k = 1
      · subst hk1
        have hi0 : i = 0 := by omega
        subst hi0
        rw [prevRingIds, if_pos rfl, prIdx_single, if_pos (by norm_num)] at hp
        injection hp with hp
        subst hp
        refine ⟨by omega, by omega, by decide, by decide⟩
      · have hk2 : 2 ≤ k := by omega
        rw [prevRingIds, if_neg hk1] at hp
        obtain ⟨hge, hltl, hpv⟩ := prIdx_range'_inv _ _ _ _ hp
        have hi' : i < k - 1 := by omega
        have hpv' : p = ringBase (k - 1) + (5 * (k - 1) + i) := by omega
        subst hpv'
        have hbs := ringBase_succ (k - 1)
        rw [show k - 1 + 1 = k from by omega] at hbs
        refine ⟨by omega, by omega, ?_, ?_⟩
        · rw [spiralCoord_ring (k - 1) (5 * (k - 1) + i) (by omega) (by omega),
            spiralCoord_ring k (5 * k + i) hk hlt6, rc5_s3lt k i hk2 hi']
          try dsimp only [Dir.delta]
          try omega
        · rw [spiralCoord_ring (k - 1) (5 * (k - 1) + i) (by omega) (by omega),
            spiralCoord_ring k (5 * k + i) hk hlt6, rc5_s3lt k i hk2 hi']
          try dsimp only [Dir.delta]
          try omega

/-! Lifting the per-iteration lemmas through the walk loops, the window
bumps and the ring transitions. -/

theorem walkLoop_inv (f : InitState → Nat → InitState) (P : Nat → InitState → Prop)
    (n : Nat) (hstep : ∀ i s, i < n → P i s → P (i + 1) (f s i)) :
    ∀ (cnt i : Nat) (st : InitState), i + cnt = n → P i st → P n (walkLoop f st i cnt) := by
  intro cnt
  induction cnt with
  | zero =>
    intro i st hin hP
    unfold walkLoop
    rw [show i = n from by omega] at hP
    exact hP
  | succ c ih =>
    intro i st hin hP
    unfold walkLoop
    exact ih (i + 1) (f st i) (by omega) (hstep i st (by omega) hP)

theorem bump_walkInv (k w : Nat) (st : InitState) (hw : WalkInv k w k st) :
    WalkInv k (w + 1) 0 (bump st) := by
  obtain ⟨hvi, hpos, hws, hwmin, hwmax, hwinc, hsl, hnum, hpr, hnpr, hinv⟩ := hw
  refine ⟨?_, ?_, ?_, ?_, ?_, ?_, ?_, ?_, ?_, ?_, ?_⟩
  · show st.vi = _
    rw [show (w + 1) * k + 0 = w * k + k from by ring]
    exact hvi
  · show (st.ri, st.gi) = _
    rw [show (w + 1) * k + 0 = w * k + k from by ring]
    exact hpos
  · show st.walkstart + st.walkinc = _
    rw [hws, hwinc]
    push_cast
    ring
  · show st.walkmin + st.walkinc = _
    rw [hwmin, hwinc]
    push_cast
    ring
  · show st.walkmax + st.walkinc = _
    rw [hwmax, hwinc]
    unfold wmaxOf
    by_cases hk1 : k = 1
    · rw [if_pos hk1, if_pos hk1, hk1]
      norm_num
    · rw [if_neg hk1, if_neg hk1]
      push_cast
      ring
  · show st.walkinc = _
    exact hwinc
  · show st.ringSideLen = _
    exact hsl
  · show st.numInRing = _
    exact hnum
  · show st.prevRing = _
    exact hpr
  · show st.nextPrevRing = _
    rw [show (w + 1) * k + 0 = w * k + k from by ring]
    exact hnpr
  · show SpiralInv _ st.hexen
    rw [show (w + 1) * k + 0 = w * k + k from by ring]
    exact hinv

/-- The state at the top of the ring loop for ring `k`: the walk window
has been reset, `prevRing` holds ring `k - 1`, and the cell list holds
everything up to ring `k - 1` with reciprocal one-step links. -/
structure RingPre (k : Nat) (st : InitState) : Prop where
  hvi : st.vi = ringBase k
  hpos : (st.ri, st.gi) = ((1 : Int) - k, (k : Int) - 1)
  hws : st.walkstart = 0
  hwmin : st.walkmin = -1
  hwmax : st.walkmax = wmaxOf k 0
  hwinc : st.walkinc = (k : Int) - 1
  hsl : st.ringSideLen = k
  hnum : st.numInRing = 6 * k
  hpr : st.prevRing = prevRingIds k
  hinv : SpiralInv (ringBase k) st.hexen

theorem ringStart_walkInv (k : Nat) (st : InitState) (hk : 1 ≤ k) (h : RingPre k st) :
    WalkInv k 0 0 (ringStart st) := by
  obtain ⟨hvi, hpos, hws, hwmin, hwmax, hwinc, hsl, hnum, hpr, hinv⟩ := h
  rw [Prod.ext_iff] at hpos
  obtain ⟨h1, h2⟩ := hpos
  dsimp only at h1 h2
  refine ⟨?_, ?_, ?_, ?_, ?_, ?_, ?_, ?_, ?_, ?_, ?_⟩
  · show st.vi = _
    rw [hvi]
    omega
  · show (st.ri - 1, st.gi + 1) = posAt k (0 * k + 0)
    have hpa : posAt k (0 * k + 0) = ringCoord k 0 := by
      unfold posAt
      rw [if_pos (by omega)]
      rw [show 0 * k + 0 = 0 from by omega]
    rw [hpa]
    unfold ringCoord
    rw [if_pos (show (0:Nat) < k from by omega)]
    rw [Prod.ext_iff]
    constructor
    · dsimp only
      omega
    · dsimp only
      omega
  · show st.walkstart = _
    rw [hws]
    push_cast
    ring
  · show st.walkmin = _
    rw [hwmin]
    push_cast
    ring
  · show st.walkmax = _
    exact hwmax
  · show st.walkinc = _
    exact hwinc
  · show st.ringSideLen = _
    exact hsl
  · show st.numInRing = _
    exact hnum
  · show st.prevRing = _
    exact hpr
  · show ([] : List Nat) = _
    rw [show 0 * k + 0 = 0 from by omega]
    rfl
  · show SpiralInv _ st.hexen
    rw [show ringBase k + (0 * k + 0) = ringBase k from by omega]
    exact hinv

theorem ringFinish_ringPre (k : Nat) (st : InitState) (hk : 1 ≤ k)
    (hw : WalkInv k 6 0 st) : RingPre (k + 1) (ringFinish st) := by
  obtain ⟨hvi, hpos, hws, hwmin, hwmax, hwinc, hsl, hnum, hpr, hnpr, hinv⟩ := hw
  refine ⟨?_, ?_, ?_, ?_, ?_, ?_, ?_, ?_, ?_, ?_⟩
  · show st.vi = _
    rw [hvi, ringBase_succ]
    omega
  · show (st.ri, st.gi) = _
    rw [hpos]
    unfold posAt
    rw [if_neg (by omega)]
    rw [Prod.ext_iff]
    constructor
    · dsimp only
      push_cast
      ring
    · dsimp only
      push_cast
      ring
  · rfl
  · rfl
  · show (-1 : Int) + 1 + ((st.numInRing / 6 : Nat) : Int) = _
    rw [hnum, show (6 * k) / 6 = k from by omega]
    unfold wmaxOf
    rw [if_neg (show ¬(k + 1 = 1) from by omega)]
    push_cast
    ring
  · show ((st.numInRing / 6 : Nat) : Int) = _
    rw [hnum, show (6 * k) / 6 = k from by omega]
    push_cast
    ring
  · show st.ringSideLen + 1 = k + 1
    rw [hsl]
  · show st.numInRing + 6 = 6 * (k + 1)
    rw [hnum]
    ring
  · show st.nextPrevRing = prevRingIds (k + 1)
    rw [hnpr, prevRingIds]
    rw [if_neg (show ¬(k + 1 = 1) from by omega)]
    rw [show k + 1 - 1 = k from by omega]
    rw [show 6 * k + 0 = 6 * k from by omega]
  · show SpiralInv _ st.hexen
    rw [ringBase_succ]
    rw [show ringBase k + 6 * k = ringBase k + (6 * k + 0) from by omega]
    exact hinv

theorem buildRing_ringPre (k : Nat) (hk : 1 ≤ k) (st : InitState) (h : RingPre k st) :
    RingPre (k + 1) (buildRing st) := by
  have hsl := h.hsl
  have h0 : WalkInv k 0 0 (ringStart st) := ringStart_walkInv k st hk h
  have h1 : WalkInv k 0 k (walkLoop rWalkStep (ringStart st) 0 k) :=
    walkLoop_inv rWalkStep (fun i s => WalkInv k 0 i s) k
      (fun i s hi hP => rWalkStep_inv k i hk hi s hP) k 0 (ringStart st) (by omega) h0
  have h1b := bump_walkInv k 0 _ h1
  have h2 : WalkInv k 1 k _ :=
    walkLoop_inv mbWalkStep (fun i s => WalkInv k 1 i s) k
      (fun i s hi hP => mbWalkStep_inv k i hk hi s hP) k 0 _ (by omega) h1b
  have h2b := bump_walkInv k 1 _ h2
  have h3 : WalkInv k 2 k _ :=
    walkLoop_inv mgWalkStep (fun i s => WalkInv k 2 i s) k
      (fun i s hi hP => mgWalkStep_inv k i hk hi s hP) k 0 _ (by omega) h2b
  have h3b := bump_walkInv k 2 _ h3
  have h4 : WalkInv k 3 k _ :=
    walkLoop_inv mrWalkStep (fun i s => WalkInv k 3 i s) k
      (fun i s hi hP => mrWalkStep_inv k i hk hi s hP) k 0 _ (by omega) h3b
  have h4b := bump_walkInv k 3 _ h4
  have h5 : WalkInv k 4 k _ :=
    walkLoop_inv bWalkStep (fun i s => WalkInv k 4 i s) k
      (fun i s hi hP => bWalkStep_inv k i hk hi s hP) k 0 _ (by omega) h4b
  have h5b := bump_walkInv k 4 _ h5
  have h6 : WalkInv k 5 k _ :=
    walkLoop_inv gWalkStep (fun i s => WalkInv k 5 i s) k
      (fun i s hi hP => gWalkStep_inv k i hk hi s hP) k 0 _ (by omega) h5b
  have h6b := bump_walkInv k 5 _ h6
  have hfin := ringFinish_ringPre k _ hk h6b
  have hb : buildRing st = ringFinish (bump (walkLoop gWalkStep (bump (walkLoop bWalkStep
      (bump (walkLoop mrWalkStep (bump (walkLoop mgWalkStep (bump (walkLoop mbWalkStep
      (bump (walkLoop rWalkStep (ringStart st) 0 k)) 0 k)) 0 k)) 0 k)) 0 k)) 0 k)) := by
    simp only [buildRing]
    rw [hsl]
  rw [hb]
  exact hfin

theorem buildRings_ringPre (n : Nat) : ∀ (k : Nat), 1 ≤ k → ∀ (st : InitState),
    RingPre k st → RingPre (k + n) (buildRings st n) := by
  induction n with
  | zero =>
    intro k hk st h
    exact h
  | succ n ih =>
    intro k hk st h
    have h1 := buildRing_ringPre k hk st h
    have h2 := ih (k + 1) (by omega) (buildRing st) h1
    rw [show k + (n + 1) = k + 1 + n from by omega]
    exact h2

theorem initState0_ringPre : RingPre 1 initState0 := by
  refine ⟨rfl, by decide, rfl, rfl, by decide, by decide, rfl, rfl, by decide, ?_⟩
  refine ⟨⟨by decide, ?_⟩, ?_, ?_⟩
  · intro h hm
    fin_cases hm
    decide
  · intro h hm
    fin_cases hm
    intro dir b hb
    rw [mkHex_link] at hb
    exact absurd hb (by simp)
  · intro a ha b hb dir hab
    fin_cases ha
    rw [mkHex_link] at hab
    exact absurd hab (by simp)

theorem initStateFor_ringPre (maxRing : Nat) :
    RingPre (1 + maxRing) (initStateFor maxRing) :=
  buildRings_ringPre maxRing 1 (by omega) initState0 initState0_ringPre

/-! Pruning: the disconnect-and-erase passes preserve reciprocity. -/

/-- Cell transformers that keep identity and neighbour links (flag-only
updates). -/
def WiringF (F : Hex → Hex) : Prop :=
  ∀ h : Hex, (F h).hid = h.hid ∧ ∀ d : Dir, (F h).link d = h.link d

theorem WiringF_id : WiringF (fun h => h) := fun _ => ⟨rfl, fun _ => rfl⟩

theorem WiringF_comp (F G : Hex → Hex) (hF : WiringF F) (hG : WiringF G) :
    WiringF (fun h => G (F h)) := by
  intro h
  constructor
  · rw [(hG (F h)).1, (hF h).1]
  · intro d
    rw [(hG (F h)).2 d, (hF h).2 d]

theorem map_hid_of_hidpres (s : List Hex) (F : Hex → Hex)
    (hF : ∀ h, (F h).hid = h.hid) : (s.map F).map Hex.hid = s.map Hex.hid := by
  induction s with
  | nil => rfl
  | cons h t ih =>
    simp only [List.map_cons]
    rw [hF h, ih]

theorem Reciprocal_map (s : List Hex) (F : Hex → Hex) (hF : WiringF F)
    (h : Reciprocal s) : Reciprocal (s.map F) := by
  intro a ha b hb dir hab
  obtain ⟨a0, ha0, rfl⟩ := List.mem_map.mp ha
  obtain ⟨b0, hb0, rfl⟩ := List.mem_map.mp hb
  rw [(hF a0).2 dir, (hF b0).1] at hab
  rw [(hF b0).2 dir.opp, (hF a0).1]
  exact h a0 ha0 b0 hb0 dir hab

theorem link_setInsideFlag (h : Hex) (d : Dir) :
    ({ h with insideBoundary := true } : Hex).link d = h.link d := by
  cases d <;> rfl

theorem WiringF_setInside (a : Nat) :
    WiringF (fun h => if h.hid = a then { h with insideBoundary := true } else h) := by
  intro h
  dsimp only
  by_cases hh : h.hid = a
  · rw [if_pos hh]
    exact ⟨rfl, fun d => link_setInsideFlag h d⟩
  · rw [if_neg hh]
    exact ⟨rfl, fun _ => rfl⟩

theorem markHexesInside_map : ∀ (fuel : Nat) (s : List Hex) (hid : Nat),
    ∃ F, WiringF F ∧ HexGrid.markHexesInside s fuel hid = s.map F := by
  intro fuel
  induction fuel with
  | zero =>
    intro s hid
    exact ⟨fun h => h, WiringF_id, by rw [List.map_id']; try rfl⟩
  | succ fuel ih =>
    intro s hid
    unfold HexGrid.markHexesInside
    cases hf : findHex s hid with
    | none =>
      exact ⟨fun h => h, WiringF_id, by rw [List.map_id']; try rfl⟩
    | some h =>
      dsimp only
      by_cases hb : h.boundaryHex = true
      · rw [if_pos hb]
        exact ⟨_, WiringF_setInside hid, rfl⟩
      · rw [if_neg hb]
        by_cases hin : h.insideBoundary = true
        · rw [if_pos hin]
          exact ⟨fun h => h, WiringF_id, by rw [List.map_id']; try rfl⟩
        · rw [if_neg hin]
          have step : ∀ (o : Option Nat) (s0 : List Hex),
              (∃ F, WiringF F ∧ s0 = s.map F) →
              ∃ F, WiringF F ∧
                (match o with
                 | some t => HexGrid.markHexesInside s0 fuel t
                 | none => s0) = s.map F := by
            intro o s0 hex
            obtain ⟨F, hF, hs0⟩ := hex
            cases o with
            | none => exact ⟨F, hF, hs0⟩
            | some t =>
              obtain ⟨G, hG, hmap⟩ := ih s0 t
              refine ⟨fun h => G (F h), WiringF_comp F G hF hG, ?_⟩
              dsimp only
              rw [hmap, hs0, List.map_map]
              rfl
          have h1 : ∃ F, WiringF F ∧ HexGrid.setInside s hid = s.map F :=
            ⟨_, WiringF_setInside hid, rfl⟩
          have h2 := step (h.link .ne) _ h1
          have h3 := step (h.link .nne) _ h2
          have h4 := step (h.link .nnw) _ h3
          have h5 := step (h.link .nw) _ h4
          have h6 := step (h.link .nsw) _ h5
          exact step (h.link .nse) _ h6

/-- One direction's clearing action of `Hex::HexGrid.disconnectNeighbours` on a
single cell. -/
def dnStep (h : Hex) (dir : Dir) (c : Hex) : Hex :=
  match h.link dir with
  | some t => if c.hid = t then c.setDir dir.opp none else c
  | none => c

/-- The per-cell action of `HexGrid.disconnectNeighbours` accumulated over a
direction list. -/
def dnPhiL (h : Hex) : List Dir → Hex → Hex
  | [], c => c
  | d :: t, c => dnPhiL h t (dnStep h d c)

/-- The per-cell action of `HexGrid.disconnectNeighbours`. -/
def dnPhi (h : Hex) (c : Hex) : Hex := dnPhiL h dirList c

theorem foldl_clear_eq_map (h : Hex) : ∀ (l : List Dir) (s : List Hex),
    l.foldl (fun s dir => match h.link dir with
      | some t => HexGrid.clearL s t dir.opp
      | none => s) s = s.map (dnPhiL h l) := by
  intro l
  induction l with
  | nil =>
    intro s
    have he : s.map (dnPhiL h []) = s.map (fun c => c) := rfl
    rw [List.foldl_nil, he, List.map_id']
  | cons d t ih =>
    intro s
    rw [List.foldl_cons, ih]
    have hstep : (match h.link d with
        | some tt => HexGrid.clearL s tt d.opp
        | none => s) = s.map (dnStep h d) := by
      cases hd : h.link d with
      | none =>
        dsimp only
        have he : s.map (dnStep h d) = s.map (fun c => c) :=
          List.map_congr_left (fun c _ => by simp [dnStep, hd])
        rw [he, List.map_id']
      | some tt =>
        dsimp only
        unfold HexGrid.clearL
        exact List.map_congr_left (fun c _ => by simp [dnStep, hd])
    rw [hstep, List.map_map]
    rfl

theorem disconnectNeighbours_eq_map (h : Hex) (s : List Hex) :
    HexGrid.disconnectNeighbours h s = s.map (dnPhi h) :=
  foldl_clear_eq_map h dirList s

theorem dnStep_hid (h : Hex) (d : Dir) (c : Hex) : (dnStep h d c).hid = c.hid := by
  unfold dnStep
  cases h.link d with
  | none => rfl
  | some t =>
    dsimp only
    split_ifs with hc
    · rw [Hex.hid_setDir]
    · rfl

theorem dnPhiL_hid (h : Hex) : ∀ (l : List Dir) (c : Hex), (dnPhiL h l c).hid = c.hid := by
  intro l
  induction l with
  | nil => intro c; rfl
  | cons d t ih =>
    intro c
    rw [show dnPhiL h (d :: t) c = dnPhiL h t (dnStep h d c) from rfl, ih, dnStep_hid]

theorem dnStep_link (h : Hex) (d : Dir) (c : Hex) (d2 : Dir) :
    (dnStep h d c).link d2 = c.link d2 ∨
      ((dnStep h d c).link d2 = none ∧ h.link d = some c.hid ∧ d.opp = d2) := by
  unfold dnStep
  cases hd : h.link d with
  | none => exact Or.inl rfl
  | some t =>
    dsimp only
    split_ifs with hc
    · by_cases hdd : d2 = d.opp
      · subst hdd
        rw [Hex.link_setDir_same]
        exact Or.inr ⟨rfl, by rw [hc], rfl⟩
      · rw [Hex.link_setDir_other c d.opp d2 none hdd]
        exact Or.inl rfl
    · exact Or.inl rfl

theorem dnStep_link_keep (h : Hex) (d : Dir) (c : Hex) (d2 : Dir)
    (hno : ¬(h.link d = some c.hid ∧ d.opp = d2)) :
    (dnStep h d c).link d2 = c.link d2 := by
  unfold dnStep
  cases hd : h.link d with
  | none => rfl
  | some t =>
    dsimp only
    split_ifs with hc
    · have hdd : d2 ≠ d.opp := by
        intro he
        exact hno ⟨by rw [hc]; exact hd, he.symm⟩
      rw [Hex.link_setDir_other c d.opp d2 none hdd]
    · rfl

theorem dnPhiL_link (h : Hex) : ∀ (l : List Dir) (c : Hex) (d2 : Dir),
    (dnPhiL h l c).link d2 = c.link d2 ∨ ((dnPhiL h l c).link d2 = none ∧
      ∃ dir, h.link dir = some c.hid ∧ dir.opp = d2) := by
  intro l
  induction l with
  | nil => intro c d2; exact Or.inl rfl
  | cons d t ih =>
    intro c d2
    rw [show dnPhiL h (d :: t) c = dnPhiL h t (dnStep h d c) from rfl]
    rcases ih (dnStep h d c) d2 with h1 | ⟨h1, dir, hdir, hopp⟩
    · rw [h1]
      rcases dnStep_link h d c d2 with h2 | ⟨h2, h3, h4⟩
      · exact Or.inl h2
      · exact Or.inr ⟨h2, d, h3, h4⟩
    · rw [dnStep_hid] at hdir
      exact Or.inr ⟨h1, dir, hdir, hopp⟩

theorem dnPhiL_link_keep (h : Hex) : ∀ (l : List Dir) (c : Hex) (d2 : Dir),
    (∀ dir, ¬(h.link dir = some c.hid ∧ dir.opp = d2)) →
    (dnPhiL h l c).link d2 = c.link d2 := by
  intro l
  induction l with
  | nil => intro c d2 _; rfl
  | cons d t ih =>
    intro c d2 hno
    rw [show dnPhiL h (d :: t) c = dnPhiL h t (dnStep h d c) from rfl]
    have hc' : ∀ dir, ¬(h.link dir = some (dnStep h d c).hid ∧ dir.opp = d2) := by
      intro dir
      rw [dnStep_hid]
      exact hno dir
    rw [ih (dnStep h d c) d2 hc', dnStep_link_keep h d c d2 (hno d)]

theorem dnPhi_hid (h c : Hex) : (dnPhi h c).hid = c.hid := dnPhiL_hid h dirList c

theorem erase_step_reciprocal (h : Hex) (done rest : List Hex)
    (hrec : Reciprocal (done ++ h :: rest))
    (hnd : ((done ++ h :: rest).map Hex.hid).Nodup) :
    Reciprocal ((done ++ rest).map (dnPhi h)) := by
  intro a' ha' b' hb' dir hab
  obtain ⟨a, ha, rfl⟩ := List.mem_map.mp ha'
  obtain ⟨b, hb, rfl⟩ := List.mem_map.mp hb'
  have hmem : ∀ c ∈ done ++ rest, c ∈ done ++ h :: rest := by
    intro c hc
    rcases List.mem_append.mp hc with h1 | h1
    · exact List.mem_append.mpr (Or.inl h1)
    · exact List.mem_append.mpr (Or.inr (List.mem_cons_of_mem h h1))
  have has : a ∈ done ++ h :: rest := hmem a ha
  have hbs : b ∈ done ++ h :: rest := hmem b hb
  have hhs : h ∈ done ++ h :: rest :=
    List.mem_append.mpr (Or.inr (List.mem_cons_self h rest))
  have hab0 : a.link dir = some b.hid := by
    rw [show dnPhi h a = dnPhiL h dirList a from rfl,
      show dnPhi h b = dnPhiL h dirList b from rfl, dnPhiL_hid] at hab
    rcases dnPhiL_link h dirList a dir with h1 | ⟨h1, _⟩
    · rw [h1] at hab
      exact hab
    · rw [h1] at hab
      exact absurd hab (by simp)
  have hback : b.link dir.opp = some a.hid := hrec a has b hbs dir hab0
  have hkeep : ∀ dir2, ¬(h.link dir2 = some b.hid ∧ dir2.opp = dir.opp) := by
    intro dir2 hcc
    obtain ⟨hl2, hopp2⟩ := hcc
    have hdir2 : dir2 = dir := Dir.opp_inj dir2 dir hopp2
    subst hdir2
    have hbh := hrec h hhs b hbs dir2 hl2
    rw [hback] at hbh
    injection hbh with heq
    have hnd' : ((done.map Hex.hid) ++ h.hid :: (rest.map Hex.hid)).Nodup := by
      simpa using hnd
    rcases List.nodup_append.mp hnd' with ⟨hnd1, hnd2, hdisj⟩
    have hnotin2 : h.hid ∉ rest.map Hex.hid := (List.nodup_cons.mp hnd2).1
    rcases List.mem_append.mp ha with h1 | h1
    · exact hdisj (by rw [← heq]; exact List.mem_map_of_mem Hex.hid h1)
        (List.mem_cons_self _ _)
    · exact hnotin2 (by rw [← heq]; exact List.mem_map_of_mem Hex.hid h1)
  rw [show dnPhi h b = dnPhiL h dirList b from rfl,
    dnPhiL_link_keep h dirList b dir.opp hkeep, hback,
    show dnPhi h a = dnPhiL h dirList a from rfl, dnPhiL_hid]

theorem erase_step_nodup (h : Hex) (done rest : List Hex)
    (hnd : ((done ++ h :: rest).map Hex.hid).Nodup) :
    (((done ++ rest).map (dnPhi h)).map Hex.hid).Nodup := by
  rw [map_hid_of_hidpres _ _ (fun c => dnPhi_hid h c)]
  have hsub : (done ++ rest).Sublist (done ++ h :: rest) :=
    List.Sublist.append_left (List.sublist_cons_self h rest) done
  exact hnd.sublist (hsub.map Hex.hid)

theorem discardGo_reciprocal (keep : Hex → Bool) : ∀ (N : Nat) (todo : List Hex),
    todo.length ≤ N → ∀ (done : List Hex),
    Reciprocal (done ++ todo) → ((done ++ todo).map Hex.hid).Nodup →
    Reciprocal (HexGrid.discardGo keep done todo) ∧
      ((HexGrid.discardGo keep done todo).map Hex.hid).Nodup := by
  intro N
  induction N with
  | zero =>
    intro todo hlen done hrec hnd
    have htodo : todo = [] := List.length_eq_zero.mp (by omega)
    subst htodo
    unfold HexGrid.discardGo
    rw [List.append_nil] at hrec hnd
    exact ⟨hrec, hnd⟩
  | succ N ih =>
    intro todo hlen done hrec hnd
    cases todo with
    | nil =>
      unfold HexGrid.discardGo
      rw [List.append_nil] at hrec hnd
      exact ⟨hrec, hnd⟩
    | cons h rest =>
      unfold HexGrid.discardGo
      by_cases hkeep : keep h = true
      · rw [if_pos hkeep]
        have heq : done ++ [h] ++ rest = done ++ h :: rest := by simp
        refine ih rest (by simp at hlen; omega) (done ++ [h]) ?_ ?_
        · rw [heq]; exact hrec
        · rw [heq]; exact hnd
      · rw [if_neg hkeep]
        dsimp only
        have hmap := disconnectNeighbours_eq_map h (done ++ h :: rest)
        have htake : (HexGrid.disconnectNeighbours h (done ++ h :: rest)).take done.length
            = done.map (dnPhi h) := by
          rw [hmap, ← List.map_take, List.take_left]
        have hdrop : (HexGrid.disconnectNeighbours h (done ++ h :: rest)).drop (done.length + 1)
            = rest.map (dnPhi h) := by
          rw [hmap, ← List.map_drop]
          congr 1
          rw [show done ++ h :: rest = (done ++ [h]) ++ rest from by simp,
            show done.length + 1 = (done ++ [h]).length from by simp,
            List.drop_left]
        rw [htake, hdrop]
        have hr := erase_step_reciprocal h done rest hrec hnd
        have hn := erase_step_nodup h done rest hnd
        have hcomb : done.map (dnPhi h) ++ rest.map (dnPhi h)
            = (done ++ rest).map (dnPhi h) := (List.map_append _ _ _).symm
        refine ih (rest.map (dnPhi h)) (by simp at hlen ⊢; omega) (done.map (dnPhi h)) ?_ ?_
        · rw [hcomb]; exact hr
        · rw [hcomb]; exact hn

theorem link_setVi (h : Hex) (i : Nat) (d : Dir) :
    ({ h with vi := i } : Hex).link d = h.link d := by
  cases d <;> rfl

theorem renumberGo_wiring : ∀ (l : List Hex) (i : Nat), ∀ a ∈ HexGrid.renumberGo i l,
    ∃ b ∈ l, a.hid = b.hid ∧ ∀ d, a.link d = b.link d := by
  intro l
  induction l with
  | nil =>
    intro i a ha
    exact absurd ha (by simp [HexGrid.renumberGo])
  | cons h t ih =>
    intro i a ha
    rw [show HexGrid.renumberGo i (h :: t) = { h with vi := i } :: HexGrid.renumberGo (i + 1) t from rfl] at ha
    rcases List.mem_cons.mp ha with h1 | h1
    · subst h1
      exact ⟨h, List.mem_cons_self h t, rfl, fun d => link_setVi h i d⟩
    · obtain ⟨b, hb, hh⟩ := ih (i + 1) a h1
      exact ⟨b, List.mem_cons_of_mem h hb, hh⟩

theorem renumberGo_reciprocal (i : Nat) (l : List Hex) (h : Reciprocal l) :
    Reciprocal (HexGrid.renumberGo i l) := by
  intro a ha b hb dir hab
  obtain ⟨a0, ha0, hida, hlinka⟩ := renumberGo_wiring l i a ha
  obtain ⟨b0, hb0, hidb, hlinkb⟩ := renumberGo_wiring l i b hb
  rw [hlinka dir, hidb] at hab
  rw [hlinkb dir.opp, hida]
  exact h a0 ha0 b0 hb0 dir hab

theorem discardOutsideBoundary_reciprocal (g : HexGrid)
    (hrec : Reciprocal g.hexen) (hnd : (g.hexen.map Hex.hid).Nodup) :
    Reciprocal (HexGrid.discardOutsideBoundary g).hexen := by
  unfold HexGrid.discardOutsideBoundary HexGrid.renumberVectorIndices
  cases hfn : HexGrid.findHexNearest g.d g.v g.hexen g.boundaryCentroid with
  | none =>
    dsimp only
    apply renumberGo_reciprocal
    exact (discardGo_reciprocal (fun h => h.insideBoundary) g.hexen.length g.hexen
      (le_refl _) [] hrec hnd).1
  | some cid =>
    dsimp only
    apply renumberGo_reciprocal
    obtain ⟨F, hF, hmap⟩ := markHexesInside_map (g.hexen.length + 1) g.hexen cid
    rw [hmap]
    have hrec2 : Reciprocal (g.hexen.map F) := Reciprocal_map _ F hF hrec
    have hnd2 : ((g.hexen.map F).map Hex.hid).Nodup := by
      rw [map_hid_of_hidpres _ F (fun h => (hF h).1)]
      exact hnd
    exact (discardGo_reciprocal (fun h => h.insideBoundary) (g.hexen.map F).length
      (g.hexen.map F) (le_refl _) [] hrec2 hnd2).1

theorem discardOutsideDomain_reciprocal (g : HexGrid)
    (hrec : Reciprocal g.hexen) (hnd : (g.hexen.map Hex.hid).Nodup) :
    Reciprocal (HexGrid.discardOutsideDomain g).hexen := by
  unfold HexGrid.discardOutsideDomain HexGrid.renumberVectorIndices
  dsimp only
  apply renumberGo_reciprocal
  exact (discardGo_reciprocal (fun h => h.insideDomain) g.hexen.length g.hexen
    (le_refl _) [] hrec hnd).1

theorem init_reciprocal_aux (maxRing : Nat) :
    Reciprocal (initStateFor maxRing).hexen ∧
      ((initStateFor maxRing).hexen.map Hex.hid).Nodup := by
  have h := (initStateFor_ringPre maxRing).hinv
  refine ⟨h.2.2, ?_⟩
  rw [h.1.1]
  exact List.nodup_range _

/-- C1.  Neighbour reciprocity: in the lattice built by `HexGrid::init`,
whenever cell A's neighbour pointer in one of the six directions is cell B,
cell B's pointer in the opposite direction (three steps around the cycle)
is A; and both pruning passes (`discardOutsideBoundary` and
`discardOutsideDomain`, which disconnect a cell's neighbours before
erasing it) preserve this reciprocity on any grid whose cell identities
are distinct — in particular on a freshly built one. -/
theorem neighbour_reciprocity (d v x_span z : ℚ) (shape : HexDomainShape) :
    Reciprocal (HexGrid.init d v x_span z shape).hexen ∧
    (∀ g : HexGrid, Reciprocal g.hexen → (g.hexen.map Hex.hid).Nodup →
      Reciprocal (HexGrid.discardOutsideBoundary g).hexen) ∧
    (∀ g : HexGrid, Reciprocal g.hexen → (g.hexen.map Hex.hid).Nodup →
      Reciprocal (HexGrid.discardOutsideDomain g).hexen) := by
  refine ⟨?_, fun g hr hn => discardOutsideBoundary_reciprocal g hr hn,
    fun g hr hn => discardOutsideDomain_reciprocal g hr hn⟩
  exact (init_reciprocal_aux (maxRingOf d x_span)).1

/-- C1, witnessed: reciprocity of the concrete two-ring lattice and of its
two pruned forms. -/
theorem neighbour_reciprocity_witness :
    Reciprocal (HexGrid.init 1 1 2 0 HexDomainShape.Boundary).hexen ∧
    Reciprocal (HexGrid.discardOutsideBoundary
      (HexGrid.init 1 1 2 0 HexDomainShape.Boundary)).hexen ∧
    Reciprocal (HexGrid.discardOutsideDomain
      (HexGrid.init 1 1 2 0 HexDomainShape.Boundary)).hexen := by
  have h := neighbour_reciprocity 1 1 2 0 HexDomainShape.Boundary
  have hn : ((HexGrid.init 1 1 2 0 HexDomainShape.Boundary).hexen.map Hex.hid).Nodup :=
    (init_reciprocal_aux (maxRingOf 1 2)).2
  exact ⟨h.1, h.2.1 _ h.1 hn, h.2.2 _ h.1 hn⟩

end MorphHex
